import Mathlib

set_option autoImplicit false

/-!
The Zen C semantic type checker (`src/analysis/typecheck.c`).

A shallow embedding of the checker and the properties proved about it.

Conventions of the embedding.

* The checker works on heap-allocated `ASTNode`s through pointers and writes
  its results in place, into the `type_info` slot of the node it is looking at.
  A value of the Lean type `ASTNode` is a pointer: it is either `NULL` or a
  node that carries its address `addr` together with the fields the checker
  only reads (kind, token, payload, `next`).  The one field the checker writes,
  `type_info`, lives in the state, as a memory from node addresses to
  `Type *` values (`none` is the null pointer).
* A function that dereferences a pointer faults on `NULL`; the embedding
  returns `none` there (and `some` of the new state when the C function
  returns).
* C strings are Lean strings, one character per byte.
* `stderr` is the sequence of diagnostics `tc_error` has written so far.
* `error_count` is a C `int`: an integer kept within 32 bits by wraparound.
* The namespace `Heap` embeds the same functions a second time, with the whole
  AST in a mutable memory of node records and every `node->field` a read of that
  memory.  It is the model over which the tree itself is shown to be left
  unchanged; `Heap.store` lays a tree of the first model out in memory, and the
  walk over a tree that lies in memory returns what the walk over the tree
  returns (`heap_follows_tree`).
-/

namespace Typecheck

/-! ## Types and tokens (declared in `ast.h`, used by the checker) -/

/-- Modelled from the spec: `struct Type` is declared in `ast.h`, which is not
among the sources.  A type is a tagged value; `POINTER` carries its inner type
(the spec's invariant: the inner type of a pointer is always present), the
function, struct and array kinds carry nothing the checker looks at. -/
inductive Ty where
  | VOID | BOOL | CHAR | STRING
  | I8 | U8 | I16 | U16 | I32 | U32 | I64 | U64 | I128 | U128
  | F32 | F64
  | INT | UINT | USIZE | ISIZE
  | STRUCT
  | POINTER (inner : Ty)
  | FUNCTION | ARRAY
  deriving DecidableEq, Repr

/-! Modelled from the spec: the enumerators of `enum TypeKind` (`ast.h`).  The
checker relies on one fact about their order, that `TYPE_I8 .. TYPE_U128` is the
range of the ten sized integer kinds. -/

abbrev TYPE_VOID : Nat := 0
abbrev TYPE_BOOL : Nat := 1
abbrev TYPE_CHAR : Nat := 2
abbrev TYPE_STRING : Nat := 3
abbrev TYPE_I8 : Nat := 4
abbrev TYPE_U8 : Nat := 5
abbrev TYPE_I16 : Nat := 6
abbrev TYPE_U16 : Nat := 7
abbrev TYPE_I32 : Nat := 8
abbrev TYPE_U32 : Nat := 9
abbrev TYPE_I64 : Nat := 10
abbrev TYPE_U64 : Nat := 11
abbrev TYPE_I128 : Nat := 12
abbrev TYPE_U128 : Nat := 13
abbrev TYPE_F32 : Nat := 14
abbrev TYPE_F64 : Nat := 15
abbrev TYPE_INT : Nat := 16
abbrev TYPE_UINT : Nat := 17
abbrev TYPE_USIZE : Nat := 18
abbrev TYPE_ISIZE : Nat := 19
abbrev TYPE_STRUCT : Nat := 20
abbrev TYPE_POINTER : Nat := 21
abbrev TYPE_FUNCTION : Nat := 22
abbrev TYPE_ARRAY : Nat := 23

/-- The field `t->kind`. -/
def Ty.kind : Ty → Nat
  | .VOID => TYPE_VOID | .BOOL => TYPE_BOOL | .CHAR => TYPE_CHAR | .STRING => TYPE_STRING
  | .I8 => TYPE_I8 | .U8 => TYPE_U8 | .I16 => TYPE_I16 | .U16 => TYPE_U16
  | .I32 => TYPE_I32 | .U32 => TYPE_U32 | .I64 => TYPE_I64 | .U64 => TYPE_U64
  | .I128 => TYPE_I128 | .U128 => TYPE_U128
  | .F32 => TYPE_F32 | .F64 => TYPE_F64
  | .INT => TYPE_INT | .UINT => TYPE_UINT | .USIZE => TYPE_USIZE | .ISIZE => TYPE_ISIZE
  | .STRUCT => TYPE_STRUCT | .POINTER _ => TYPE_POINTER
  | .FUNCTION => TYPE_FUNCTION | .ARRAY => TYPE_ARRAY

/-- Modelled from the spec: `type_eq` is a collaborator declared by the parser
(`ast.h`), not among the sources.  Equality is structural: the same kind and,
for `POINTER`, structurally equal inner types. -/
def type_eq : Ty → Ty → Bool
  | .POINTER a, .POINTER b => type_eq a b
  | a, b => a.kind == b.kind

/-- A source location; the checker passes tokens on to `tc_error`, which prints
`t.line` and `t.col`. -/
structure Token where
  line : Int
  col : Int
  deriving DecidableEq, Repr

/-- The token `(Token){0}`. -/
def Token.zero : Token := ⟨0, 0⟩

/-- The parser context handed to `check_program`; the checker stores it and
never looks inside. -/
structure ParserContext where
  handle : Nat
  deriving DecidableEq, Repr

/-! ## AST nodes -/

/-- A pointer to an `ASTNode` (declared in `ast.h`): `NULL`, or a node of one of
the kinds the `switch` of `check_node` lists.  `NODE_EXPR_UNARY` stands for the
kinds the `switch` does not list (its `default` branch); negative numbers are
parsed as such a node over a literal.  Every node has an address, a token and a
`next` link; the payload is that of the kind.  The arrays of a function node
are pointers that may be null, holding entries that may be null. -/
inductive ASTNode where
  | NULL
  | NODE_ROOT (addr : Nat) (token : Token) (children : ASTNode) (next : ASTNode)
  | NODE_BLOCK (addr : Nat) (token : Token) (statements : ASTNode) (next : ASTNode)
  | NODE_VAR_DECL (addr : Nat) (token : Token) (name : String) (init_expr : ASTNode)
      (next : ASTNode)
  | NODE_FUNCTION (addr : Nat) (token : Token) (param_names : Option (List (Option String)))
      (arg_types : Option (List (Option Ty))) (arg_count : Nat) (body : ASTNode)
      (next : ASTNode)
  | NODE_EXPR_VAR (addr : Nat) (token : Token) (name : String) (next : ASTNode)
  | NODE_RETURN (addr : Nat) (token : Token) (value : ASTNode) (next : ASTNode)
  | NODE_IF (addr : Nat) (token : Token) (condition : ASTNode) (then_body : ASTNode)
      (else_body : ASTNode) (next : ASTNode)
  | NODE_WHILE (addr : Nat) (token : Token) (condition : ASTNode) (body : ASTNode)
      (next : ASTNode)
  | NODE_FOR (addr : Nat) (token : Token) (init : ASTNode) (condition : ASTNode)
      (step : ASTNode) (body : ASTNode) (next : ASTNode)
  | NODE_EXPR_BINARY (addr : Nat) (token : Token) (left : ASTNode) (right : ASTNode)
      (next : ASTNode)
  | NODE_EXPR_CALL (addr : Nat) (token : Token) (callee : ASTNode) (args : ASTNode)
      (next : ASTNode)
  | NODE_EXPR_LITERAL (addr : Nat) (token : Token) (string_val : Option String)
      (type_kind : Int) (next : ASTNode)
  | NODE_EXPR_UNARY (addr : Nat) (token : Token) (operand : ASTNode) (next : ASTNode)
  deriving DecidableEq, Repr

/-- The address a pointer holds, `none` for `NULL`. -/
def ASTNode.addr : ASTNode → Option Nat
  | .NULL => none
  | .NODE_ROOT a _ _ _ => some a
  | .NODE_BLOCK a _ _ _ => some a
  | .NODE_VAR_DECL a _ _ _ _ => some a
  | .NODE_FUNCTION a _ _ _ _ _ _ => some a
  | .NODE_EXPR_VAR a _ _ _ => some a
  | .NODE_RETURN a _ _ _ => some a
  | .NODE_IF a _ _ _ _ _ => some a
  | .NODE_WHILE a _ _ _ _ => some a
  | .NODE_FOR a _ _ _ _ _ _ => some a
  | .NODE_EXPR_BINARY a _ _ _ _ => some a
  | .NODE_EXPR_CALL a _ _ _ _ => some a
  | .NODE_EXPR_LITERAL a _ _ _ _ => some a
  | .NODE_EXPR_UNARY a _ _ _ => some a

/-- The field `node->next` (`NULL` for the null pointer). -/
def ASTNode.next : ASTNode → ASTNode
  | .NULL => .NULL
  | .NODE_ROOT _ _ _ n => n
  | .NODE_BLOCK _ _ _ n => n
  | .NODE_VAR_DECL _ _ _ _ n => n
  | .NODE_FUNCTION _ _ _ _ _ _ n => n
  | .NODE_EXPR_VAR _ _ _ n => n
  | .NODE_RETURN _ _ _ n => n
  | .NODE_IF _ _ _ _ _ n => n
  | .NODE_WHILE _ _ _ _ n => n
  | .NODE_FOR _ _ _ _ _ _ n => n
  | .NODE_EXPR_BINARY _ _ _ _ n => n
  | .NODE_EXPR_CALL _ _ _ _ n => n
  | .NODE_EXPR_LITERAL _ _ _ _ n => n
  | .NODE_EXPR_UNARY _ _ _ n => n

/-- The test `!node`. -/
def ASTNode.is_null : ASTNode → Bool
  | .NULL => true
  | _ => false

/-! ## The checker state -/

/-- A symbol of a scope (`typecheck.h`). -/
structure Symbol where
  name : String
  type_info : Option Ty
  decl_token : Token
  deriving DecidableEq, Repr

/-- A scope: its symbols, most recently added first.  The `parent` link of the
C struct is the rest of the scope stack. -/
structure Scope where
  symbols : List Symbol
  deriving DecidableEq, Repr

/-- One line written by `tc_error`: the location and the message of
`"Type Error at <file>:<line>:<col>: <msg>"`. -/
structure Diagnostic where
  tok : Token
  msg : String
  deriving DecidableEq, Repr

/-- The state a pass works on.  `pctx`, `current_scope`, `current_func` and
`error_count` are the fields of the C `TypeChecker` (`current_scope` is the
stack of scopes reached through `parent`, innermost first, `[]` for `NULL`;
`current_func` is the address of a function node).  `type_info` is the memory
holding the `type_info` slot of every AST node, `stderr` is what `tc_error` has
printed, and `scope_enters` and `scope_exits` count the calls of
`tc_enter_scope` and `tc_exit_scope` (they are never read by the checker).
The struct is declared in `typecheck.h`, which is not among the sources;
`error_count` is the spec's `int` counter (`check_program` prints it with
`%d`): an integer that `tc_error` keeps within `INT_MIN .. INT_MAX`. -/
structure TypeChecker where
  pctx : ParserContext
  current_scope : List Scope
  current_func : Option Nat
  error_count : Int
  type_info : Nat → Option Ty
  stderr : List Diagnostic
  scope_enters : Nat
  scope_exits : Nat

/-- The assignment `node->type_info = t` for the node at `addr`. -/
def TypeChecker.set_type_info (tc : TypeChecker) (addr : Nat) (t : Option Ty) : TypeChecker :=
  { tc with type_info := fun a => if a = addr then t else tc.type_info a }

/-- The read `node->type_info` through a pointer: a fault on `NULL`. -/
def TypeChecker.deref_type_info (tc : TypeChecker) (node : ASTNode) : Option (Option Ty) :=
  match node.addr with
  | none => none
  | some a => some (tc.type_info a)

/-! ## Internal helpers -/

/-- The largest value of a C `int` (32 bits). -/
def INT_MAX : Int := 2147483647

/-- The smallest value of a C `int` (32 bits). -/
def INT_MIN : Int := -2147483648

/-- The value an `int` holds when the result of an arithmetic operation is `n`:
`n` reduced modulo `2^32` into `INT_MIN .. INT_MAX`.  ISO C leaves signed
overflow undefined; this is the two's-complement wraparound of the compiled
code, in which incrementing `INT_MAX` gives `INT_MIN`. -/
def wrap_int (n : Int) : Int :=
  (n + 2147483648) % 4294967296 - 2147483648

/-- Source lines 9-13.  `tc->error_count++` increments an `int`. -/
def tc_error (tc : TypeChecker) (t : Token) (msg : String) : TypeChecker :=
  { tc with stderr := tc.stderr ++ [⟨t, msg⟩], error_count := wrap_int (tc.error_count + 1) }

/-- Source lines 15-20. -/
def tc_enter_scope (tc : TypeChecker) : TypeChecker :=
  { tc with current_scope := ⟨[]⟩ :: tc.current_scope, scope_enters := tc.scope_enters + 1 }

/-- Source lines 22-36. -/
def tc_exit_scope (tc : TypeChecker) : TypeChecker :=
  match tc.current_scope with
  | [] => { tc with scope_exits := tc.scope_exits + 1 }
  | _ :: parent => { tc with current_scope := parent, scope_exits := tc.scope_exits + 1 }

/-- Source lines 38-47.  `tc->current_scope->symbols` is read without a null
test: with no scope on the stack the function faults. -/
def tc_add_symbol (tc : TypeChecker) (name : String) (type : Option Ty) (t : Token) :
    Option TypeChecker :=
  match tc.current_scope with
  | [] => none
  | s :: parent => some { tc with current_scope := ⟨⟨name, type, t⟩ :: s.symbols⟩ :: parent }

/-- The inner loop of `tc_lookup` (source lines 52-58). -/
def lookup_symbols (name : String) : List Symbol → Option Symbol
  | [] => none
  | curr :: rest => if curr.name = name then some curr else lookup_symbols name rest

/-- The outer loop of `tc_lookup` (source lines 50-61). -/
def lookup_scopes (name : String) : List Scope → Option Symbol
  | [] => none
  | s :: parent =>
    match lookup_symbols name s.symbols with
    | some sym => some sym
    | none => lookup_scopes name parent

/-- Source lines 49-62. -/
def tc_lookup (tc : TypeChecker) (name : String) : Option Symbol :=
  lookup_scopes name tc.current_scope

/-- Source lines 64-70. -/
def is_integer_type : Option Ty → Bool
  | none => false
  | some t =>
    (decide (TYPE_I8 ≤ t.kind) && decide (t.kind ≤ TYPE_U128)) || t.kind == TYPE_INT ||
      t.kind == TYPE_UINT || t.kind == TYPE_USIZE || t.kind == TYPE_ISIZE

/-- Source lines 72-78. -/
def is_signed_integer : Option Ty → Bool
  | none => false
  | some t =>
    t.kind == TYPE_I8 || t.kind == TYPE_I16 || t.kind == TYPE_I32 || t.kind == TYPE_I64 ||
      t.kind == TYPE_I128 || t.kind == TYPE_INT || t.kind == TYPE_ISIZE

/-- Source lines 82-99. -/
def is_safe_integer_literal : ASTNode → Bool
  | .NODE_EXPR_LITERAL _ _ string_val type_kind _ =>
    if string_val ≠ none then false
    else if type_kind = 1 then false
    else true
  | _ => false

/-- What `snprintf(msg, size, ...)` leaves in `msg` when the formatted text is
`text`: at most `size - 1` bytes of it. -/
def snprintf (size : Nat) (text : String) : String :=
  ⟨text.data.take (size - 1)⟩

/-- The test `t->kind == TYPE_POINTER && t->inner->kind == TYPE_VOID`. -/
def is_void_pointer : Ty → Bool
  | .POINTER inner => inner.kind == TYPE_VOID
  | _ => false

/-! ## Node checkers

`type_to_string` is a collaborator declared by the parser (`ast.h`) and not
among the sources; the checkers take it as a parameter. -/

/-- The text formatted at source lines 151-154. -/
def sign_mismatch_text (type_to_string : Ty → String) (target value_type : Ty) : String :=
  "Sign mismatch: cannot implicitly convert '" ++ type_to_string value_type ++ "' to '" ++
    type_to_string target ++ "' (use cast or unsigned literal)"

/-- The text formatted at source line 169. -/
def type_mismatch_text (type_to_string : Ty → String) (target value_type : Ty) : String :=
  "Type mismatch: expected '" ++ type_to_string target ++ "', got '" ++
    type_to_string value_type ++ "'"

/-- Source lines 115-174: the new state and the returned flag. -/
def check_type_compatibility (type_to_string : Ty → String) (tc : TypeChecker)
    (target : Option Ty) (value_expr : ASTNode) (t : Token) : TypeChecker × Bool :=
  match target, value_expr.addr with
  | none, _ => (tc, true)
  | some _, none => (tc, true)
  | some target, some a =>
    match tc.type_info a with
    | none => (tc, true)
    | some value_type =>
      if type_eq target value_type then (tc, true)
      else if is_void_pointer target then (tc, true)
      else if is_void_pointer value_type then (tc, true)
      else if is_integer_type (some target) && is_integer_type (some value_type) then
        if is_signed_integer (some target) ≠ is_signed_integer (some value_type) then
          if is_safe_integer_literal value_expr then (tc, true)
          else
            (tc_error tc t (snprintf 255 (sign_mismatch_text type_to_string target value_type)),
              false)
        else (tc, true)
      else
        (tc_error tc t (snprintf 255 (type_mismatch_text type_to_string target value_type)),
          false)

/-- Source lines 180-186 of `check_var_decl`: what follows `check_node` on a
present initializer. -/
def var_decl_compat (type_to_string : Ty → String) (tc : TypeChecker) (addr : Nat)
    (token : Token) (init_expr : ASTNode) : TypeChecker :=
  if init_expr.is_null then tc
  else
    match tc.type_info addr with
    | none => tc
    | some decl_type =>
      (check_type_compatibility type_to_string tc (some decl_type) init_expr token).1

/-- Source lines 189-195 of `check_var_decl`. -/
def var_decl_publish (tc : TypeChecker) (addr : Nat) (token : Token) (name : String)
    (init_expr : ASTNode) : Option TypeChecker :=
  let t : Option Ty :=
    match tc.type_info addr, init_expr.addr with
    | none, some i => tc.type_info i
    | t, _ => t
  (tc_add_symbol tc name t token).map fun tc1 => tc1.set_type_info addr t

/-- The body of the loop at source lines 204-210 for index `i`.  Reading an
array past its end is a fault. -/
def function_param (param_names : Option (List (Option String)))
    (arg_types : Option (List (Option Ty))) (tc : TypeChecker) (i : Nat) : Option TypeChecker :=
  match param_names with
  | none => some tc
  | some names =>
    match names.get? i with
    | none => none
    | some none => some tc
    | some (some name) =>
      match arg_types with
      | none => tc_add_symbol tc name none Token.zero
      | some types =>
        match types.get? i with
        | none => none
        | some t => tc_add_symbol tc name t Token.zero

/-- The loop at source lines 204-210. -/
def function_params (param_names : Option (List (Option String)))
    (arg_types : Option (List (Option Ty))) (arg_count : Nat) (tc : TypeChecker) :
    Option TypeChecker :=
  (List.range arg_count).foldlM (function_param param_names arg_types) tc

/-- Source lines 218-223. -/
def check_expr_var (tc : TypeChecker) (addr : Nat) (name : String) : TypeChecker :=
  match tc_lookup tc name with
  | none => tc
  | some sym =>
    match sym.type_info with
    | none => tc
    | some t => tc.set_type_info addr (some t)

/-- Source lines 249-253 of the `NODE_RETURN` case: what follows `check_node` on
a present value. -/
def return_compat (type_to_string : Ty → String) (tc : TypeChecker) (token : Token)
    (value : ASTNode) : TypeChecker :=
  if value.is_null then tc
  else
    match tc.current_func with
    | none => tc
    | some f =>
      match tc.type_info f with
      | none => tc
      | some ret_type =>
        (check_type_compatibility type_to_string tc (some ret_type) value token).1

/-- Source lines 279-287 of the `NODE_EXPR_BINARY` case.  `node->binary.left` is
dereferenced without a null test. -/
def binary_infer (type_to_string : Ty → String) (tc : TypeChecker) (addr : Nat)
    (token : Token) (left right : ASTNode) : Option TypeChecker :=
  match tc.deref_type_info left with
  | none => none
  | some none => some tc
  | some (some left_type) =>
    let tc1 := tc.set_type_info addr (some left_type)
    match tc1.deref_type_info left with
    | none => none
    | some target => some (check_type_compatibility type_to_string tc1 target right token).1

/-- Source lines 293-296 of the `NODE_EXPR_CALL` case.  `node->call.callee` is
dereferenced without a null test. -/
def call_propagate (tc : TypeChecker) (addr : Nat) (callee : ASTNode) : Option TypeChecker :=
  match tc.deref_type_info callee with
  | none => none
  | some none => some tc
  | some (some callee_type) => some (tc.set_type_info addr (some callee_type))

/-- The recursion of `check_node` (source lines 225-310) together with the loop
of `check_block` (source lines 107-111).  With `loop = false` this is
`check_node`: dispatch on the kind, then `check_node` on `node->next`.  With
`loop = true` it is the loop `while (stmt) { check_node(tc, stmt); stmt =
stmt->next; }` started at the node: `check_node` on it, then the loop from
`node->next`.  The bodies of `check_block`, `check_var_decl` and
`check_function` stand in their cases. -/
def check_node_aux (type_to_string : Ty → String) (loop : Bool) (tc : TypeChecker) :
    ASTNode → Option TypeChecker
  | .NULL => some tc
  | .NODE_ROOT _ _ children next => do
    let tc ← check_node_aux type_to_string false tc children
    let tc ← check_node_aux type_to_string false tc next
    if loop then check_node_aux type_to_string true tc next else pure tc
  | .NODE_BLOCK _ _ statements next => do
    let tc ← check_node_aux type_to_string true (tc_enter_scope tc) statements
    let tc ← check_node_aux type_to_string false (tc_exit_scope tc) next
    if loop then check_node_aux type_to_string true tc next else pure tc
  | .NODE_VAR_DECL addr token name init_expr next => do
    let tc ← check_node_aux type_to_string false tc init_expr
    let tc ← var_decl_publish (var_decl_compat type_to_string tc addr token init_expr)
      addr token name init_expr
    let tc ← check_node_aux type_to_string false tc next
    if loop then check_node_aux type_to_string true tc next else pure tc
  | .NODE_FUNCTION addr _ param_names arg_types arg_count body next => do
    let tc ← function_params param_names arg_types arg_count
      (tc_enter_scope { tc with current_func := some addr })
    let tc ← check_node_aux type_to_string false tc body
    let tc ← check_node_aux type_to_string false
      { tc_exit_scope tc with current_func := none } next
    if loop then check_node_aux type_to_string true tc next else pure tc
  | .NODE_EXPR_VAR addr _ name next => do
    let tc ← check_node_aux type_to_string false (check_expr_var tc addr name) next
    if loop then check_node_aux type_to_string true tc next else pure tc
  | .NODE_RETURN _ token value next => do
    let tc ← check_node_aux type_to_string false tc value
    let tc ← check_node_aux type_to_string false (return_compat type_to_string tc token value)
      next
    if loop then check_node_aux type_to_string true tc next else pure tc
  | .NODE_IF _ _ condition then_body else_body next => do
    let tc ← check_node_aux type_to_string false tc condition
    let tc ← check_node_aux type_to_string false tc then_body
    let tc ← check_node_aux type_to_string false tc else_body
    let tc ← check_node_aux type_to_string false tc next
    if loop then check_node_aux type_to_string true tc next else pure tc
  | .NODE_WHILE _ _ condition body next => do
    let tc ← check_node_aux type_to_string false tc condition
    let tc ← check_node_aux type_to_string false tc body
    let tc ← check_node_aux type_to_string false tc next
    if loop then check_node_aux type_to_string true tc next else pure tc
  | .NODE_FOR _ _ init condition step body next => do
    let tc ← check_node_aux type_to_string false (tc_enter_scope tc) init
    let tc ← check_node_aux type_to_string false tc condition
    let tc ← check_node_aux type_to_string false tc step
    let tc ← check_node_aux type_to_string false tc body
    let tc ← check_node_aux type_to_string false (tc_exit_scope tc) next
    if loop then check_node_aux type_to_string true tc next else pure tc
  | .NODE_EXPR_BINARY addr token left right next => do
    let tc ← check_node_aux type_to_string false tc left
    let tc ← check_node_aux type_to_string false tc right
    let tc ← binary_infer type_to_string tc addr token left right
    let tc ← check_node_aux type_to_string false tc next
    if loop then check_node_aux type_to_string true tc next else pure tc
  | .NODE_EXPR_CALL addr _ callee args next => do
    let tc ← check_node_aux type_to_string false tc callee
    let tc ← check_node_aux type_to_string false tc args
    let tc ← call_propagate tc addr callee
    let tc ← check_node_aux type_to_string false tc next
    if loop then check_node_aux type_to_string true tc next else pure tc
  | .NODE_EXPR_LITERAL _ _ _ _ next => do
    let tc ← check_node_aux type_to_string false tc next
    if loop then check_node_aux type_to_string true tc next else pure tc
  | .NODE_EXPR_UNARY _ _ _ next => do
    let tc ← check_node_aux type_to_string false tc next
    if loop then check_node_aux type_to_string true tc next else pure tc

/-- Source lines 225-310. -/
def check_node (type_to_string : Ty → String) (tc : TypeChecker) (node : ASTNode) :
    Option TypeChecker :=
  check_node_aux type_to_string false tc node

/-- The loop of `check_block`, source lines 107-111, started at `stmt`. -/
def check_block_loop (type_to_string : Ty → String) (tc : TypeChecker) (stmt : ASTNode) :
    Option TypeChecker :=
  check_node_aux type_to_string true tc stmt

/-- Source lines 105-113, for a block whose `block.statements` is `statements`. -/
def check_block (type_to_string : Ty → String) (tc : TypeChecker) (statements : ASTNode) :
    Option TypeChecker :=
  (check_block_loop type_to_string (tc_enter_scope tc) statements).map tc_exit_scope

/-- Source lines 176-196, for the declaration node at `addr`. -/
def check_var_decl (type_to_string : Ty → String) (tc : TypeChecker) (addr : Nat)
    (token : Token) (name : String) (init_expr : ASTNode) : Option TypeChecker :=
  (check_node type_to_string tc init_expr).bind fun tc1 =>
    var_decl_publish (var_decl_compat type_to_string tc1 addr token init_expr)
      addr token name init_expr

/-- Source lines 198-216, for the function node at `addr`. -/
def check_function (type_to_string : Ty → String) (tc : TypeChecker) (addr : Nat)
    (param_names : Option (List (Option String))) (arg_types : Option (List (Option Ty)))
    (arg_count : Nat) (body : ASTNode) : Option TypeChecker :=
  (function_params param_names arg_types arg_count
    (tc_enter_scope { tc with current_func := some addr })).bind fun tc1 =>
  (check_node type_to_string tc1 body).map fun tc2 =>
    { tc_exit_scope tc2 with current_func := none }

/-! ## Entry point -/

/-- The state `TypeChecker tc = {0}; tc.pctx = ctx;` over the AST memory
`types`. -/
def initial_checker (ctx : ParserContext) (types : Nat → Option Ty) : TypeChecker :=
  { pctx := ctx, current_scope := [], current_func := none, error_count := 0,
    type_info := types, stderr := [], scope_enters := 0, scope_exits := 0 }

/-- What a call of `check_program` that returns leaves behind: the returned
status, the lines printed on standard output, and the final checker state. -/
structure Outcome where
  status : Int
  stdout : List String
  tc : TypeChecker

/-- Source lines 314-327, run on the tree `root` whose `type_info` slots hold
`types`. -/
def check_program (type_to_string : Ty → String) (ctx : ParserContext)
    (types : Nat → Option Ty) (root : ASTNode) : Option Outcome :=
  (check_node type_to_string (initial_checker ctx types) root).map fun tc =>
    if tc.error_count > 0 then
      { status := 1,
        stdout := ["[TypeCheck] Starting semantic analysis...\n",
          "[TypeCheck] Found " ++ toString tc.error_count ++ " errors.\n"],
        tc := tc }
    else
      { status := 0,
        stdout := ["[TypeCheck] Starting semantic analysis...\n", "[TypeCheck] Passed.\n"],
        tc := tc }

/-! ## Relations between the state before and after a check -/

/-- The scope stack `new` has the scopes of `old`, the same parent chain, and
possibly more symbols in its innermost scope, added in front of those of
`old`. -/
def scope_grows (old new : List Scope) : Prop :=
  match old with
  | [] => new = []
  | s :: parent => ∃ added : List Symbol, new = ⟨added ++ s.symbols⟩ :: parent

/-- The value of `error_count` after `k` calls of `tc_error`, when it was `n`
before them. -/
def count_after : Nat → Int → Int
  | 0, n => n
  | k + 1, n => count_after k (wrap_int (n + 1))

/-- What every completed check guarantees about the state `tc1` it leaves,
compared with the state `tc` it started from. -/
structure Progress (tc tc1 : TypeChecker) : Prop where
  pctx : tc1.pctx = tc.pctx
  scope : scope_grows tc.current_scope tc1.current_scope
  errors : ∃ emitted : List Diagnostic,
    tc1.stderr = tc.stderr ++ emitted ∧
      tc1.error_count = count_after emitted.length tc.error_count
  ops : tc1.scope_enters + tc.scope_exits = tc.scope_enters + tc1.scope_exits
  types : ∀ a, tc.type_info a ≠ none → tc1.type_info a ≠ none
  enters : tc.scope_enters ≤ tc1.scope_enters

/-! ## Faults -/

/-- The array reads of the loop body at source lines 205-209 stay in bounds for
index `i`. -/
def param_in_bounds (param_names : Option (List (Option String)))
    (arg_types : Option (List (Option Ty))) (i : Nat) : Bool :=
  match param_names with
  | none => true
  | some names =>
    match names.get? i with
    | none => false
    | some none => true
    | some (some _) =>
      match arg_types with
      | none => true
      | some types => (types.get? i).isSome

/-- The array reads of the loop at source lines 204-210 stay in bounds. -/
def params_in_bounds (param_names : Option (List (Option String)))
    (arg_types : Option (List (Option Ty))) (arg_count : Nat) : Bool :=
  (List.range arg_count).all (param_in_bounds param_names arg_types)

/-- No step of checking `node` with `depth` scopes on the stack dereferences a
null pointer or reads an array past its end: no declaration is published with
an empty scope stack, every binary node has a left operand, every call has a
callee, and the parameter arrays of every function have `arg_count` entries. -/
def fault_free (depth : Nat) : ASTNode → Bool
  | .NULL => true
  | .NODE_ROOT _ _ children next => fault_free depth children && fault_free depth next
  | .NODE_BLOCK _ _ statements next => fault_free (depth + 1) statements && fault_free depth next
  | .NODE_VAR_DECL _ _ _ init_expr next =>
    fault_free depth init_expr && decide (0 < depth) && fault_free depth next
  | .NODE_FUNCTION _ _ param_names arg_types arg_count body next =>
    params_in_bounds param_names arg_types arg_count && fault_free (depth + 1) body &&
      fault_free depth next
  | .NODE_EXPR_VAR _ _ _ next => fault_free depth next
  | .NODE_RETURN _ _ value next => fault_free depth value && fault_free depth next
  | .NODE_IF _ _ condition then_body else_body next =>
    fault_free depth condition && fault_free depth then_body && fault_free depth else_body &&
      fault_free depth next
  | .NODE_WHILE _ _ condition body next =>
    fault_free depth condition && fault_free depth body && fault_free depth next
  | .NODE_FOR _ _ init condition step body next =>
    fault_free (depth + 1) init && fault_free (depth + 1) condition &&
      fault_free (depth + 1) step && fault_free (depth + 1) body && fault_free depth next
  | .NODE_EXPR_BINARY _ _ left right next =>
    fault_free depth left && fault_free depth right && !left.is_null && fault_free depth next
  | .NODE_EXPR_CALL _ _ callee args next =>
    fault_free depth callee && fault_free depth args && !callee.is_null && fault_free depth next
  | .NODE_EXPR_LITERAL _ _ _ _ next => fault_free depth next
  | .NODE_EXPR_UNARY _ _ _ next => fault_free depth next

/-! ## The vocabulary of the specification -/

/-- The signed integer kinds of the spec's data model. -/
def signed_kinds : List Ty := [.I8, .I16, .I32, .I64, .I128, .INT, .ISIZE]

/-- The unsigned integer kinds of the spec's data model. -/
def unsigned_kinds : List Ty := [.U8, .U16, .U32, .U64, .U128, .UINT, .USIZE]

/-- The integer kinds of the spec: `I8..U128, INT, UINT, USIZE, ISIZE`. -/
def integer_kinds : List Ty := signed_kinds ++ unsigned_kinds

/-- The spec's safe literal: an `EXPR_LITERAL` whose `string_val` is null and
whose `type_kind` is not 1. -/
def plain_literal (node : ASTNode) : Prop :=
  ∃ addr token type_kind next,
    node = .NODE_EXPR_LITERAL addr token none type_kind next ∧ type_kind ≠ 1

/-- The spec's ordered rules of the compatibility relation, as one condition on
the target, the value expression and the type `value` found in its `type_info`
slot (`none` when the expression is null). -/
def spec_accepts (target : Option Ty) (value_expr : ASTNode) (value : Option Ty) : Prop :=
  target = none ∨ value_expr = .NULL ∨ value = none ∨
    ∃ T V, target = some T ∧ value = some V ∧
      (type_eq T V = true ∨ T = .POINTER .VOID ∨ V = .POINTER .VOID ∨
        (T ∈ integer_kinds ∧ V ∈ integer_kinds ∧
          ((T ∈ signed_kinds ↔ V ∈ signed_kinds) ∨ plain_literal value_expr)))

/-- The `type_info` slot of the node a pointer leads to, `none` for `NULL`. -/
def TypeChecker.type_of (tc : TypeChecker) (node : ASTNode) : Option Ty :=
  match node.addr with
  | none => none
  | some a => tc.type_info a

/-- The text of the diagnostic the compatibility relation emits for a rejected
pair: the sign mismatch when both types are integer kinds, the type mismatch
otherwise. -/
def rejection_text (type_to_string : Ty → String) (target value_type : Ty) : String :=
  if target ∈ integer_kinds ∧ value_type ∈ integer_kinds then
    sign_mismatch_text type_to_string target value_type
  else type_mismatch_text type_to_string target value_type

/-- An expression whose check looks at no other node and has no sibling: a
literal, a variable reference, or a node of a kind the `switch` does not list
(such as a negation). -/
def leaf_expr : ASTNode → Bool
  | .NODE_EXPR_LITERAL _ _ _ _ .NULL => true
  | .NODE_EXPR_VAR _ _ _ .NULL => true
  | .NODE_EXPR_UNARY _ _ _ .NULL => true
  | _ => false

/-- The state `tc1` has recorded exactly the diagnostics `ds` since `tc`: they
were appended to the diagnostic sequence and `error_count` was incremented once
for each. -/
def records (tc tc1 : TypeChecker) (ds : List Diagnostic) : Prop :=
  tc1.stderr = tc.stderr ++ ds ∧ tc1.error_count = count_after ds.length tc.error_count

/-- The symbols a lookup walks through, in the order it meets them: the scopes
innermost first and, within a scope, the most recently added symbol first. -/
def all_symbols : List Scope → List Symbol
  | [] => []
  | s :: parent => s.symbols ++ all_symbols parent

/-- The addresses of the nodes whose `type_info` slot a walk over `node` may
assign: the declarations, variable references, binary nodes and calls the walk
reaches (it does not go into the operands of a kind the `switch` does not
list). -/
def written_slots : ASTNode → List Nat
  | .NULL => []
  | .NODE_ROOT _ _ children next => written_slots children ++ written_slots next
  | .NODE_BLOCK _ _ statements next => written_slots statements ++ written_slots next
  | .NODE_VAR_DECL addr _ _ init_expr next =>
    addr :: (written_slots init_expr ++ written_slots next)
  | .NODE_FUNCTION _ _ _ _ _ body next => written_slots body ++ written_slots next
  | .NODE_EXPR_VAR addr _ _ next => addr :: written_slots next
  | .NODE_RETURN _ _ value next => written_slots value ++ written_slots next
  | .NODE_IF _ _ condition then_body else_body next =>
    written_slots condition ++ (written_slots then_body ++
      (written_slots else_body ++ written_slots next))
  | .NODE_WHILE _ _ condition body next =>
    written_slots condition ++ (written_slots body ++ written_slots next)
  | .NODE_FOR _ _ init condition step body next =>
    written_slots init ++ (written_slots condition ++ (written_slots step ++
      (written_slots body ++ written_slots next)))
  | .NODE_EXPR_BINARY addr _ left right next =>
    addr :: (written_slots left ++ (written_slots right ++ written_slots next))
  | .NODE_EXPR_CALL addr _ callee args next =>
    addr :: (written_slots callee ++ (written_slots args ++ written_slots next))
  | .NODE_EXPR_LITERAL _ _ _ _ next => written_slots next
  | .NODE_EXPR_UNARY _ _ _ next => written_slots next

/-- The node a pointer leads to, taken without its siblings: the same node with
a null `next`. -/
def ASTNode.alone : ASTNode → ASTNode
  | .NULL => .NULL
  | .NODE_ROOT a t children _ => .NODE_ROOT a t children .NULL
  | .NODE_BLOCK a t statements _ => .NODE_BLOCK a t statements .NULL
  | .NODE_VAR_DECL a t name init_expr _ => .NODE_VAR_DECL a t name init_expr .NULL
  | .NODE_FUNCTION a t param_names arg_types arg_count body _ =>
    .NODE_FUNCTION a t param_names arg_types arg_count body .NULL
  | .NODE_EXPR_VAR a t name _ => .NODE_EXPR_VAR a t name .NULL
  | .NODE_RETURN a t value _ => .NODE_RETURN a t value .NULL
  | .NODE_IF a t condition then_body else_body _ =>
    .NODE_IF a t condition then_body else_body .NULL
  | .NODE_WHILE a t condition body _ => .NODE_WHILE a t condition body .NULL
  | .NODE_FOR a t init condition step body _ => .NODE_FOR a t init condition step body .NULL
  | .NODE_EXPR_BINARY a t left right _ => .NODE_EXPR_BINARY a t left right .NULL
  | .NODE_EXPR_CALL a t callee args _ => .NODE_EXPR_CALL a t callee args .NULL
  | .NODE_EXPR_LITERAL a t string_val type_kind _ =>
    .NODE_EXPR_LITERAL a t string_val type_kind .NULL
  | .NODE_EXPR_UNARY a t operand _ => .NODE_EXPR_UNARY a t operand .NULL

/-- The statements `s1, ..., sn` of a chain linked through `next`, each taken
alone. -/
def ASTNode.chain : ASTNode → List ASTNode
  | .NULL => []
  | .NODE_ROOT a t children next => .NODE_ROOT a t children .NULL :: next.chain
  | .NODE_BLOCK a t statements next => .NODE_BLOCK a t statements .NULL :: next.chain
  | .NODE_VAR_DECL a t name init_expr next =>
    .NODE_VAR_DECL a t name init_expr .NULL :: next.chain
  | .NODE_FUNCTION a t param_names arg_types arg_count body next =>
    .NODE_FUNCTION a t param_names arg_types arg_count body .NULL :: next.chain
  | .NODE_EXPR_VAR a t name next => .NODE_EXPR_VAR a t name .NULL :: next.chain
  | .NODE_RETURN a t value next => .NODE_RETURN a t value .NULL :: next.chain
  | .NODE_IF a t condition then_body else_body next =>
    .NODE_IF a t condition then_body else_body .NULL :: next.chain
  | .NODE_WHILE a t condition body next => .NODE_WHILE a t condition body .NULL :: next.chain
  | .NODE_FOR a t init condition step body next =>
    .NODE_FOR a t init condition step body .NULL :: next.chain
  | .NODE_EXPR_BINARY a t left right next =>
    .NODE_EXPR_BINARY a t left right .NULL :: next.chain
  | .NODE_EXPR_CALL a t callee args next => .NODE_EXPR_CALL a t callee args .NULL :: next.chain
  | .NODE_EXPR_LITERAL a t string_val type_kind next =>
    .NODE_EXPR_LITERAL a t string_val type_kind .NULL :: next.chain
  | .NODE_EXPR_UNARY a t operand next => .NODE_EXPR_UNARY a t operand .NULL :: next.chain

/-- The block check the way the spec words it: enter a fresh scope, check the
statements `s1`, then `s2`, ..., then `sn` of the chain, each a single time in
order, exit the scope. -/
def check_block_once (type_to_string : Ty → String) (tc : TypeChecker)
    (statements : ASTNode) : Option TypeChecker :=
  (statements.chain.foldlM (check_node type_to_string) (tc_enter_scope tc)).map tc_exit_scope

/-- The effective type of a declaration in the spec's words: the declared type
if present, else the initializer's inferred type, else null. -/
def effective_type (declared init_type : Option Ty) : Option Ty :=
  match declared with
  | some T => some T
  | none => init_type

/-! ## The checker over the AST in memory

The same functions once more, this time with the whole AST in the state: every
`ASTNode` is a record in a memory indexed by addresses, a pointer is an address
or `NULL`, each `node->field` of the source is a read of the memory as it is at
that moment, and `node->type_info = t` is a write to it.  Nothing here assumes
that the checker leaves the tree alone.  The walk follows the pointers it
reads, so it is bounded by a number of nested calls, `fuel`; it returns `none`
when that bound is reached and when the code would fault. -/

namespace Heap

/-- The kind of an `ASTNode` together with the member of its payload union that
the kind selects; the children are pointers (`none` is `NULL`).  `unary` stands
for the kinds the `switch` of `check_node` does not list. -/
inductive Payload where
  | root (children : Option Nat)
  | block (statements : Option Nat)
  | var_decl (name : String) (init_expr : Option Nat)
  | func (param_names : Option (List (Option String))) (arg_types : Option (List (Option Ty)))
      (arg_count : Nat) (body : Option Nat)
  | var_ref (name : String)
  | ret (value : Option Nat)
  | if_stmt (condition : Option Nat) (then_body : Option Nat) (else_body : Option Nat)
  | while_stmt (condition : Option Nat) (body : Option Nat)
  | for_stmt (init : Option Nat) (condition : Option Nat) (step : Option Nat)
      (body : Option Nat)
  | binary (left : Option Nat) (right : Option Nat)
  | call (callee : Option Nat) (args : Option Nat)
  | literal (string_val : Option String) (type_kind : Int)
  | unary (operand : Option Nat)
  deriving DecidableEq, Repr

/-- The member `root.children` of the payload; reading a member of the union
that the kind of the node does not select is a fault. -/
def Payload.root_children : Payload → Option (Option Nat)
  | .root children => some children
  | _ => none

/-- The member `block.statements`. -/
def Payload.block_statements : Payload → Option (Option Nat)
  | .block statements => some statements
  | _ => none

/-- The member `var_decl.init_expr`. -/
def Payload.var_decl_init_expr : Payload → Option (Option Nat)
  | .var_decl _ init_expr => some init_expr
  | _ => none

/-- The member `func.body`. -/
def Payload.func_body : Payload → Option (Option Nat)
  | .func _ _ _ body => some body
  | _ => none

/-- The member `ret.value`. -/
def Payload.ret_value : Payload → Option (Option Nat)
  | .ret value => some value
  | _ => none

/-- The member `if_stmt.condition`. -/
def Payload.if_stmt_condition : Payload → Option (Option Nat)
  | .if_stmt condition _ _ => some condition
  | _ => none

/-- The member `if_stmt.then_body`. -/
def Payload.if_stmt_then_body : Payload → Option (Option Nat)
  | .if_stmt _ then_body _ => some then_body
  | _ => none

/-- The member `if_stmt.else_body`. -/
def Payload.if_stmt_else_body : Payload → Option (Option Nat)
  | .if_stmt _ _ else_body => some else_body
  | _ => none

/-- The member `while_stmt.condition`. -/
def Payload.while_stmt_condition : Payload → Option (Option Nat)
  | .while_stmt condition _ => some condition
  | _ => none

/-- The member `while_stmt.body`. -/
def Payload.while_stmt_body : Payload → Option (Option Nat)
  | .while_stmt _ body => some body
  | _ => none

/-- The member `for_stmt.init`. -/
def Payload.for_stmt_init : Payload → Option (Option Nat)
  | .for_stmt init _ _ _ => some init
  | _ => none

/-- The member `for_stmt.condition`. -/
def Payload.for_stmt_condition : Payload → Option (Option Nat)
  | .for_stmt _ condition _ _ => some condition
  | _ => none

/-- The member `for_stmt.step`. -/
def Payload.for_stmt_step : Payload → Option (Option Nat)
  | .for_stmt _ _ step _ => some step
  | _ => none

/-- The member `for_stmt.body`. -/
def Payload.for_stmt_body : Payload → Option (Option Nat)
  | .for_stmt _ _ _ body => some body
  | _ => none

/-- The member `binary.left`. -/
def Payload.binary_left : Payload → Option (Option Nat)
  | .binary left _ => some left
  | _ => none

/-- The member `binary.right`. -/
def Payload.binary_right : Payload → Option (Option Nat)
  | .binary _ right => some right
  | _ => none

/-- The member `call.callee`. -/
def Payload.call_callee : Payload → Option (Option Nat)
  | .call callee _ => some callee
  | _ => none

/-- The member `call.args`. -/
def Payload.call_args : Payload → Option (Option Nat)
  | .call _ args => some args
  | _ => none

/-- An `ASTNode` as it lies in memory: kind and payload, token, `next` link and
the `type_info` slot. -/
structure Node where
  payload : Payload
  token : Token
  next : Option Nat
  type_info : Option Ty
  deriving DecidableEq, Repr

/-- The C `TypeChecker` together with the memory its pointers lead into: `ast`
gives the node stored at each address (`none` where there is none), `stderr` is
what `tc_error` has printed. -/
structure Checker where
  pctx : ParserContext
  current_scope : List Scope
  current_func : Option Nat
  error_count : Int
  ast : Nat → Option Node
  stderr : List Diagnostic

/-- The read `*p`: a fault on `NULL` and on an address that holds no node. -/
def Checker.deref (st : Checker) : Option Nat → Option Node
  | none => none
  | some a => st.ast a

/-- The kind and payload of the node at `a`, read from memory. -/
def Checker.payload (st : Checker) (a : Nat) : Option Payload :=
  (st.ast a).map fun n => n.payload

/-- The read `node->member` of a pointer member of the payload of the node at
`a`, from memory as it is now. -/
def Checker.read (st : Checker) (a : Nat) (member : Payload → Option (Option Nat)) :
    Option (Option Nat) :=
  (st.payload a).bind member

/-- The assignment `node->type_info = t` for the node at `a`. -/
def Checker.set_type_info (st : Checker) (a : Nat) (t : Option Ty) : Option Checker :=
  match st.ast a with
  | none => none
  | some n =>
    some { st with ast := fun b => if b = a then some { n with type_info := t } else st.ast b }

/-- Source lines 9-13. -/
def tc_error (st : Checker) (t : Token) (msg : String) : Checker :=
  { st with stderr := st.stderr ++ [⟨t, msg⟩], error_count := wrap_int (st.error_count + 1) }

/-- Source lines 15-20. -/
def tc_enter_scope (st : Checker) : Checker :=
  { st with current_scope := ⟨[]⟩ :: st.current_scope }

/-- Source lines 22-36. -/
def tc_exit_scope (st : Checker) : Checker :=
  match st.current_scope with
  | [] => st
  | _ :: parent => { st with current_scope := parent }

/-- Source lines 38-47. -/
def tc_add_symbol (st : Checker) (name : String) (type : Option Ty) (t : Token) :
    Option Checker :=
  match st.current_scope with
  | [] => none
  | s :: parent => some { st with current_scope := ⟨⟨name, type, t⟩ :: s.symbols⟩ :: parent }

/-- Source lines 49-62. -/
def tc_lookup (st : Checker) (name : String) : Option Symbol :=
  lookup_scopes name st.current_scope

/-- Source lines 82-99.  The one caller passes a pointer it has dereferenced
before. -/
def is_safe_integer_literal (st : Checker) (node : Option Nat) : Bool :=
  match st.deref node with
  | some ⟨.literal string_val type_kind, _, _, _⟩ =>
    if string_val ≠ none then false
    else if type_kind = 1 then false
    else true
  | _ => false

/-- Source lines 115-174: the new state and the returned flag. -/
def check_type_compatibility (type_to_string : Ty → String) (st : Checker)
    (target : Option Ty) (value_expr : Option Nat) (t : Token) : Option (Checker × Bool) :=
  match target, value_expr with
  | none, _ => some (st, true)
  | some _, none => some (st, true)
  | some target, some a =>
    match st.ast a with
    | none => none
    | some value =>
      match value.type_info with
      | none => some (st, true)
      | some value_type =>
        if type_eq target value_type then some (st, true)
        else if is_void_pointer target then some (st, true)
        else if is_void_pointer value_type then some (st, true)
        else if is_integer_type (some target) && is_integer_type (some value_type) then
          if is_signed_integer (some target) ≠ is_signed_integer (some value_type) then
            if is_safe_integer_literal st value_expr then some (st, true)
            else
              some (tc_error st t
                (snprintf 255 (sign_mismatch_text type_to_string target value_type)), false)
          else some (st, true)
        else
          some (tc_error st t
            (snprintf 255 (type_mismatch_text type_to_string target value_type)), false)

/-- Source lines 180-186 of `check_var_decl`, for the declaration at `a`: what
follows `check_node` on a present initializer. -/
def var_decl_compat (type_to_string : Ty → String) (st : Checker) (a : Nat) : Option Checker :=
  match st.ast a with
  | none => none
  | some node =>
    match node.type_info with
    | none => some st
    | some decl_type =>
      match node.payload with
      | .var_decl _ init_expr =>
        (check_type_compatibility type_to_string st (some decl_type) init_expr node.token).map
          fun r => r.1
      | _ => none

/-- Source lines 189-195 of `check_var_decl`, for the declaration at `a`. -/
def var_decl_publish (st : Checker) (a : Nat) : Option Checker :=
  match st.ast a with
  | none => none
  | some node =>
    match node.payload with
    | .var_decl name init_expr =>
      let t : Option (Option Ty) :=
        match node.type_info, init_expr with
        | none, some i => (st.ast i).map fun n => n.type_info
        | t, _ => some t
      t.bind fun t => (tc_add_symbol st name t node.token).bind fun st1 => st1.set_type_info a t
    | _ => none

/-- The body of the loop at source lines 204-210 for index `i`. -/
def function_param (param_names : Option (List (Option String)))
    (arg_types : Option (List (Option Ty))) (st : Checker) (i : Nat) : Option Checker :=
  match param_names with
  | none => some st
  | some names =>
    match names.get? i with
    | none => none
    | some none => some st
    | some (some name) =>
      match arg_types with
      | none => tc_add_symbol st name none Token.zero
      | some types =>
        match types.get? i with
        | none => none
        | some t => tc_add_symbol st name t Token.zero

/-- The loop at source lines 204-210. -/
def function_params (param_names : Option (List (Option String)))
    (arg_types : Option (List (Option Ty))) (arg_count : Nat) (st : Checker) :
    Option Checker :=
  (List.range arg_count).foldlM (function_param param_names arg_types) st

/-- Source lines 218-223, for the reference at `a`. -/
def check_expr_var (st : Checker) (a : Nat) : Option Checker :=
  match st.payload a with
  | some (.var_ref name) =>
    match tc_lookup st name with
    | none => some st
    | some sym =>
      match sym.type_info with
      | none => some st
      | some t => st.set_type_info a (some t)
  | _ => none

/-- Source lines 249-253 of the `NODE_RETURN` case, for the return at `a`: what
follows `check_node` on a present value. -/
def return_compat (type_to_string : Ty → String) (st : Checker) (a : Nat) : Option Checker :=
  match st.current_func with
  | none => some st
  | some f =>
    match st.ast f with
    | none => none
    | some func =>
      match func.type_info with
      | none => some st
      | some ret_type =>
        match st.ast a with
        | some ⟨.ret value, token, _, _⟩ =>
          (check_type_compatibility type_to_string st (some ret_type) value token).map
            fun r => r.1
        | _ => none

/-- Source lines 279-287 of the `NODE_EXPR_BINARY` case, for the node at `a`. -/
def binary_infer (type_to_string : Ty → String) (st : Checker) (a : Nat) : Option Checker :=
  match st.payload a with
  | some (.binary left _) =>
    match st.deref left with
    | none => none
    | some l =>
      match l.type_info with
      | none => some st
      | some left_type =>
        (st.set_type_info a (some left_type)).bind fun st1 =>
          match st1.ast a with
          | some ⟨.binary left1 right1, token, _, _⟩ =>
            (st1.deref left1).bind fun l1 =>
              (check_type_compatibility type_to_string st1 l1.type_info right1 token).map
                fun r => r.1
          | _ => none
  | _ => none

/-- Source lines 293-296 of the `NODE_EXPR_CALL` case, for the call at `a`. -/
def call_propagate (st : Checker) (a : Nat) : Option Checker :=
  match st.payload a with
  | some (.call callee _) =>
    match st.deref callee with
    | none => none
    | some c =>
      match c.type_info with
      | none => some st
      | some callee_type => st.set_type_info a (some callee_type)
  | _ => none

/-- The recursion of `check_node` (source lines 225-310) together with the loop
of `check_block` (source lines 107-111), on the node a pointer leads to.  With
`loop = false` this is `check_node`; with `loop = true` it is the loop
`while (stmt) { check_node(tc, stmt); stmt = stmt->next; }` started at the
pointer.  Every field is read from memory when the source reads it. -/
def check_node_aux (type_to_string : Ty → String) :
    Nat → Bool → Checker → Option Nat → Option Checker
  | _, _, st, none => some st
  | 0, _, _, some _ => none
  | fuel + 1, loop, st, some a =>
    (st.payload a).bind fun kind =>
    (match kind with
      | .root _ =>
        (st.read a Payload.root_children).bind fun children =>
        check_node_aux type_to_string fuel false st children
      | .block _ =>
        (st.read a Payload.block_statements).bind fun statements =>
        (check_node_aux type_to_string fuel true (tc_enter_scope st) statements).map
          tc_exit_scope
      | .var_decl _ _ =>
        (st.read a Payload.var_decl_init_expr).bind fun init_expr =>
        match init_expr with
        | none => var_decl_publish st a
        | some _ =>
          (check_node_aux type_to_string fuel false st init_expr).bind fun st1 =>
          (var_decl_compat type_to_string st1 a).bind fun st2 =>
          var_decl_publish st2 a
      | .func param_names arg_types arg_count _ =>
        (function_params param_names arg_types arg_count
          (tc_enter_scope { st with current_func := some a })).bind fun st1 =>
        (st1.read a Payload.func_body).bind fun body =>
        (check_node_aux type_to_string fuel false st1 body).map fun st2 =>
          { tc_exit_scope st2 with current_func := none }
      | .var_ref _ => check_expr_var st a
      | .ret _ =>
        (st.read a Payload.ret_value).bind fun value =>
        match value with
        | none => some st
        | some _ =>
          (check_node_aux type_to_string fuel false st value).bind fun st1 =>
          return_compat type_to_string st1 a
      | .if_stmt _ _ _ =>
        (st.read a Payload.if_stmt_condition).bind fun condition =>
        (check_node_aux type_to_string fuel false st condition).bind fun st1 =>
        (st1.read a Payload.if_stmt_then_body).bind fun then_body =>
        (check_node_aux type_to_string fuel false st1 then_body).bind fun st2 =>
        (st2.read a Payload.if_stmt_else_body).bind fun else_body =>
        check_node_aux type_to_string fuel false st2 else_body
      | .while_stmt _ _ =>
        (st.read a Payload.while_stmt_condition).bind fun condition =>
        (check_node_aux type_to_string fuel false st condition).bind fun st1 =>
        (st1.read a Payload.while_stmt_body).bind fun body =>
        check_node_aux type_to_string fuel false st1 body
      | .for_stmt _ _ _ _ =>
        (st.read a Payload.for_stmt_init).bind fun init =>
        (check_node_aux type_to_string fuel false (tc_enter_scope st) init).bind fun st1 =>
        (st1.read a Payload.for_stmt_condition).bind fun condition =>
        (check_node_aux type_to_string fuel false st1 condition).bind fun st2 =>
        (st2.read a Payload.for_stmt_step).bind fun step =>
        (check_node_aux type_to_string fuel false st2 step).bind fun st3 =>
        (st3.read a Payload.for_stmt_body).bind fun body =>
        (check_node_aux type_to_string fuel false st3 body).map tc_exit_scope
      | .binary _ _ =>
        (st.read a Payload.binary_left).bind fun left =>
        (check_node_aux type_to_string fuel false st left).bind fun st1 =>
        (st1.read a Payload.binary_right).bind fun right =>
        (check_node_aux type_to_string fuel false st1 right).bind fun st2 =>
        binary_infer type_to_string st2 a
      | .call _ _ =>
        (st.read a Payload.call_callee).bind fun callee =>
        (check_node_aux type_to_string fuel false st callee).bind fun st1 =>
        (st1.read a Payload.call_args).bind fun args =>
        (check_node_aux type_to_string fuel false st1 args).bind fun st2 =>
        call_propagate st2 a
      | .literal _ _ => some st
      | .unary _ => some st).bind fun st1 =>
    (st1.ast a).bind fun node =>
    (check_node_aux type_to_string fuel false st1 node.next).bind fun st2 =>
    if loop then
      (st2.ast a).bind fun node => check_node_aux type_to_string fuel true st2 node.next
    else some st2

/-- Source lines 225-310. -/
def check_node (type_to_string : Ty → String) (fuel : Nat) (st : Checker) (node : Option Nat) :
    Option Checker :=
  check_node_aux type_to_string fuel false st node

/-- The state `TypeChecker tc = {0}; tc.pctx = ctx;` over the memory `ast`. -/
def initial_checker (ctx : ParserContext) (ast : Nat → Option Node) : Checker :=
  { pctx := ctx, current_scope := [], current_func := none, error_count := 0, ast := ast,
    stderr := [] }

/-- Source lines 314-327, run on the memory `ast` from the pointer `root`:
the returned status and the final state (the lines printed on standard output
are left out). -/
def check_program (type_to_string : Ty → String) (fuel : Nat) (ctx : ParserContext)
    (ast : Nat → Option Node) (root : Option Nat) : Option (Int × Checker) :=
  (check_node type_to_string fuel (initial_checker ctx ast) root).map fun st =>
    if st.error_count > 0 then (1, st) else (0, st)

/-- What a node has besides its annotation: kind and payload (name, children,
literal payload), token and `next` link. -/
def Node.shape (n : Node) : Payload × Token × Option Nat :=
  (n.payload, n.token, n.next)

/-- The memory `ast1` holds nodes at the addresses where `ast` does, every node
has the shape it has in `ast`, and every annotation that is non-null in `ast`
is non-null in `ast1`. -/
def preserved (ast ast1 : Nat → Option Node) : Prop :=
  ∀ a, (ast1 a).map Node.shape = (ast a).map Node.shape ∧
    (∀ n, ast a = some n → n.type_info ≠ none →
      ∃ n1, ast1 a = some n1 ∧ n1.type_info ≠ none)

/-- The memory `m` with the node `n` stored at address `a`. -/
def put (a : Nat) (n : Node) (m : Nat → Option Node) : Nat → Option Node :=
  fun b => if b = a then some n else m b

/-- The memory `m` after the tree `node` is laid out in it: every node of the
tree is stored at its address, with its children and `next` as pointers and its
`type_info` slot holding what `types` gives for the address. -/
def store (types : Nat → Option Ty) : ASTNode → (Nat → Option Node) → Nat → Option Node
  | .NULL, m => m
  | .NODE_ROOT a t children next, m =>
    put a ⟨.root children.addr, t, next.addr, types a⟩ (store types children (store types next m))
  | .NODE_BLOCK a t statements next, m =>
    put a ⟨.block statements.addr, t, next.addr, types a⟩
      (store types statements (store types next m))
  | .NODE_VAR_DECL a t name init_expr next, m =>
    put a ⟨.var_decl name init_expr.addr, t, next.addr, types a⟩
      (store types init_expr (store types next m))
  | .NODE_FUNCTION a t param_names arg_types arg_count body next, m =>
    put a ⟨.func param_names arg_types arg_count body.addr, t, next.addr, types a⟩
      (store types body (store types next m))
  | .NODE_EXPR_VAR a t name next, m =>
    put a ⟨.var_ref name, t, next.addr, types a⟩ (store types next m)
  | .NODE_RETURN a t value next, m =>
    put a ⟨.ret value.addr, t, next.addr, types a⟩ (store types value (store types next m))
  | .NODE_IF a t condition then_body else_body next, m =>
    put a ⟨.if_stmt condition.addr then_body.addr else_body.addr, t, next.addr, types a⟩
      (store types condition (store types then_body (store types else_body
        (store types next m))))
  | .NODE_WHILE a t condition body next, m =>
    put a ⟨.while_stmt condition.addr body.addr, t, next.addr, types a⟩
      (store types condition (store types body (store types next m)))
  | .NODE_FOR a t init condition step body next, m =>
    put a ⟨.for_stmt init.addr condition.addr step.addr body.addr, t, next.addr, types a⟩
      (store types init (store types condition (store types step (store types body
        (store types next m)))))
  | .NODE_EXPR_BINARY a t left right next, m =>
    put a ⟨.binary left.addr right.addr, t, next.addr, types a⟩
      (store types left (store types right (store types next m)))
  | .NODE_EXPR_CALL a t callee args next, m =>
    put a ⟨.call callee.addr args.addr, t, next.addr, types a⟩
      (store types callee (store types args (store types next m)))
  | .NODE_EXPR_LITERAL a t string_val type_kind next, m =>
    put a ⟨.literal string_val type_kind, t, next.addr, types a⟩ (store types next m)
  | .NODE_EXPR_UNARY a t operand next, m =>
    put a ⟨.unary operand.addr, t, next.addr, types a⟩
      (store types operand (store types next m))

end Heap

/-! ## A tree laid out in memory -/

/-- The record under which the node a pointer of the first model leads to lies
in memory when its `type_info` slot holds `t`: its children and `next` as
pointers.  There is none for `NULL`. -/
def Heap.record (t : Option Ty) : ASTNode → Option Heap.Node
  | .NULL => none
  | .NODE_ROOT _ tok children next => some ⟨.root children.addr, tok, next.addr, t⟩
  | .NODE_BLOCK _ tok statements next => some ⟨.block statements.addr, tok, next.addr, t⟩
  | .NODE_VAR_DECL _ tok name init_expr next =>
    some ⟨.var_decl name init_expr.addr, tok, next.addr, t⟩
  | .NODE_FUNCTION _ tok param_names arg_types arg_count body next =>
    some ⟨.func param_names arg_types arg_count body.addr, tok, next.addr, t⟩
  | .NODE_EXPR_VAR _ tok name next => some ⟨.var_ref name, tok, next.addr, t⟩
  | .NODE_RETURN _ tok value next => some ⟨.ret value.addr, tok, next.addr, t⟩
  | .NODE_IF _ tok condition then_body else_body next =>
    some ⟨.if_stmt condition.addr then_body.addr else_body.addr, tok, next.addr, t⟩
  | .NODE_WHILE _ tok condition body next =>
    some ⟨.while_stmt condition.addr body.addr, tok, next.addr, t⟩
  | .NODE_FOR _ tok init condition step body next =>
    some ⟨.for_stmt init.addr condition.addr step.addr body.addr, tok, next.addr, t⟩
  | .NODE_EXPR_BINARY _ tok left right next =>
    some ⟨.binary left.addr right.addr, tok, next.addr, t⟩
  | .NODE_EXPR_CALL _ tok callee args next =>
    some ⟨.call callee.addr args.addr, tok, next.addr, t⟩
  | .NODE_EXPR_LITERAL _ tok string_val type_kind next =>
    some ⟨.literal string_val type_kind, tok, next.addr, t⟩
  | .NODE_EXPR_UNARY _ tok operand next => some ⟨.unary operand.addr, tok, next.addr, t⟩

/-- The nodes of a tree: the node a pointer leads to, the nodes below it and
those of the chain after it. -/
def ASTNode.nodes : ASTNode → List ASTNode
  | .NULL => []
  | .NODE_ROOT a t children next =>
    .NODE_ROOT a t children next :: (children.nodes ++ next.nodes)
  | .NODE_BLOCK a t statements next =>
    .NODE_BLOCK a t statements next :: (statements.nodes ++ next.nodes)
  | .NODE_VAR_DECL a t name init_expr next =>
    .NODE_VAR_DECL a t name init_expr next :: (init_expr.nodes ++ next.nodes)
  | .NODE_FUNCTION a t param_names arg_types arg_count body next =>
    .NODE_FUNCTION a t param_names arg_types arg_count body next ::
      (body.nodes ++ next.nodes)
  | .NODE_EXPR_VAR a t name next => .NODE_EXPR_VAR a t name next :: next.nodes
  | .NODE_RETURN a t value next => .NODE_RETURN a t value next :: (value.nodes ++ next.nodes)
  | .NODE_IF a t condition then_body else_body next =>
    .NODE_IF a t condition then_body else_body next ::
      (condition.nodes ++ (then_body.nodes ++ (else_body.nodes ++ next.nodes)))
  | .NODE_WHILE a t condition body next =>
    .NODE_WHILE a t condition body next :: (condition.nodes ++ (body.nodes ++ next.nodes))
  | .NODE_FOR a t init condition step body next =>
    .NODE_FOR a t init condition step body next ::
      (init.nodes ++ (condition.nodes ++ (step.nodes ++ (body.nodes ++ next.nodes))))
  | .NODE_EXPR_BINARY a t left right next =>
    .NODE_EXPR_BINARY a t left right next :: (left.nodes ++ (right.nodes ++ next.nodes))
  | .NODE_EXPR_CALL a t callee args next =>
    .NODE_EXPR_CALL a t callee args next :: (callee.nodes ++ (args.nodes ++ next.nodes))
  | .NODE_EXPR_LITERAL a t string_val type_kind next =>
    .NODE_EXPR_LITERAL a t string_val type_kind next :: next.nodes
  | .NODE_EXPR_UNARY a t operand next =>
    .NODE_EXPR_UNARY a t operand next :: (operand.nodes ++ next.nodes)

/-- The number of nested calls a walk over a tree makes at most: the length of
the longest path through children and `next` links. -/
def ASTNode.height : ASTNode → Nat
  | .NULL => 0
  | .NODE_ROOT _ _ children next => 1 + max children.height next.height
  | .NODE_BLOCK _ _ statements next => 1 + max statements.height next.height
  | .NODE_VAR_DECL _ _ _ init_expr next => 1 + max init_expr.height next.height
  | .NODE_FUNCTION _ _ _ _ _ body next => 1 + max body.height next.height
  | .NODE_EXPR_VAR _ _ _ next => 1 + next.height
  | .NODE_RETURN _ _ value next => 1 + max value.height next.height
  | .NODE_IF _ _ condition then_body else_body next =>
    1 + max condition.height (max then_body.height (max else_body.height next.height))
  | .NODE_WHILE _ _ condition body next =>
    1 + max condition.height (max body.height next.height)
  | .NODE_FOR _ _ init condition step body next =>
    1 + max init.height (max condition.height (max step.height
      (max body.height next.height)))
  | .NODE_EXPR_BINARY _ _ left right next =>
    1 + max left.height (max right.height next.height)
  | .NODE_EXPR_CALL _ _ callee args next =>
    1 + max callee.height (max args.height next.height)
  | .NODE_EXPR_LITERAL _ _ _ _ next => 1 + next.height
  | .NODE_EXPR_UNARY _ _ _ next => 1 + next.height

/-- The state `st` of the checker over the memory stands for the state `tc` of
the checker over the tree `root`: the fields of the `TypeChecker` and the
diagnostics are the same, every node of `root` lies in the memory at its
address, with the `type_info` that `tc` holds for it, and `current_func`, when
set, is the address of a node of `root`. -/
structure Heap.stands_for (root : ASTNode) (st : Heap.Checker) (tc : TypeChecker) : Prop where
  pctx : st.pctx = tc.pctx
  scope : st.current_scope = tc.current_scope
  func : st.current_func = tc.current_func
  errors : st.error_count = tc.error_count
  stderr : st.stderr = tc.stderr
  ast : ∀ n ∈ root.nodes, ∀ a, n.addr = some a → st.ast a = Heap.record (tc.type_info a) n
  func_node : ∀ f, tc.current_func = some f → ∃ n ∈ root.nodes, n.addr = some f

/-- The tree `root` lies in the memory `m`, annotated as `types` says: every one
of its nodes is stored at its address as the record of the node, its
`type_info` slot holding what `types` gives for the address. -/
def Heap.laid_out (m : Nat → Option Heap.Node) (types : Nat → Option Ty) (root : ASTNode) :
    Bool :=
  root.nodes.all fun n =>
    decide (n.addr.bind m = n.addr.bind fun a => Heap.record (types a) n)

/-! ## Inputs of the examples -/

/-- A rendering of types for the examples; it prints the integer kinds the way
the spec's scenarios show them. -/
def type_names : Ty → String
  | .VOID => "void" | .BOOL => "bool" | .CHAR => "char" | .STRING => "string"
  | .I8 => "i8" | .U8 => "u8" | .I16 => "i16" | .U16 => "u16"
  | .I32 => "i32" | .U32 => "u32" | .I64 => "i64" | .U64 => "u64"
  | .I128 => "i128" | .U128 => "u128"
  | .F32 => "f32" | .F64 => "f64"
  | .INT => "int" | .UINT => "uint" | .USIZE => "usize" | .ISIZE => "isize"
  | .STRUCT => "struct" | .POINTER inner => type_names inner ++ "*"
  | .FUNCTION => "fn" | .ARRAY => "array"

/-- A rendering in which struct types print a name of 300 characters. -/
def long_struct_names : Ty → String
  | .STRUCT => ⟨List.replicate 300 'S'⟩
  | t => type_names t

/-- The memory in which the nodes at the listed addresses have the listed types
and every other `type_info` slot is null. -/
def memory (slots : List (Nat × Ty)) : Nat → Option Ty :=
  fun a => slots.lookup a

/-- A checker state with the given scope stack and AST memory and nothing
recorded yet. -/
def checker_with (scopes : List Scope) (slots : List (Nat × Ty)) : TypeChecker :=
  { pctx := ⟨0⟩, current_scope := scopes, current_func := none, error_count := 0,
    type_info := memory slots, stderr := [], scope_enters := 0, scope_exits := 0 }

/-- A token on the given line. -/
def at_line (n : Nat) : Token := ⟨n, 1⟩

/-- The expression `s`, a variable reference at address 2. -/
def annotated_ref : ASTNode := .NODE_EXPR_VAR 2 (at_line 1) "s" .NULL

/-- The program `fn main(some_i32: i32) -> void { let x: usize = some_i32; }`:
the function node is at address 1, the declaration of `x` at 3 and the
reference to `some_i32` at 4. -/
def usize_from_i32 : ASTNode :=
  .NODE_ROOT 0 (at_line 1)
    (.NODE_FUNCTION 1 (at_line 1) (some [some "some_i32"]) (some [some .I32]) 1
      (.NODE_BLOCK 2 (at_line 1)
        (.NODE_VAR_DECL 3 (at_line 2) "x" (.NODE_EXPR_VAR 4 (at_line 2) "some_i32" .NULL) .NULL)
        .NULL)
      .NULL)
    .NULL

/-- The state in which the declarations of the examples are checked: one scope
holding `some_i32_var: i32`, `q_i32_ptr: *i32` and `q_void_ptr: *void`; the
declaration at address 1 has declared type `usize`, the one at 5 `*void`, the
one at 7 `*i32`; the literal and the negation at address 2 have type `i32`. -/
def decl_state : TypeChecker :=
  checker_with
    [⟨[⟨"some_i32_var", some .I32, at_line 0⟩, ⟨"q_i32_ptr", some (.POINTER .I32), at_line 0⟩,
      ⟨"q_void_ptr", some (.POINTER .VOID), at_line 0⟩]⟩]
    [(1, .USIZE), (2, .I32), (5, .POINTER .VOID), (7, .POINTER .I32)]

/-- The literal `0`, at address 2. -/
def zero_literal : ASTNode := .NODE_EXPR_LITERAL 2 (at_line 1) none 0 .NULL

/-- The expression `-1`: a negation, at address 2, over the literal `1`. -/
def minus_one : ASTNode :=
  .NODE_EXPR_UNARY 2 (at_line 1) (.NODE_EXPR_LITERAL 3 (at_line 1) none 0 .NULL) .NULL

/-- A reference to `some_i32_var`, at address 4. -/
def some_i32_var : ASTNode := .NODE_EXPR_VAR 4 (at_line 1) "some_i32_var" .NULL

/-- A reference to `q_i32_ptr`, at address 6. -/
def q_i32_ptr : ASTNode := .NODE_EXPR_VAR 6 (at_line 2) "q_i32_ptr" .NULL

/-- A reference to `q_void_ptr`, at address 8. -/
def q_void_ptr : ASTNode := .NODE_EXPR_VAR 8 (at_line 3) "q_void_ptr" .NULL

/-- The function `fn f(a: u32) -> i32 { return a; }`: the function node is at
address 1 (its `type_info` is the return type), the return at 3. -/
def return_first : ASTNode :=
  .NODE_FUNCTION 1 (at_line 1) (some [some "a"]) (some [some .U32]) 1
    (.NODE_BLOCK 2 (at_line 1)
      (.NODE_RETURN 3 (at_line 2) (.NODE_EXPR_VAR 4 (at_line 2) "a" .NULL) .NULL)
      .NULL)
    .NULL

/-- The function `fn f(a: u32) -> i32 { let b: u32 = a; return b; }`: the
function node is at address 1, the declaration of `b` at 3, the return at 5. -/
def return_second : ASTNode :=
  .NODE_FUNCTION 1 (at_line 1) (some [some "a"]) (some [some .U32]) 1
    (.NODE_BLOCK 2 (at_line 1)
      (.NODE_VAR_DECL 3 (at_line 2) "b" (.NODE_EXPR_VAR 4 (at_line 2) "a" .NULL)
        (.NODE_RETURN 5 (at_line 3) (.NODE_EXPR_VAR 6 (at_line 3) "b" .NULL) .NULL))
      .NULL)
    .NULL

/-- The program `let x: i32 = 0;`: a declaration, at address 1, that is a direct
child of the root. -/
def global_decl : ASTNode :=
  .NODE_ROOT 0 (at_line 1)
    (.NODE_VAR_DECL 1 (at_line 1) "x" (.NODE_EXPR_LITERAL 2 (at_line 1) none 0 .NULL) .NULL)
    .NULL

/-- The block of the shadowing example followed by a reference,
`{ let x: u32 = 0; x } x`, checked in a scope where `x: i32` is bound: the block
is at address 1, the declaration at 2, its literal at 3, the reference inside
the block at 4 and the reference after it at 5. -/
def shadowing_block : ASTNode :=
  .NODE_BLOCK 1 (at_line 2)
    (.NODE_VAR_DECL 2 (at_line 3) "x" (.NODE_EXPR_LITERAL 3 (at_line 3) none 0 .NULL)
      (.NODE_EXPR_VAR 4 (at_line 4) "x" .NULL))
    (.NODE_EXPR_VAR 5 (at_line 6) "x" .NULL)

/-- The block `{ let x: u32 = 0; -x }`: the block is at address 1, the
declaration at 2, its literal at 3, the negation at 6 and its operand, the
reference to `x`, at 4. -/
def negated_use_block : ASTNode :=
  .NODE_BLOCK 1 (at_line 2)
    (.NODE_VAR_DECL 2 (at_line 3) "x" (.NODE_EXPR_LITERAL 3 (at_line 3) none 0 .NULL)
      (.NODE_EXPR_UNARY 6 (at_line 4) (.NODE_EXPR_VAR 4 (at_line 4) "x" .NULL) .NULL))
    .NULL

/-- The state in which the shadowing example is checked: one scope binding
`x: i32`; the declaration at address 2 has declared type `u32` and its literal
has type `i32`. -/
def shadowing_state : TypeChecker :=
  checker_with [⟨[⟨"x", some .I32, at_line 1⟩]⟩] [(2, .U32), (3, .I32)]

/-- The program `fn main() -> void { { let x: i32 = 0; } let y: i32 = x; }`: the
function is at address 1, the inner block at 3, the declaration of `x` at 4, the
declaration of `y` at 6 and its initializer, the reference to `x`, at 7. -/
def out_of_scope_use : ASTNode :=
  .NODE_ROOT 0 (at_line 1)
    (.NODE_FUNCTION 1 (at_line 1) none none 0
      (.NODE_BLOCK 2 (at_line 1)
        (.NODE_BLOCK 3 (at_line 2)
          (.NODE_VAR_DECL 4 (at_line 2) "x" (.NODE_EXPR_LITERAL 5 (at_line 2) none 0 .NULL)
            .NULL)
          (.NODE_VAR_DECL 6 (at_line 3) "y" (.NODE_EXPR_VAR 7 (at_line 3) "x" .NULL) .NULL))
        .NULL)
      .NULL)
    .NULL

/-- The memory the parser leaves for `out_of_scope_use`: the function returns
`void`, both declarations and the literal have type `i32`, the reference to `x`
is not annotated. -/
def out_of_scope_types : Nat → Option Ty :=
  memory [(1, .VOID), (4, .I32), (5, .I32), (6, .I32)]

/-- The program `fn main(a: i32, b: u32) -> void { let u: usize = a == b; }`: the
declaration is at address 3 with its token at line 2, column 3; its
initializer, the comparison, is at address 4 with its token at line 2, column
20. -/
def decl_over_comparison : ASTNode :=
  .NODE_ROOT 0 (at_line 1)
    (.NODE_FUNCTION 1 (at_line 1) (some [some "a", some "b"]) (some [some .I32, some .U32]) 2
      (.NODE_BLOCK 2 (at_line 1)
        (.NODE_VAR_DECL 3 ⟨2, 3⟩ "u"
          (.NODE_EXPR_BINARY 4 ⟨2, 20⟩ (.NODE_EXPR_VAR 5 ⟨2, 18⟩ "a" .NULL)
            (.NODE_EXPR_VAR 6 ⟨2, 23⟩ "b" .NULL) .NULL)
          .NULL)
        .NULL)
      .NULL)
    .NULL

/-- The statements `let a: u32 = x; let b: u32 = x;`: the declarations are at
addresses 3 and 5. -/
def two_mismatches : ASTNode :=
  .NODE_VAR_DECL 3 (at_line 2) "a" (.NODE_EXPR_VAR 4 (at_line 2) "x" .NULL)
    (.NODE_VAR_DECL 5 (at_line 3) "b" (.NODE_EXPR_VAR 6 (at_line 3) "x" .NULL) .NULL)

/-- The program `fn main(x: i32) -> void { let a: u32 = x; let b: u32 = x; }`. -/
def two_mismatches_program : ASTNode :=
  .NODE_ROOT 0 (at_line 1)
    (.NODE_FUNCTION 1 (at_line 1) (some [some "x"]) (some [some .I32]) 1
      (.NODE_BLOCK 2 (at_line 1) two_mismatches .NULL)
      .NULL)
    .NULL

/-- The state in which the body of `two_mismatches_program` is checked: one
scope binding the parameter `x: i32`; both declarations have declared type
`u32`. -/
def two_mismatches_state : TypeChecker :=
  checker_with [⟨[⟨"x", some .I32, Token.zero⟩]⟩] [(3, .U32), (5, .U32)]

/-- The program `fn main() -> void { 0; x; let x = y; let y: i32 = 0; }`: the
statement `x;` is the reference at address 4, the declaration of `x` is at 5 and
its initializer, the reference to `y`, at 6, the declaration of `y` at 7. -/
def forward_use : ASTNode :=
  .NODE_ROOT 0 (at_line 1)
    (.NODE_FUNCTION 1 (at_line 1) none none 0
      (.NODE_BLOCK 2 (at_line 1)
        (.NODE_EXPR_LITERAL 3 (at_line 2) none 0
          (.NODE_EXPR_VAR 4 (at_line 3) "x"
            (.NODE_VAR_DECL 5 (at_line 4) "x" (.NODE_EXPR_VAR 6 (at_line 4) "y" .NULL)
              (.NODE_VAR_DECL 7 (at_line 5) "y"
                (.NODE_EXPR_LITERAL 8 (at_line 5) none 0 .NULL) .NULL))))
        .NULL)
      .NULL)
    .NULL

/-- The memory the parser leaves for `forward_use`: the literals and the
declaration of `y` have type `i32`, nothing else is annotated. -/
def forward_use_types : Nat → Option Ty :=
  memory [(3, .I32), (7, .I32), (8, .I32)]

/-- The declaration `let u: usize = a == b;` of `decl_over_comparison`. -/
def comparison_decl : ASTNode :=
  .NODE_VAR_DECL 3 ⟨2, 3⟩ "u"
    (.NODE_EXPR_BINARY 4 ⟨2, 20⟩ (.NODE_EXPR_VAR 5 ⟨2, 18⟩ "a" .NULL)
      (.NODE_EXPR_VAR 6 ⟨2, 23⟩ "b" .NULL) .NULL)
    .NULL

/-- The state in which the expressions of the examples are checked: one scope
binding `len: usize`, `a: i32` and `b: u32`; the declaration at address 3 has
declared type `usize` and the literal at address 11 has type `i32`. -/
def operand_state : TypeChecker :=
  checker_with
    [⟨[⟨"len", some .USIZE, Token.zero⟩, ⟨"a", some .I32, Token.zero⟩,
      ⟨"b", some .U32, Token.zero⟩]⟩]
    [(3, .USIZE), (11, .I32)]

/-- The expression `len > 0`: the binary node is at address 10, the reference to
`len` at 12 and the literal at 11. -/
def len_gt_zero : ASTNode :=
  .NODE_EXPR_BINARY 10 (at_line 1) (.NODE_EXPR_VAR 12 (at_line 1) "len" .NULL)
    (.NODE_EXPR_LITERAL 11 (at_line 1) none 0 .NULL) .NULL

/-- The expression `0 < len`: the operands of `len_gt_zero` swapped. -/
def zero_lt_len : ASTNode :=
  .NODE_EXPR_BINARY 10 (at_line 1) (.NODE_EXPR_LITERAL 11 (at_line 1) none 0 .NULL)
    (.NODE_EXPR_VAR 12 (at_line 1) "len" .NULL) .NULL

/-- The expression `a == b`: the binary node is at address 20, the references at
21 and 22. -/
def a_eq_b : ASTNode :=
  .NODE_EXPR_BINARY 20 (at_line 2) (.NODE_EXPR_VAR 21 (at_line 2) "a" .NULL)
    (.NODE_EXPR_VAR 22 (at_line 2) "b" .NULL) .NULL

/-- The program `fn f() -> i32 { return 0; } fn g() -> u32 { return f(); }`: `f`
is at address 1, `g` at 5, the return of `g` at 7, the call at 8 and its callee,
the reference to `f`, at 9. -/
def call_result_program : ASTNode :=
  .NODE_ROOT 0 (at_line 1)
    (.NODE_FUNCTION 1 (at_line 1) none none 0
      (.NODE_BLOCK 2 (at_line 1)
        (.NODE_RETURN 3 (at_line 1) (.NODE_EXPR_LITERAL 4 (at_line 1) none 0 .NULL) .NULL)
        .NULL)
      (.NODE_FUNCTION 5 (at_line 2) none none 0
        (.NODE_BLOCK 6 (at_line 2)
          (.NODE_RETURN 7 (at_line 2)
            (.NODE_EXPR_CALL 8 (at_line 2) (.NODE_EXPR_VAR 9 (at_line 2) "f" .NULL) .NULL
              .NULL)
            .NULL)
          .NULL)
        .NULL))
    .NULL

/-- The memory the parser leaves for `call_result_program`: `f` returns `i32`,
`g` returns `u32`, the literal has type `i32` and the callee reference carries
the return type of `f`, `i32`. -/
def call_result_types : Nat → Option Ty :=
  memory [(1, .I32), (4, .I32), (5, .U32), (9, .I32)]

/-- The statement `a == b;`: the comparison is at address 3, the references to
`a` and `b` at 4 and 5. -/
def mismatch_stmt : ASTNode :=
  .NODE_EXPR_BINARY 3 (at_line 2) (.NODE_EXPR_VAR 4 (at_line 2) "a" .NULL)
    (.NODE_EXPR_VAR 5 (at_line 2) "b" .NULL) .NULL

/-- The statements `0; { 0; { ... 0; { a == b; } ... } }` with `n` blocks inside
one another, each the second of two statements; for `n = 0` the statement
`a == b;` itself. -/
def nested_blocks : Nat → ASTNode
  | 0 => mismatch_stmt
  | n + 1 =>
    .NODE_EXPR_LITERAL (2 * n + 10) (at_line 1) none 0
      (.NODE_BLOCK (2 * n + 11) (at_line 1) (nested_blocks n) .NULL)

/-- The program `fn main(a: i32, b: u32) -> void { 0; { 0; { ... { a == b; } ...
} } }` whose body holds the statements `nested_blocks n`. -/
def nested_program (n : Nat) : ASTNode :=
  .NODE_ROOT 0 (at_line 1)
    (.NODE_FUNCTION 1 (at_line 1) (some [some "a", some "b"]) (some [some .I32, some .U32]) 2
      (.NODE_BLOCK 2 (at_line 1) (nested_blocks n) .NULL)
      .NULL)
    .NULL

/-- The program `fn main() -> void { } let g: i32 = 0;`: the function is at
address 1, its empty body at 2, the declaration of `g`, a child of the root, at
3 and its literal at 4. -/
def decl_after_function : ASTNode :=
  .NODE_ROOT 0 (at_line 1)
    (.NODE_FUNCTION 1 (at_line 1) none none 0 (.NODE_BLOCK 2 (at_line 1) .NULL .NULL)
      (.NODE_VAR_DECL 3 (at_line 2) "g" (.NODE_EXPR_LITERAL 4 (at_line 2) none 0 .NULL) .NULL))
    .NULL

/-- The state of the expression examples after `INT_MAX` diagnostics: one scope
binding `len: usize`, `a: i32` and `b: u32`, and `error_count` at `INT_MAX`. -/
def full_counter_state : TypeChecker :=
  { operand_state with error_count := INT_MAX }

/-! # Theorems -/

/-! ## The `int` counter -/

@[simp] theorem count_after_zero (n : Int) : count_after 0 n = n := rfl

theorem count_after_one (n : Int) : count_after 1 n = wrap_int (n + 1) := rfl

theorem count_after_succ (k : Nat) (n : Int) :
    count_after (k + 1) n = count_after k (wrap_int (n + 1)) := rfl

theorem count_after_add (a b : Nat) (n : Int) :
    count_after (a + b) n = count_after b (count_after a n) := by
  induction a generalizing n with
  | zero => simp
  | succ a ih => rw [Nat.add_right_comm, count_after_succ, ih, count_after_succ]

theorem wrap_int_range (n : Int) : INT_MIN ≤ wrap_int n ∧ wrap_int n ≤ INT_MAX := by
  unfold wrap_int INT_MIN INT_MAX
  omega

theorem wrap_int_exact (n : Int) (h0 : INT_MIN ≤ n) (h1 : n ≤ INT_MAX) : wrap_int n = n := by
  unfold wrap_int
  unfold INT_MIN at h0
  unfold INT_MAX at h1
  omega

theorem wrap_int_step (n : Int) (k : Int) : wrap_int (wrap_int n + k) = wrap_int (n + k) := by
  unfold wrap_int
  omega

/-- After at least one increment the counter is the mathematical sum reduced to
the range of an `int`. -/
theorem count_after_wrap (k : Nat) (n : Int) :
    count_after (k + 1) n = wrap_int (n + (k + 1 : Nat)) := by
  induction k generalizing n with
  | zero => simp [count_after]
  | succ k ih =>
    rw [count_after_succ, ih, wrap_int_step]
    congr 1
    push_cast
    ring

/-- While the sum stays within the range of an `int` the counter is the sum. -/
theorem count_after_exact (k : Nat) (n : Int) (h0 : INT_MIN ≤ n) (h1 : n + k ≤ INT_MAX) :
    count_after k n = n + k := by
  cases k with
  | zero => simp
  | succ k =>
    rw [count_after_wrap]
    exact wrap_int_exact _ (by unfold INT_MIN at *; omega) h1

theorem scope_grows_refl (l : List Scope) : scope_grows l l := by
  cases l with
  | nil => rfl
  | cons s parent => exact ⟨[], by simp⟩

theorem scope_grows_trans {a b c : List Scope} (h1 : scope_grows a b) (h2 : scope_grows b c) :
    scope_grows a c := by
  cases a with
  | nil =>
    simp only [scope_grows] at h1
    subst h1
    exact h2
  | cons s parent =>
    obtain ⟨x, rfl⟩ := h1
    obtain ⟨y, rfl⟩ := h2
    exact ⟨y ++ x, by simp⟩

theorem scope_grows_length {a b : List Scope} (h : scope_grows a b) : b.length = a.length := by
  cases a with
  | nil =>
    simp only [scope_grows] at h
    subst h
    rfl
  | cons s parent =>
    obtain ⟨x, rfl⟩ := h
    rfl

theorem scope_grows_tail {a b : List Scope} (h : scope_grows a b) : b.tail = a.tail := by
  cases a with
  | nil =>
    simp only [scope_grows] at h
    subst h
    rfl
  | cons s parent =>
    obtain ⟨x, rfl⟩ := h
    rfl

theorem Progress.refl (tc : TypeChecker) : Progress tc tc :=
  ⟨rfl, scope_grows_refl _, ⟨[], by simp⟩, rfl, fun _ h => h, le_refl _⟩

theorem Progress.trans {a b c : TypeChecker} (h1 : Progress a b) (h2 : Progress b c) :
    Progress a c := by
  obtain ⟨e1, s1, n1⟩ := h1.errors
  obtain ⟨e2, s2, n2⟩ := h2.errors
  refine ⟨h2.pctx.trans h1.pctx, scope_grows_trans h1.scope h2.scope, ⟨e1 ++ e2, ?_, ?_⟩, ?_,
    fun a h => h2.types a (h1.types a h), le_trans h1.enters h2.enters⟩
  · rw [s2, s1, List.append_assoc]
  · rw [n2, n1, List.length_append, count_after_add]
  · have := h1.ops
    have := h2.ops
    omega

/-- A check between `tc_enter_scope` and `tc_exit_scope` leaves the scope stack
as it found it. -/
theorem Progress.bracket {tc tc1 : TypeChecker} (h : Progress (tc_enter_scope tc) tc1) :
    Progress tc (tc_exit_scope tc1) ∧ (tc_exit_scope tc1).current_scope = tc.current_scope := by
  obtain ⟨added, hs⟩ := h.scope
  have hp := h.pctx
  have he := h.errors
  have ho := h.ops
  have ht := h.types
  have hm := h.enters
  simp only [tc_enter_scope] at hs hp he ho ht hm
  have hx : (tc_exit_scope tc1).current_scope = tc.current_scope := by
    simp [tc_exit_scope, hs]
  refine ⟨⟨?_, ?_, ?_, ?_, ?_, ?_⟩, hx⟩
  · simpa [tc_exit_scope, hs] using hp
  · rw [hx]; exact scope_grows_refl _
  · simpa [tc_exit_scope, hs] using he
  · simp [tc_exit_scope, hs]; omega
  · simpa [tc_exit_scope, hs] using ht
  · simp [tc_exit_scope, hs]; omega

/-! ## The steps of the checker -/

theorem tc_error_progress (tc : TypeChecker) (t : Token) (msg : String) :
    Progress tc (tc_error tc t msg) :=
  ⟨rfl, scope_grows_refl _, ⟨[⟨t, msg⟩], rfl, rfl⟩, rfl, fun _ h => h, le_refl _⟩

/-- The increment of `tc_error`: by one while the counter is below `INT_MAX`,
from `INT_MAX` to `INT_MIN`. -/
theorem tc_error_count (tc : TypeChecker) (t : Token) (msg : String) :
    (tc_error tc t msg).error_count = wrap_int (tc.error_count + 1) ∧
    (INT_MIN ≤ tc.error_count → tc.error_count < INT_MAX →
      (tc_error tc t msg).error_count = tc.error_count + 1) ∧
    (tc.error_count = INT_MAX → (tc_error tc t msg).error_count = INT_MIN) := by
  refine ⟨rfl, fun h0 h1 => ?_, fun h => ?_⟩
  · exact wrap_int_exact _ (by unfold INT_MIN at *; omega) (by unfold INT_MAX at *; omega)
  · show wrap_int (tc.error_count + 1) = INT_MIN
    rw [h]
    decide

/-- The only thing `check_type_compatibility` does to the state is a possible
call of `tc_error`. -/
theorem check_type_compatibility_cases (type_to_string : Ty → String) (tc : TypeChecker)
    (target : Option Ty) (value_expr : ASTNode) (t : Token) :
    check_type_compatibility type_to_string tc target value_expr t = (tc, true) ∨
      ∃ msg, check_type_compatibility type_to_string tc target value_expr t =
        (tc_error tc t msg, false) := by
  unfold check_type_compatibility
  split
  · exact Or.inl rfl
  · exact Or.inl rfl
  · split
    · exact Or.inl rfl
    · split_ifs
      · exact Or.inl rfl
      · exact Or.inl rfl
      · exact Or.inl rfl
      · exact Or.inl rfl
      · exact Or.inr ⟨_, rfl⟩
      · exact Or.inl rfl
      · exact Or.inr ⟨_, rfl⟩

theorem check_type_compatibility_progress (type_to_string : Ty → String) (tc : TypeChecker)
    (target : Option Ty) (value_expr : ASTNode) (t : Token) :
    Progress tc (check_type_compatibility type_to_string tc target value_expr t).1 := by
  rcases check_type_compatibility_cases type_to_string tc target value_expr t with h | ⟨msg, h⟩
  · rw [h]; exact Progress.refl _
  · rw [h]; exact tc_error_progress _ _ _

theorem set_type_info_progress (tc : TypeChecker) (addr : Nat) (t : Option Ty)
    (h : tc.type_info addr ≠ none → t ≠ none) : Progress tc (tc.set_type_info addr t) := by
  refine ⟨rfl, scope_grows_refl _, ⟨[], by simp [TypeChecker.set_type_info]⟩, rfl, ?_,
    le_refl _⟩
  intro a ha
  simp only [TypeChecker.set_type_info]
  split_ifs with e
  · subst e; exact h ha
  · exact ha

theorem tc_add_symbol_progress {tc tc1 : TypeChecker} {name : String} {type : Option Ty}
    {t : Token} (h : tc_add_symbol tc name type t = some tc1) : Progress tc tc1 := by
  unfold tc_add_symbol at h
  split at h
  · exact absurd h (by simp)
  · rename_i s parent hs
    simp only [Option.some.injEq] at h
    subst h
    refine ⟨rfl, ?_, ⟨[], by simp⟩, rfl, fun _ h => h, le_refl _⟩
    simp only [hs]
    exact ⟨[⟨name, type, t⟩], rfl⟩

theorem tc_add_symbol_isSome (tc : TypeChecker) (name : String) (type : Option Ty) (t : Token)
    (h : tc.current_scope ≠ []) : ∃ tc1, tc_add_symbol tc name type t = some tc1 := by
  unfold tc_add_symbol
  split
  · rename_i hs; exact absurd hs h
  · exact ⟨_, rfl⟩

theorem current_func_progress (tc : TypeChecker) (f : Option Nat) :
    Progress tc { tc with current_func := f } :=
  ⟨rfl, scope_grows_refl _, ⟨[], by simp⟩, rfl, fun _ h => h, le_refl _⟩

theorem var_decl_compat_progress (type_to_string : Ty → String) (tc : TypeChecker) (addr : Nat)
    (token : Token) (init_expr : ASTNode) :
    Progress tc (var_decl_compat type_to_string tc addr token init_expr) := by
  unfold var_decl_compat
  split_ifs
  · exact Progress.refl _
  · split
    · exact Progress.refl _
    · exact check_type_compatibility_progress _ _ _ _ _

theorem var_decl_publish_progress {tc tc1 : TypeChecker} {addr : Nat} {token : Token}
    {name : String} {init_expr : ASTNode}
    (h : var_decl_publish tc addr token name init_expr = some tc1) : Progress tc tc1 := by
  simp only [var_decl_publish, Option.map_eq_some'] at h
  obtain ⟨tc2, h2, rfl⟩ := h
  have p := tc_add_symbol_progress h2
  refine p.trans (set_type_info_progress _ _ _ ?_)
  intro hne
  have hty : tc2.type_info = tc.type_info := by
    unfold tc_add_symbol at h2
    split at h2
    · exact absurd h2 (by simp)
    · simp only [Option.some.injEq] at h2
      subst h2
      rfl
  rw [hty] at hne
  split
  · rename_i hn _
    exact absurd hn hne
  · rename_i t _ _
    exact hne

theorem function_param_progress {param_names : Option (List (Option String))}
    {arg_types : Option (List (Option Ty))} {tc tc1 : TypeChecker} {i : Nat}
    (h : function_param param_names arg_types tc i = some tc1) : Progress tc tc1 := by
  unfold function_param at h
  split at h
  · simp only [Option.some.injEq] at h; subst h; exact Progress.refl _
  · split at h
    · exact absurd h (by simp)
    · simp only [Option.some.injEq] at h; subst h; exact Progress.refl _
    · split at h
      · exact tc_add_symbol_progress h
      · split at h
        · exact absurd h (by simp)
        · exact tc_add_symbol_progress h

theorem foldlM_progress {α : Type} (f : TypeChecker → α → Option TypeChecker)
    (hf : ∀ tc a tc1, f tc a = some tc1 → Progress tc tc1) :
    ∀ (l : List α) (tc tc1 : TypeChecker), l.foldlM f tc = some tc1 → Progress tc tc1 := by
  intro l
  induction l with
  | nil =>
    intro tc tc1 h
    simp only [List.foldlM_nil, Option.pure_def, Option.some.injEq] at h
    subst h
    exact Progress.refl _
  | cons a l ih =>
    intro tc tc1 h
    simp only [List.foldlM_cons, Option.bind_eq_bind, Option.bind_eq_some] at h
    obtain ⟨tc2, h2, h3⟩ := h
    exact (hf _ _ _ h2).trans (ih _ _ h3)

theorem function_params_progress {param_names : Option (List (Option String))}
    {arg_types : Option (List (Option Ty))} {arg_count : Nat} {tc tc1 : TypeChecker}
    (h : function_params param_names arg_types arg_count tc = some tc1) : Progress tc tc1 :=
  foldlM_progress _ (fun _ _ _ h => function_param_progress h) _ _ _ h

theorem check_expr_var_progress (tc : TypeChecker) (addr : Nat) (name : String) :
    Progress tc (check_expr_var tc addr name) := by
  unfold check_expr_var
  split
  · exact Progress.refl _
  · split
    · exact Progress.refl _
    · exact set_type_info_progress _ _ _ (fun _ => by simp)

theorem return_compat_progress (type_to_string : Ty → String) (tc : TypeChecker)
    (token : Token) (value : ASTNode) :
    Progress tc (return_compat type_to_string tc token value) := by
  unfold return_compat
  split_ifs
  · exact Progress.refl _
  · split
    · exact Progress.refl _
    · split
      · exact Progress.refl _
      · exact check_type_compatibility_progress _ _ _ _ _

theorem binary_infer_progress {type_to_string : Ty → String} {tc tc1 : TypeChecker}
    {addr : Nat} {token : Token} {left right : ASTNode}
    (h : binary_infer type_to_string tc addr token left right = some tc1) : Progress tc tc1 := by
  unfold binary_infer at h
  split at h
  · exact absurd h (by simp)
  · simp only [Option.some.injEq] at h; subst h; exact Progress.refl _
  · simp only at h
    split at h
    · exact absurd h (by simp)
    · simp only [Option.some.injEq] at h
      subst h
      exact (set_type_info_progress _ _ _ (fun _ => by simp)).trans
        (check_type_compatibility_progress _ _ _ _ _)

theorem call_propagate_progress {tc tc1 : TypeChecker} {addr : Nat} {callee : ASTNode}
    (h : call_propagate tc addr callee = some tc1) : Progress tc tc1 := by
  unfold call_propagate at h
  split at h
  · exact absurd h (by simp)
  · simp only [Option.some.injEq] at h; subst h; exact Progress.refl _
  · simp only [Option.some.injEq] at h
    subst h
    exact set_type_info_progress _ _ _ (fun _ => by simp)

/-! ## The recursion -/

/-- The loop of `check_block` started at a node is `check_node` on the node
followed by the loop started at `node->next`. -/
theorem check_node_aux_loop (type_to_string : Ty → String) (loop : Bool) (tc : TypeChecker)
    (node : ASTNode) :
    check_node_aux type_to_string loop tc node =
      (check_node_aux type_to_string false tc node).bind fun tc1 =>
        if loop then check_node_aux type_to_string true tc1 node.next else some tc1 := by
  cases node <;> cases loop <;>
    simp [check_node_aux, ASTNode.next, Option.bind_assoc, bind]

/-- `check_node` on a block is `check_block` followed by `check_node` on
`node->next`. -/
theorem check_node_block (type_to_string : Ty → String) (tc : TypeChecker) (addr : Nat)
    (token : Token) (statements next : ASTNode) :
    check_node type_to_string tc (.NODE_BLOCK addr token statements next) =
      (check_block type_to_string tc statements).bind fun tc1 =>
        check_node type_to_string tc1 next := by
  simp only [check_node, check_node_aux, check_block, check_block_loop, Option.bind_eq_bind,
    Bool.false_eq_true, if_false, Option.pure_def, Option.bind_some]
  cases check_node_aux type_to_string true (tc_enter_scope tc) statements <;> rfl

/-- `check_node` on a declaration is `check_var_decl` followed by `check_node` on
`node->next`. -/
theorem check_node_var_decl (type_to_string : Ty → String) (tc : TypeChecker) (addr : Nat)
    (token : Token) (name : String) (init_expr next : ASTNode) :
    check_node type_to_string tc (.NODE_VAR_DECL addr token name init_expr next) =
      (check_var_decl type_to_string tc addr token name init_expr).bind fun tc1 =>
        check_node type_to_string tc1 next := by
  simp only [check_node, check_node_aux, check_var_decl, Option.bind_eq_bind,
    Bool.false_eq_true, if_false, Option.pure_def, Option.bind_some, Option.bind_assoc]

/-- `check_node` on a function is `check_function` followed by `check_node` on
`node->next`. -/
theorem check_node_function (type_to_string : Ty → String) (tc : TypeChecker) (addr : Nat)
    (token : Token) (param_names : Option (List (Option String)))
    (arg_types : Option (List (Option Ty))) (arg_count : Nat) (body next : ASTNode) :
    check_node type_to_string tc
        (.NODE_FUNCTION addr token param_names arg_types arg_count body next) =
      (check_function type_to_string tc addr param_names arg_types arg_count body).bind
        fun tc1 => check_node type_to_string tc1 next := by
  simp only [check_node, check_node_aux, check_function, Option.bind_eq_bind,
    Bool.false_eq_true, if_false, Option.pure_def, Option.bind_some, Option.bind_assoc,
    Option.map_eq_bind, Function.comp]
  rfl

/-- One turn of the loop of `check_block`: `check_node` on the statement, then
the loop from `stmt->next`. -/
theorem check_block_loop_step (type_to_string : Ty → String) (tc : TypeChecker)
    (stmt : ASTNode) :
    check_block_loop type_to_string tc stmt =
      if stmt.is_null then some tc
      else (check_node type_to_string tc stmt).bind fun tc1 =>
        check_block_loop type_to_string tc1 stmt.next := by
  unfold check_block_loop check_node
  rw [check_node_aux_loop]
  cases stmt <;> simp [ASTNode.is_null, check_node_aux]

theorem progress_tail {type_to_string : Ty → String} {next : ASTNode}
    (ihn : ∀ (loop : Bool) (tc tc1 : TypeChecker),
      check_node_aux type_to_string loop tc next = some tc1 → Progress tc tc1)
    {loop : Bool} {tc t2 tc1 : TypeChecker} (p : Progress tc t2)
    (h : (if loop then check_node_aux type_to_string true t2 next else some t2) = some tc1) :
    Progress tc tc1 := by
  cases loop with
  | false => simp only [Bool.false_eq_true, if_false, Option.some.injEq] at h; subst h; exact p
  | true => exact p.trans (ihn _ _ _ h)

theorem check_node_aux_progress (type_to_string : Ty → String) (node : ASTNode) :
    ∀ (loop : Bool) (tc tc1 : TypeChecker),
      check_node_aux type_to_string loop tc node = some tc1 → Progress tc tc1 := by
  induction node with
  | NULL =>
    intro loop tc tc1 h
    simp only [check_node_aux, Option.some.injEq] at h
    subst h
    exact Progress.refl _
  | NODE_ROOT addr token children next ihc ihn =>
    intro loop tc tc1 h
    rw [check_node_aux_loop] at h
    simp only [check_node_aux, Option.bind_eq_bind, Option.bind_eq_some, Bool.false_eq_true,
      if_false, Option.pure_def, Option.some.injEq, ASTNode.next] at h
    obtain ⟨t3, ⟨t1, h1, t2, h2, rfl⟩, h3⟩ := h
    exact progress_tail ihn ((ihc _ _ _ h1).trans (ihn _ _ _ h2)) h3
  | NODE_BLOCK addr token statements next ihs ihn =>
    intro loop tc tc1 h
    rw [check_node_aux_loop] at h
    simp only [check_node_aux, Option.bind_eq_bind, Option.bind_eq_some, Bool.false_eq_true,
      if_false, Option.pure_def, Option.some.injEq, ASTNode.next] at h
    obtain ⟨t3, ⟨t1, h1, t2, h2, rfl⟩, h3⟩ := h
    exact progress_tail ihn ((Progress.bracket (ihs _ _ _ h1)).1.trans (ihn _ _ _ h2)) h3
  | NODE_VAR_DECL addr token name init_expr next ihi ihn =>
    intro loop tc tc1 h
    rw [check_node_aux_loop] at h
    simp only [check_node_aux, Option.bind_eq_bind, Option.bind_eq_some, Bool.false_eq_true,
      if_false, Option.pure_def, Option.some.injEq, ASTNode.next] at h
    obtain ⟨t4, ⟨t1, h1, t2, h2, t3, h3, rfl⟩, h4⟩ := h
    exact progress_tail ihn ((((ihi _ _ _ h1).trans (var_decl_compat_progress _ _ _ _ _)).trans
      (var_decl_publish_progress h2)).trans (ihn _ _ _ h3)) h4
  | NODE_FUNCTION addr token param_names arg_types arg_count body next ihb ihn =>
    intro loop tc tc1 h
    rw [check_node_aux_loop] at h
    simp only [check_node_aux, Option.bind_eq_bind, Option.bind_eq_some, Bool.false_eq_true,
      if_false, Option.pure_def, Option.some.injEq, ASTNode.next] at h
    obtain ⟨t4, ⟨t1, h1, t2, h2, t3, h3, rfl⟩, h4⟩ := h
    have p1 := (function_params_progress h1).trans (ihb _ _ _ h2)
    exact progress_tail ihn ((((current_func_progress tc (some addr)).trans
      (Progress.bracket p1).1).trans (current_func_progress _ none)).trans (ihn _ _ _ h3)) h4
  | NODE_EXPR_VAR addr token name next ihn =>
    intro loop tc tc1 h
    rw [check_node_aux_loop] at h
    simp only [check_node_aux, Option.bind_eq_bind, Option.bind_eq_some, Bool.false_eq_true,
      if_false, Option.pure_def, Option.some.injEq, ASTNode.next] at h
    obtain ⟨t2, ⟨t1, h1, rfl⟩, h2⟩ := h
    exact progress_tail ihn ((check_expr_var_progress _ _ _).trans (ihn _ _ _ h1)) h2
  | NODE_RETURN addr token value next ihv ihn =>
    intro loop tc tc1 h
    rw [check_node_aux_loop] at h
    simp only [check_node_aux, Option.bind_eq_bind, Option.bind_eq_some, Bool.false_eq_true,
      if_false, Option.pure_def, Option.some.injEq, ASTNode.next] at h
    obtain ⟨t3, ⟨t1, h1, t2, h2, rfl⟩, h3⟩ := h
    exact progress_tail ihn (((ihv _ _ _ h1).trans (return_compat_progress _ _ _ _)).trans
      (ihn _ _ _ h2)) h3
  | NODE_IF addr token condition then_body else_body next ihc iht ihe ihn =>
    intro loop tc tc1 h
    rw [check_node_aux_loop] at h
    simp only [check_node_aux, Option.bind_eq_bind, Option.bind_eq_some, Bool.false_eq_true,
      if_false, Option.pure_def, Option.some.injEq, ASTNode.next] at h
    obtain ⟨t5, ⟨t1, h1, t2, h2, t3, h3, t4, h4, rfl⟩, h5⟩ := h
    exact progress_tail ihn ((((ihc _ _ _ h1).trans (iht _ _ _ h2)).trans
      (ihe _ _ _ h3)).trans (ihn _ _ _ h4)) h5
  | NODE_WHILE addr token condition body next ihc ihb ihn =>
    intro loop tc tc1 h
    rw [check_node_aux_loop] at h
    simp only [check_node_aux, Option.bind_eq_bind, Option.bind_eq_some, Bool.false_eq_true,
      if_false, Option.pure_def, Option.some.injEq, ASTNode.next] at h
    obtain ⟨t4, ⟨t1, h1, t2, h2, t3, h3, rfl⟩, h4⟩ := h
    exact progress_tail ihn (((ihc _ _ _ h1).trans (ihb _ _ _ h2)).trans (ihn _ _ _ h3)) h4
  | NODE_FOR addr token init condition step body next ihi ihc ihs ihb ihn =>
    intro loop tc tc1 h
    rw [check_node_aux_loop] at h
    simp only [check_node_aux, Option.bind_eq_bind, Option.bind_eq_some, Bool.false_eq_true,
      if_false, Option.pure_def, Option.some.injEq, ASTNode.next] at h
    obtain ⟨t6, ⟨t1, h1, t2, h2, t3, h3, t4, h4, t5, h5, rfl⟩, h6⟩ := h
    have p1 : Progress (tc_enter_scope tc) t4 :=
      (((ihi _ _ _ h1).trans (ihc _ _ _ h2)).trans (ihs _ _ _ h3)).trans (ihb _ _ _ h4)
    exact progress_tail ihn ((Progress.bracket p1).1.trans (ihn _ _ _ h5)) h6
  | NODE_EXPR_BINARY addr token left right next ihl ihr ihn =>
    intro loop tc tc1 h
    rw [check_node_aux_loop] at h
    simp only [check_node_aux, Option.bind_eq_bind, Option.bind_eq_some, Bool.false_eq_true,
      if_false, Option.pure_def, Option.some.injEq, ASTNode.next] at h
    obtain ⟨t5, ⟨t1, h1, t2, h2, t3, h3, t4, h4, rfl⟩, h5⟩ := h
    exact progress_tail ihn ((((ihl _ _ _ h1).trans (ihr _ _ _ h2)).trans
      (binary_infer_progress h3)).trans (ihn _ _ _ h4)) h5
  | NODE_EXPR_CALL addr token callee args next ihc iha ihn =>
    intro loop tc tc1 h
    rw [check_node_aux_loop] at h
    simp only [check_node_aux, Option.bind_eq_bind, Option.bind_eq_some, Bool.false_eq_true,
      if_false, Option.pure_def, Option.some.injEq, ASTNode.next] at h
    obtain ⟨t5, ⟨t1, h1, t2, h2, t3, h3, t4, h4, rfl⟩, h5⟩ := h
    exact progress_tail ihn ((((ihc _ _ _ h1).trans (iha _ _ _ h2)).trans
      (call_propagate_progress h3)).trans (ihn _ _ _ h4)) h5
  | NODE_EXPR_LITERAL addr token string_val type_kind next ihn =>
    intro loop tc tc1 h
    rw [check_node_aux_loop] at h
    simp only [check_node_aux, Option.bind_eq_bind, Option.bind_eq_some, Bool.false_eq_true,
      if_false, Option.pure_def, Option.some.injEq, ASTNode.next] at h
    obtain ⟨t2, ⟨t1, h1, rfl⟩, h2⟩ := h
    exact progress_tail ihn (ihn _ _ _ h1) h2
  | NODE_EXPR_UNARY addr token operand next _ ihn =>
    intro loop tc tc1 h
    rw [check_node_aux_loop] at h
    simp only [check_node_aux, Option.bind_eq_bind, Option.bind_eq_some, Bool.false_eq_true,
      if_false, Option.pure_def, Option.some.injEq, ASTNode.next] at h
    obtain ⟨t2, ⟨t1, h1, rfl⟩, h2⟩ := h
    exact progress_tail ihn (ihn _ _ _ h1) h2

/-! ## When a check returns -/

theorem progress_depth {tc tc1 : TypeChecker} (h : Progress tc tc1) :
    tc1.current_scope.length = tc.current_scope.length :=
  scope_grows_length h.scope

theorem function_param_isSome (param_names : Option (List (Option String)))
    (arg_types : Option (List (Option Ty))) (i : Nat) (tc : TypeChecker)
    (hd : tc.current_scope ≠ []) :
    (function_param param_names arg_types tc i).isSome =
      param_in_bounds param_names arg_types i := by
  unfold function_param param_in_bounds
  cases param_names with
  | none => rfl
  | some names =>
    simp only
    cases names.get? i with
    | none => rfl
    | some oname =>
      cases oname with
      | none => rfl
      | some name =>
        simp only
        cases arg_types with
        | none =>
          obtain ⟨x, hx⟩ := tc_add_symbol_isSome tc name none Token.zero hd
          simp [hx]
        | some types =>
          simp only
          cases types.get? i with
          | none => rfl
          | some t =>
            obtain ⟨x, hx⟩ := tc_add_symbol_isSome tc name t Token.zero hd
            simp [hx]

theorem function_params_isSome (param_names : Option (List (Option String)))
    (arg_types : Option (List (Option Ty))) (arg_count : Nat) (tc : TypeChecker)
    (hd : tc.current_scope ≠ []) :
    (function_params param_names arg_types arg_count tc).isSome =
      params_in_bounds param_names arg_types arg_count := by
  unfold function_params params_in_bounds
  generalize List.range arg_count = l
  induction l generalizing tc with
  | nil => simp
  | cons i l ih =>
    simp only [List.foldlM_cons, Option.bind_eq_bind, List.all_cons]
    rw [← function_param_isSome param_names arg_types i tc hd]
    cases hp : function_param param_names arg_types tc i with
    | none => simp
    | some tc1 =>
      have hd1 : tc1.current_scope ≠ [] := by
        intro he
        have := progress_depth (function_param_progress hp)
        rw [he] at this
        exact hd (List.length_eq_zero.mp this.symm)
      simp [ih tc1 hd1]

theorem var_decl_publish_isSome (tc : TypeChecker) (addr : Nat) (token : Token) (name : String)
    (init_expr : ASTNode) :
    (var_decl_publish tc addr token name init_expr).isSome =
      decide (0 < tc.current_scope.length) := by
  unfold var_decl_publish tc_add_symbol
  cases h : tc.current_scope <;> simp

theorem binary_infer_isSome (type_to_string : Ty → String) (tc : TypeChecker) (addr : Nat)
    (token : Token) (left right : ASTNode) :
    (binary_infer type_to_string tc addr token left right).isSome = !left.is_null := by
  unfold binary_infer TypeChecker.deref_type_info
  cases left <;> simp only [ASTNode.addr, ASTNode.is_null] <;> first | rfl | (split <;> simp_all)

theorem call_propagate_isSome (tc : TypeChecker) (addr : Nat) (callee : ASTNode) :
    (call_propagate tc addr callee).isSome = !callee.is_null := by
  unfold call_propagate TypeChecker.deref_type_info
  cases callee <;> simp only [ASTNode.addr, ASTNode.is_null] <;> first | rfl | (split <;> simp_all)

theorem tail_isSome {type_to_string : Ty → String} {next : ASTNode}
    (ihn : ∀ (loop : Bool) (tc : TypeChecker),
      (check_node_aux type_to_string loop tc next).isSome =
        fault_free tc.current_scope.length next)
    (loop : Bool) (t : TypeChecker) :
    ((check_node_aux type_to_string false t next).bind fun tc =>
      if loop = true then check_node_aux type_to_string true tc next else some tc).isSome =
      fault_free t.current_scope.length next := by
  rw [← ihn false t]
  cases h : check_node_aux type_to_string false t next with
  | none => rfl
  | some t2 =>
    cases loop with
    | false => rfl
    | true =>
      simp only [Option.some_bind, if_true, Option.isSome_some]
      rw [ihn true t2, progress_depth (check_node_aux_progress _ _ _ _ _ h), ← ihn false t, h]
      rfl

theorem enter_depth (tc : TypeChecker) :
    (tc_enter_scope tc).current_scope.length = tc.current_scope.length + 1 := rfl

theorem bracket_depth {tc t1 : TypeChecker} (h : Progress (tc_enter_scope tc) t1) :
    (tc_exit_scope t1).current_scope.length = tc.current_scope.length := by
  rw [(Progress.bracket h).2]

/-- A check returns exactly when it meets no fault. -/
theorem check_node_aux_isSome (type_to_string : Ty → String) (node : ASTNode) :
    ∀ (loop : Bool) (tc : TypeChecker),
      (check_node_aux type_to_string loop tc node).isSome =
        fault_free tc.current_scope.length node := by
  induction node with
  | NULL => intro loop tc; rfl
  | NODE_ROOT addr token children next ihc ihn =>
    intro loop tc
    simp only [check_node_aux, fault_free, Option.bind_eq_bind, Option.pure_def]
    rw [← ihc false tc]
    cases h1 : check_node_aux type_to_string false tc children with
    | none => rfl
    | some t1 =>
      simp only [Option.some_bind, Option.isSome_some, Bool.true_and]
      rw [← progress_depth (check_node_aux_progress _ _ _ _ _ h1)]
      exact tail_isSome ihn loop t1
  | NODE_BLOCK addr token statements next ihs ihn =>
    intro loop tc
    simp only [check_node_aux, fault_free, Option.bind_eq_bind, Option.pure_def]
    rw [← enter_depth tc, ← ihs true (tc_enter_scope tc)]
    cases h1 : check_node_aux type_to_string true (tc_enter_scope tc) statements with
    | none => rfl
    | some t1 =>
      simp only [Option.some_bind, Option.isSome_some, Bool.true_and]
      rw [← bracket_depth (check_node_aux_progress _ _ _ _ _ h1)]
      exact tail_isSome ihn loop _
  | NODE_VAR_DECL addr token name init_expr next ihi ihn =>
    intro loop tc
    simp only [check_node_aux, fault_free, Option.bind_eq_bind, Option.pure_def]
    rw [← ihi false tc]
    cases h1 : check_node_aux type_to_string false tc init_expr with
    | none => rfl
    | some t1 =>
      simp only [Option.some_bind, Option.isSome_some, Bool.true_and]
      have d1 := progress_depth (check_node_aux_progress _ _ _ _ _ h1)
      have d2 := progress_depth (var_decl_compat_progress type_to_string t1 addr token init_expr)
      have hp := var_decl_publish_isSome (var_decl_compat type_to_string t1 addr token init_expr)
        addr token name init_expr
      rw [d2, d1] at hp
      rw [← hp]
      cases h2 : var_decl_publish (var_decl_compat type_to_string t1 addr token init_expr)
          addr token name init_expr with
      | none => rfl
      | some t2 =>
        simp only [Option.some_bind, Option.isSome_some, Bool.true_and]
        have d3 := progress_depth (var_decl_publish_progress h2)
        rw [← d1, ← d2, ← d3]
        exact tail_isSome ihn loop t2
  | NODE_FUNCTION addr token param_names arg_types arg_count body next ihb ihn =>
    intro loop tc
    simp only [check_node_aux, fault_free, Option.bind_eq_bind, Option.pure_def]
    rw [← function_params_isSome param_names arg_types arg_count
      (tc_enter_scope { tc with current_func := some addr }) (by simp [tc_enter_scope])]
    cases h1 : function_params param_names arg_types arg_count
        (tc_enter_scope { tc with current_func := some addr }) with
    | none => rfl
    | some t1 =>
      simp only [Option.some_bind, Option.isSome_some, Bool.true_and]
      have d1 := progress_depth (function_params_progress h1)
      rw [enter_depth] at d1
      simp only at d1
      rw [← d1, ← ihb false t1]
      cases h2 : check_node_aux type_to_string false t1 body with
      | none => rfl
      | some t2 =>
        simp only [Option.some_bind, Option.isSome_some, Bool.true_and]
        have d2 := bracket_depth ((function_params_progress h1).trans
          (check_node_aux_progress _ _ _ _ _ h2))
        simp only at d2
        rw [← d2]
        exact tail_isSome ihn loop { tc_exit_scope t2 with current_func := none }
  | NODE_EXPR_VAR addr token name next ihn =>
    intro loop tc
    simp only [check_node_aux, fault_free, Option.bind_eq_bind, Option.pure_def]
    rw [← progress_depth (check_expr_var_progress tc addr name)]
    exact tail_isSome ihn loop _
  | NODE_RETURN addr token value next ihv ihn =>
    intro loop tc
    simp only [check_node_aux, fault_free, Option.bind_eq_bind, Option.pure_def]
    rw [← ihv false tc]
    cases h1 : check_node_aux type_to_string false tc value with
    | none => rfl
    | some t1 =>
      simp only [Option.some_bind, Option.isSome_some, Bool.true_and]
      rw [← progress_depth (check_node_aux_progress _ _ _ _ _ h1),
        ← progress_depth (return_compat_progress type_to_string t1 token value)]
      exact tail_isSome ihn loop _
  | NODE_IF addr token condition then_body else_body next ihc iht ihe ihn =>
    intro loop tc
    simp only [check_node_aux, fault_free, Option.bind_eq_bind, Option.pure_def]
    rw [← ihc false tc]
    cases h1 : check_node_aux type_to_string false tc condition with
    | none => rfl
    | some t1 =>
      simp only [Option.some_bind, Option.isSome_some, Bool.true_and]
      rw [← progress_depth (check_node_aux_progress _ _ _ _ _ h1), ← iht false t1]
      cases h2 : check_node_aux type_to_string false t1 then_body with
      | none => rfl
      | some t2 =>
        simp only [Option.some_bind, Option.isSome_some, Bool.true_and]
        rw [← progress_depth (check_node_aux_progress _ _ _ _ _ h2), ← ihe false t2]
        cases h3 : check_node_aux type_to_string false t2 else_body with
        | none => rfl
        | some t3 =>
          simp only [Option.some_bind, Option.isSome_some, Bool.true_and]
          rw [← progress_depth (check_node_aux_progress _ _ _ _ _ h3)]
          exact tail_isSome ihn loop t3
  | NODE_WHILE addr token condition body next ihc ihb ihn =>
    intro loop tc
    simp only [check_node_aux, fault_free, Option.bind_eq_bind, Option.pure_def]
    rw [← ihc false tc]
    cases h1 : check_node_aux type_to_string false tc condition with
    | none => rfl
    | some t1 =>
      simp only [Option.some_bind, Option.isSome_some, Bool.true_and]
      rw [← progress_depth (check_node_aux_progress _ _ _ _ _ h1), ← ihb false t1]
      cases h2 : check_node_aux type_to_string false t1 body with
      | none => rfl
      | some t2 =>
        simp only [Option.some_bind, Option.isSome_some, Bool.true_and]
        rw [← progress_depth (check_node_aux_progress _ _ _ _ _ h2)]
        exact tail_isSome ihn loop t2
  | NODE_FOR addr token init condition step body next ihi ihc ihs ihb ihn =>
    intro loop tc
    simp only [check_node_aux, fault_free, Option.bind_eq_bind, Option.pure_def]
    rw [← enter_depth tc, ← ihi false (tc_enter_scope tc)]
    cases h1 : check_node_aux type_to_string false (tc_enter_scope tc) init with
    | none => rfl
    | some t1 =>
      simp only [Option.some_bind, Option.isSome_some, Bool.true_and]
      have p1 := check_node_aux_progress _ _ _ _ _ h1
      rw [← progress_depth p1, ← ihc false t1]
      cases h2 : check_node_aux type_to_string false t1 condition with
      | none => rfl
      | some t2 =>
        simp only [Option.some_bind, Option.isSome_some, Bool.true_and]
        have p2 := check_node_aux_progress _ _ _ _ _ h2
        rw [← progress_depth p2, ← ihs false t2]
        cases h3 : check_node_aux type_to_string false t2 step with
        | none => rfl
        | some t3 =>
          simp only [Option.some_bind, Option.isSome_some, Bool.true_and]
          have p3 := check_node_aux_progress _ _ _ _ _ h3
          rw [← progress_depth p3, ← ihb false t3]
          cases h4 : check_node_aux type_to_string false t3 body with
          | none => rfl
          | some t4 =>
            simp only [Option.some_bind, Option.isSome_some, Bool.true_and]
            have p4 := check_node_aux_progress _ _ _ _ _ h4
            rw [← bracket_depth (((p1.trans p2).trans p3).trans p4)]
            exact tail_isSome ihn loop _
  | NODE_EXPR_BINARY addr token left right next ihl ihr ihn =>
    intro loop tc
    simp only [check_node_aux, fault_free, Option.bind_eq_bind, Option.pure_def]
    rw [← ihl false tc]
    cases h1 : check_node_aux type_to_string false tc left with
    | none => rfl
    | some t1 =>
      simp only [Option.some_bind, Option.isSome_some, Bool.true_and]
      rw [← progress_depth (check_node_aux_progress _ _ _ _ _ h1), ← ihr false t1]
      cases h2 : check_node_aux type_to_string false t1 right with
      | none => rfl
      | some t2 =>
        simp only [Option.some_bind, Option.isSome_some, Bool.true_and]
        rw [← binary_infer_isSome type_to_string t2 addr token left right]
        cases h3 : binary_infer type_to_string t2 addr token left right with
        | none => rfl
        | some t3 =>
          simp only [Option.some_bind, Option.isSome_some, Bool.true_and]
          rw [← progress_depth (check_node_aux_progress _ _ _ _ _ h2),
            ← progress_depth (binary_infer_progress h3)]
          exact tail_isSome ihn loop t3
  | NODE_EXPR_CALL addr token callee args next ihc iha ihn =>
    intro loop tc
    simp only [check_node_aux, fault_free, Option.bind_eq_bind, Option.pure_def]
    rw [← ihc false tc]
    cases h1 : check_node_aux type_to_string false tc callee with
    | none => rfl
    | some t1 =>
      simp only [Option.some_bind, Option.isSome_some, Bool.true_and]
      rw [← progress_depth (check_node_aux_progress _ _ _ _ _ h1), ← iha false t1]
      cases h2 : check_node_aux type_to_string false t1 args with
      | none => rfl
      | some t2 =>
        simp only [Option.some_bind, Option.isSome_some, Bool.true_and]
        rw [← call_propagate_isSome t2 addr callee]
        cases h3 : call_propagate t2 addr callee with
        | none => rfl
        | some t3 =>
          simp only [Option.some_bind, Option.isSome_some, Bool.true_and]
          rw [← progress_depth (check_node_aux_progress _ _ _ _ _ h2),
            ← progress_depth (call_propagate_progress h3)]
          exact tail_isSome ihn loop t3
  | NODE_EXPR_LITERAL addr token string_val type_kind next ihn =>
    intro loop tc
    simp only [check_node_aux, fault_free, Option.bind_eq_bind, Option.pure_def]
    exact tail_isSome ihn loop tc
  | NODE_EXPR_UNARY addr token operand next _ ihn =>
    intro loop tc
    simp only [check_node_aux, fault_free, Option.bind_eq_bind, Option.pure_def]
    exact tail_isSome ihn loop tc

/-! ## The classification predicates -/

theorem is_integer_type_iff (t : Ty) : is_integer_type (some t) = true ↔ t ∈ integer_kinds := by
  cases t <;> simp [is_integer_type, Ty.kind, integer_kinds, signed_kinds, unsigned_kinds] <;>
    decide

theorem is_signed_integer_iff (t : Ty) : is_signed_integer (some t) = true ↔ t ∈ signed_kinds := by
  cases t <;> simp [is_signed_integer, Ty.kind, signed_kinds]

theorem is_void_pointer_iff (t : Ty) : is_void_pointer t = true ↔ t = .POINTER .VOID := by
  cases t with
  | POINTER inner => cases inner <;> simp [is_void_pointer, Ty.kind]
  | _ => simp [is_void_pointer]

theorem is_safe_integer_literal_iff (node : ASTNode) :
    is_safe_integer_literal node = true ↔ plain_literal node := by
  unfold plain_literal
  cases node with
  | NODE_EXPR_LITERAL addr token string_val type_kind next =>
    cases string_val with
    | none =>
      by_cases h : type_kind = 1
      · simp [is_safe_integer_literal, h]
      · simp only [is_safe_integer_literal, ne_eq, not_true_eq_false, if_false, h, true_iff]
        exact ⟨addr, token, type_kind, next, rfl, h⟩
    | some v => simp [is_safe_integer_literal]
  | _ => simp [is_safe_integer_literal]

theorem type_of_eq (tc : TypeChecker) (node : ASTNode) (a : Nat) (h : node.addr = some a) :
    tc.type_of node = tc.type_info a := by
  simp [TypeChecker.type_of, h]

theorem addr_eq_none_iff (node : ASTNode) : node.addr = none ↔ node = .NULL := by
  cases node <;> simp [ASTNode.addr]

/-- C1: `check_type_compatibility` returns true exactly in the cases the spec's
ordered rules accept: a null target, a null value expression, a null type on
the value expression, equal types, a pointer to void on either side, or two
integer kinds of equal signedness or with a plain literal as the value. -/
theorem check_type_compatibility_decides (type_to_string : Ty → String) (tc : TypeChecker)
    (target : Option Ty) (value_expr : ASTNode) (t : Token) :
    (check_type_compatibility type_to_string tc target value_expr t).2 = true ↔
      spec_accepts target value_expr (tc.type_of value_expr) := by
  unfold spec_accepts check_type_compatibility
  cases target with
  | none => simp
  | some T =>
    cases ha : value_expr.addr with
    | none => simp [(addr_eq_none_iff value_expr).mp ha]
    | some a =>
      have hn : value_expr ≠ .NULL := fun h => by
        rw [(addr_eq_none_iff value_expr).mpr h] at ha; simp at ha
      rw [type_of_eq tc value_expr a ha]
      cases hv : tc.type_info a with
      | none => simp [hv]
      | some V =>
        simp only [hv, hn, false_or, Option.some.injEq, exists_and_left, exists_eq_left',
          reduceCtorEq]
        rw [← is_void_pointer_iff T, ← is_void_pointer_iff V, ← is_integer_type_iff T,
          ← is_integer_type_iff V, ← is_signed_integer_iff T, ← is_signed_integer_iff V,
          ← is_safe_integer_literal_iff]
        cases type_eq T V <;> cases is_void_pointer T <;> cases is_void_pointer V <;>
          cases is_integer_type (some T) <;> cases is_integer_type (some V) <;>
          cases is_signed_integer (some T) <;> cases is_signed_integer (some V) <;>
          cases is_safe_integer_literal value_expr <;> simp

theorem snprintf_fits (size : Nat) (text : String) (h : text.length ≤ size - 1) :
    snprintf size text = text := by
  unfold snprintf
  have h1 : text.data.length ≤ size - 1 := h
  rw [List.take_of_length_le h1]

/-- C2 (as amended): `check_type_compatibility` emits at most one diagnostic and
its result tells which.  When it returns true the state is unchanged.  When it
returns false, the `int` `error_count` is incremented once (it grows by exactly
one when it was below `INT_MAX`, and goes from `INT_MAX` to `INT_MIN`) and one
diagnostic is appended, at the token passed in; its message is what
`snprintf(msg, 255, ...)` keeps, the first 254 bytes, of the sign-mismatch text
(value type first) when both types are integer kinds and of the type-mismatch
text (target first) otherwise, and the whole text when that is at most 254
bytes long. -/
theorem check_type_compatibility_emits (type_to_string : Ty → String) (tc : TypeChecker)
    (target : Option Ty) (value_expr : ASTNode) (t : Token) :
    ((check_type_compatibility type_to_string tc target value_expr t).2 = true →
      (check_type_compatibility type_to_string tc target value_expr t).1 = tc) ∧
    ((check_type_compatibility type_to_string tc target value_expr t).2 = false →
      ∃ T V msg, target = some T ∧ tc.type_of value_expr = some V ∧
        msg = snprintf 255 (rejection_text type_to_string T V) ∧
        ((rejection_text type_to_string T V).length ≤ 254 →
          msg = rejection_text type_to_string T V) ∧
        (check_type_compatibility type_to_string tc target value_expr t).1 =
          tc_error tc t msg ∧
        (check_type_compatibility type_to_string tc target value_expr t).1.error_count =
          wrap_int (tc.error_count + 1) ∧
        (INT_MIN ≤ tc.error_count → tc.error_count < INT_MAX →
          (check_type_compatibility type_to_string tc target value_expr t).1.error_count =
            tc.error_count + 1) ∧
        (tc.error_count = INT_MAX →
          (check_type_compatibility type_to_string tc target value_expr t).1.error_count =
            INT_MIN) ∧
        (check_type_compatibility type_to_string tc target value_expr t).1.stderr =
          tc.stderr ++ [⟨t, msg⟩]) := by
  unfold check_type_compatibility
  cases target with
  | none => simp
  | some T =>
    cases ha : value_expr.addr with
    | none => simp
    | some a =>
      rw [type_of_eq tc value_expr a ha]
      cases hv : tc.type_info a with
      | none => simp [hv]
      | some V =>
        simp only [hv]
        have fits : ∀ x : String, x.length ≤ 254 → snprintf 255 x = x :=
          fun x hx => snprintf_fits 255 x hx
        split_ifs with h1 h2 h3 h4 h5 h6
        · simp
        · simp
        · simp
        · simp
        · have hi : T ∈ integer_kinds ∧ V ∈ integer_kinds := by
            simp only [Bool.and_eq_true] at h4
            exact ⟨(is_integer_type_iff T).mp h4.1, (is_integer_type_iff V).mp h4.2⟩
          have hr : rejection_text type_to_string T V = sign_mismatch_text type_to_string T V := by
            simp [rejection_text, hi]
          refine ⟨by simp, fun _ => ⟨T, V, _, rfl, rfl, rfl, fits _, ?_, rfl,
            (tc_error_count tc t _).2.1, (tc_error_count tc t _).2.2, ?_⟩⟩
          · rw [hr]
          · rw [hr]; rfl
        · simp
        · have hi : ¬ (T ∈ integer_kinds ∧ V ∈ integer_kinds) := by
            simp only [Bool.and_eq_true] at h4
            rw [← is_integer_type_iff, ← is_integer_type_iff]
            exact h4
          have hr : rejection_text type_to_string T V = type_mismatch_text type_to_string T V := by
            simp [rejection_text, hi]
          refine ⟨by simp, fun _ => ⟨T, V, _, rfl, rfl, rfl, fits _, ?_, rfl,
            (tc_error_count tc t _).2.1, (tc_error_count tc t _).2.2, ?_⟩⟩
          · rw [hr]
          · rw [hr]; rfl

/-- C2, witness: comparing a `usize` target with a reference of type `i32`
returns false and appends the sign mismatch naming `'i32'` first. -/
theorem check_type_compatibility_emits_witness :
    (check_type_compatibility type_names (checker_with [] [(2, .I32)]) (some .USIZE)
      annotated_ref (at_line 7)).2 = false ∧
    ∃ T V msg, some Ty.USIZE = some T ∧
      (checker_with [] [(2, .I32)]).type_of annotated_ref = some V ∧
      msg = snprintf 255 (rejection_text type_names T V) ∧
      ((rejection_text type_names T V).length ≤ 254 → msg = rejection_text type_names T V) ∧
      (check_type_compatibility type_names (checker_with [] [(2, .I32)]) (some .USIZE)
        annotated_ref (at_line 7)).1 = tc_error (checker_with [] [(2, .I32)]) (at_line 7) msg ∧
      (check_type_compatibility type_names (checker_with [] [(2, .I32)]) (some .USIZE)
        annotated_ref (at_line 7)).1.error_count =
        wrap_int ((checker_with [] [(2, .I32)]).error_count + 1) ∧
      (INT_MIN ≤ (checker_with [] [(2, .I32)]).error_count →
        (checker_with [] [(2, .I32)]).error_count < INT_MAX →
        (check_type_compatibility type_names (checker_with [] [(2, .I32)]) (some .USIZE)
          annotated_ref (at_line 7)).1.error_count =
          (checker_with [] [(2, .I32)]).error_count + 1) ∧
      ((checker_with [] [(2, .I32)]).error_count = INT_MAX →
        (check_type_compatibility type_names (checker_with [] [(2, .I32)]) (some .USIZE)
          annotated_ref (at_line 7)).1.error_count = INT_MIN) ∧
      (check_type_compatibility type_names (checker_with [] [(2, .I32)]) (some .USIZE)
        annotated_ref (at_line 7)).1.stderr =
        (checker_with [] [(2, .I32)]).stderr ++ [⟨at_line 7, msg⟩] :=
  ⟨by decide,
    (check_type_compatibility_emits type_names (checker_with [] [(2, .I32)]) (some .USIZE)
      annotated_ref (at_line 7)).2 (by decide)⟩

set_option maxRecDepth 100000 in
/-- C2, counterexample to the claim as stated: with a struct type whose name has
300 characters, a rejected comparison appends a diagnostic that is not the full
text `"Type mismatch: expected '<T>', got '<V>'"`: the message buffer holds 254
bytes of it. -/
theorem check_type_compatibility_truncates :
    (check_type_compatibility long_struct_names (checker_with [] [(2, .STRUCT)]) (some .BOOL)
      annotated_ref (at_line 7)).2 = false ∧
    (check_type_compatibility long_struct_names (checker_with [] [(2, .STRUCT)]) (some .BOOL)
      annotated_ref (at_line 7)).1.stderr ≠
      [⟨at_line 7, "Type mismatch: expected '" ++ long_struct_names .BOOL ++ "', got '" ++
        long_struct_names .STRUCT ++ "'"⟩] ∧
    ((check_type_compatibility long_struct_names (checker_with [] [(2, .STRUCT)]) (some .BOOL)
      annotated_ref (at_line 7)).1.stderr.map fun d => d.msg.length) = [254] := by
  decide

/-! ## Declarations -/

/-- The result of `check_type_compatibility` when both types are present. -/
theorem check_type_compatibility_eq (type_to_string : Ty → String) (tc : TypeChecker)
    (T V : Ty) (value_expr : ASTNode) (t : Token) (a : Nat) (ha : value_expr.addr = some a)
    (hv : tc.type_info a = some V) :
    check_type_compatibility type_to_string tc (some T) value_expr t =
      if type_eq T V || is_void_pointer T || is_void_pointer V ||
          (is_integer_type (some T) && is_integer_type (some V) &&
            (is_signed_integer (some T) == is_signed_integer (some V) ||
              is_safe_integer_literal value_expr)) then (tc, true)
      else (tc_error tc t (snprintf 255 (rejection_text type_to_string T V)), false) := by
  unfold check_type_compatibility rejection_text
  simp only [ha, hv, ← is_integer_type_iff]
  cases type_eq T V <;> cases is_void_pointer T <;> cases is_void_pointer V <;>
    cases is_integer_type (some T) <;> cases is_integer_type (some V) <;>
    cases is_signed_integer (some T) <;> cases is_signed_integer (some V) <;>
    cases is_safe_integer_literal value_expr <;> simp

theorem unsigned_signed_pair {T V : Ty} (hT : T ∈ unsigned_kinds) (hV : V ∈ signed_kinds) :
    type_eq T V = false ∧ is_void_pointer T = false ∧ is_void_pointer V = false ∧
      is_integer_type (some T) = true ∧ is_integer_type (some V) = true ∧
      is_signed_integer (some T) = false ∧ is_signed_integer (some V) = true := by
  simp only [unsigned_kinds, signed_kinds, List.mem_cons, List.mem_singleton,
    List.not_mem_nil, or_false] at hT hV
  rcases hT with rfl | rfl | rfl | rfl | rfl | rfl | rfl <;>
    rcases hV with rfl | rfl | rfl | rfl | rfl | rfl | rfl <;> decide

theorem is_null_of_addr {node : ASTNode} {a : Nat} (h : node.addr = some a) :
    node.is_null = false := by
  cases node <;> simp [ASTNode.addr, ASTNode.is_null] at h ⊢

/-- The compatibility step of a declaration with an unsigned declared type and
a signed initializer. -/
theorem var_decl_compat_unsigned_signed (type_to_string : Ty → String) (tc : TypeChecker)
    (addr : Nat) (token : Token) (init : ASTNode) (ia : Nat) (T V : Ty)
    (hia : init.addr = some ia) (hT : tc.type_info addr = some T) (hTu : T ∈ unsigned_kinds)
    (hV : tc.type_info ia = some V) (hVs : V ∈ signed_kinds) :
    var_decl_compat type_to_string tc addr token init =
      if is_safe_integer_literal init then tc
      else tc_error tc token (snprintf 255 (sign_mismatch_text type_to_string T V)) := by
  obtain ⟨h1, h2, h3, h4, h5, h6, h7⟩ := unsigned_signed_pair hTu hVs
  have hr : rejection_text type_to_string T V = sign_mismatch_text type_to_string T V := by
    simp [rejection_text, (is_integer_type_iff T).mp h4, (is_integer_type_iff V).mp h5]
  unfold var_decl_compat
  rw [is_null_of_addr hia]
  simp only [Bool.false_eq_true, if_false, hT]
  rw [check_type_compatibility_eq type_to_string tc T V init token ia hia hV, h1, h2, h3, h4,
    h5, h6, h7, hr]
  cases is_safe_integer_literal init <;> simp

/-- The compatibility step of a declaration when one of the two types is a
pointer to void. -/
theorem var_decl_compat_void_pointer (type_to_string : Ty → String) (tc : TypeChecker)
    (addr : Nat) (token : Token) (init : ASTNode) (ia : Nat) (T V : Ty)
    (hia : init.addr = some ia) (hT : tc.type_info addr = some T)
    (hV : tc.type_info ia = some V) (h : T = .POINTER .VOID ∨ V = .POINTER .VOID) :
    var_decl_compat type_to_string tc addr token init = tc := by
  unfold var_decl_compat
  rw [is_null_of_addr hia]
  simp only [Bool.false_eq_true, if_false, hT]
  rw [check_type_compatibility_eq type_to_string tc T V init token ia hia hV]
  have hv : is_void_pointer T = true ∨ is_void_pointer V = true := by
    rw [is_void_pointer_iff, is_void_pointer_iff]; exact h
  rcases hv with hv | hv <;> simp [hv]

theorem var_decl_publish_exists (tc : TypeChecker) (addr : Nat) (token : Token) (name : String)
    (init_expr : ASTNode) (h : tc.current_scope ≠ []) :
    ∃ tc1, var_decl_publish tc addr token name init_expr = some tc1 := by
  have := var_decl_publish_isSome tc addr token name init_expr
  rw [decide_eq_true (List.length_pos.mpr h)] at this
  exact Option.isSome_iff_exists.mp this

theorem progress_scope_ne {tc tc1 : TypeChecker} (p : Progress tc tc1)
    (h : tc.current_scope ≠ []) : tc1.current_scope ≠ [] := by
  intro he
  have := progress_depth p
  rw [he] at this
  exact h (List.length_eq_zero.mp this.symm)

theorem records_refl (tc : TypeChecker) : records tc tc [] := by
  simp [records]

theorem var_decl_publish_records {tc tc1 : TypeChecker} {addr : Nat} {token : Token}
    {name : String} {init_expr : ASTNode}
    (h : var_decl_publish tc addr token name init_expr = some tc1) :
    tc1.stderr = tc.stderr ∧ tc1.error_count = tc.error_count := by
  simp only [var_decl_publish, Option.map_eq_some'] at h
  obtain ⟨tc2, h2, rfl⟩ := h
  unfold tc_add_symbol at h2
  split at h2
  · exact absurd h2 (by simp)
  · simp only [Option.some.injEq] at h2
    subst h2
    exact ⟨rfl, rfl⟩

/-- Checking a leaf expression records nothing and leaves the scopes alone. -/
theorem check_node_leaf (type_to_string : Ty → String) (tc : TypeChecker) (init : ASTNode)
    (h : leaf_expr init = true) :
    ∃ tc1, check_node type_to_string tc init = some tc1 ∧ tc1.stderr = tc.stderr ∧
      tc1.error_count = tc.error_count ∧ tc1.current_scope = tc.current_scope := by
  cases init with
  | NODE_EXPR_LITERAL addr token string_val type_kind next =>
    cases next <;> simp [leaf_expr] at h
    exact ⟨tc, rfl, rfl, rfl, rfl⟩
  | NODE_EXPR_UNARY addr token operand next =>
    cases next <;> simp [leaf_expr] at h
    exact ⟨tc, rfl, rfl, rfl, rfl⟩
  | NODE_EXPR_VAR addr token name next =>
    cases next <;> simp [leaf_expr] at h
    refine ⟨check_expr_var tc addr name, rfl, ?_⟩
    unfold check_expr_var
    split
    · exact ⟨rfl, rfl, rfl⟩
    · split <;> exact ⟨rfl, rfl, rfl⟩
  | _ => simp [leaf_expr] at h

/-- C4: a declaration whose declared type is an unsigned integer kind and whose
initializer has a signed integer type.  The initializer is checked first; the
declaration then records no diagnostic when the initializer is a plain literal
(`let u: usize = 0;`) and exactly one sign-mismatch diagnostic, at the
declaration's token, when it is any other node, such as a negation or a
variable reference.  Checking a leaf initializer records nothing itself. -/
theorem check_var_decl_safe_literal (type_to_string : Ty → String) (tc tc1 : TypeChecker)
    (addr : Nat) (token : Token) (name : String) (init : ASTNode) (ia : Nat) (T V : Ty)
    (hscope : tc.current_scope ≠ [])
    (hinit : check_node type_to_string tc init = some tc1)
    (hia : init.addr = some ia)
    (hT : tc1.type_info addr = some T) (hTu : T ∈ unsigned_kinds)
    (hV : tc1.type_info ia = some V) (hVs : V ∈ signed_kinds) :
    ∃ tc2, check_var_decl type_to_string tc addr token name init = some tc2 ∧
      (plain_literal init → records tc1 tc2 []) ∧
      (¬ plain_literal init →
        records tc1 tc2 [⟨token, snprintf 255 (sign_mismatch_text type_to_string T V)⟩]) ∧
      (leaf_expr init = true → records tc tc1 []) := by
  have hc := var_decl_compat_unsigned_signed type_to_string tc1 addr token init ia T V hia hT hTu
    hV hVs
  have p1 := check_node_aux_progress _ _ _ _ _ hinit
  have p2 := var_decl_compat_progress type_to_string tc1 addr token init
  obtain ⟨tc2, h2⟩ := var_decl_publish_exists
    (var_decl_compat type_to_string tc1 addr token init) addr token name init
    (progress_scope_ne (p1.trans p2) hscope)
  obtain ⟨hs, hn⟩ := var_decl_publish_records h2
  refine ⟨tc2, ?_, ?_, ?_, ?_⟩
  · simp only [check_var_decl, hinit, Option.some_bind, h2]
  · intro hl
    rw [(is_safe_integer_literal_iff init).mpr hl] at hc
    simp only [if_true] at hc
    rw [hc] at hs hn
    exact ⟨by simp [hs], by simp [hn]⟩
  · intro hl
    have hf : is_safe_integer_literal init = false := by
      cases hb : is_safe_integer_literal init with
      | false => rfl
      | true => exact absurd ((is_safe_integer_literal_iff init).mp hb) hl
    rw [hf] at hc
    simp only [Bool.false_eq_true, if_false] at hc
    rw [hc] at hs hn
    exact ⟨by simp [hs, tc_error], by rw [hn]; rfl⟩
  · intro hl
    obtain ⟨x, hx, h3, h4, _⟩ := check_node_leaf type_to_string tc init hl
    rw [hinit] at hx
    simp only [Option.some.injEq] at hx
    subst hx
    exact ⟨by simp [h3], by simp [h4]⟩

/-- C6: void-pointer symmetry at a declaration.  Whatever the type `T`, a
declaration of type pointer-to-void initialized from an expression of type `T`
and a declaration of type `T` initialized from an expression of type
pointer-to-void record no diagnostic (beyond what checking the initializer
itself records, which is nothing for a leaf initializer). -/
theorem check_var_decl_void_pointer (type_to_string : Ty → String) (tc tc1 : TypeChecker)
    (addr : Nat) (token : Token) (name : String) (init : ASTNode) (ia : Nat) (T : Ty)
    (hscope : tc.current_scope ≠ [])
    (hinit : check_node type_to_string tc init = some tc1)
    (hia : init.addr = some ia)
    (h : (tc1.type_info addr = some (.POINTER .VOID) ∧ tc1.type_info ia = some T) ∨
      (tc1.type_info addr = some T ∧ tc1.type_info ia = some (.POINTER .VOID))) :
    ∃ tc2, check_var_decl type_to_string tc addr token name init = some tc2 ∧
      records tc1 tc2 [] ∧ (leaf_expr init = true → records tc tc2 []) := by
  have hc : var_decl_compat type_to_string tc1 addr token init = tc1 := by
    rcases h with ⟨h1, h2⟩ | ⟨h1, h2⟩
    · exact var_decl_compat_void_pointer type_to_string tc1 addr token init ia _ _ hia h1 h2
        (Or.inl rfl)
    · exact var_decl_compat_void_pointer type_to_string tc1 addr token init ia _ _ hia h1 h2
        (Or.inr rfl)
  have p1 := check_node_aux_progress _ _ _ _ _ hinit
  obtain ⟨tc2, h2⟩ := var_decl_publish_exists tc1 addr token name init
    (progress_scope_ne p1 hscope)
  obtain ⟨hs, hn⟩ := var_decl_publish_records h2
  refine ⟨tc2, ?_, ⟨by simp [hs], by simp [hn]⟩, ?_⟩
  · simp only [check_var_decl, hinit, Option.some_bind, hc, h2]
  · intro hl
    obtain ⟨x, hx, h3, h4, _⟩ := check_node_leaf type_to_string tc init hl
    rw [hinit] at hx
    simp only [Option.some.injEq] at hx
    subst hx
    exact ⟨by simp [hs, h3], by simp [hn, h4]⟩

theorem records_trans {a b c : TypeChecker} {x y : List Diagnostic} (h1 : records a b x)
    (h2 : records b c y) : records a c (x ++ y) := by
  obtain ⟨s1, n1⟩ := h1
  obtain ⟨s2, n2⟩ := h2
  exact ⟨by rw [s2, s1, List.append_assoc], by rw [n2, n1, List.length_append, count_after_add]⟩

/-- C4, witness: `let u: usize = 0;` records nothing, `let u: usize = -1;` and
`let u: usize = some_i32_var;` each record the sign mismatch from `'i32'` to
`'usize'`. -/
theorem check_var_decl_safe_literal_witness :
    (∃ tc2, check_var_decl type_names decl_state 1 (at_line 1) "u" zero_literal = some tc2 ∧
      records decl_state tc2 []) ∧
    (∃ tc2, check_var_decl type_names decl_state 1 (at_line 1) "u" minus_one = some tc2 ∧
      records decl_state tc2 [⟨at_line 1,
        "Sign mismatch: cannot implicitly convert 'i32' to 'usize' (use cast or unsigned literal)"⟩]) ∧
    (∃ tc2, check_var_decl type_names decl_state 1 (at_line 1) "u" some_i32_var = some tc2 ∧
      records decl_state tc2 [⟨at_line 1,
        "Sign mismatch: cannot implicitly convert 'i32' to 'usize' (use cast or unsigned literal)"⟩]) := by
  refine ⟨?_, ?_, ?_⟩
  · obtain ⟨tc2, h, hl, _, _⟩ := check_var_decl_safe_literal type_names decl_state decl_state 1
      (at_line 1) "u" zero_literal 2 .USIZE .I32 (by decide) rfl rfl rfl (by decide) rfl
      (by decide)
    exact ⟨tc2, h, hl ⟨2, at_line 1, 0, .NULL, rfl, by decide⟩⟩
  · obtain ⟨tc2, h, _, hn, _⟩ := check_var_decl_safe_literal type_names decl_state decl_state 1
      (at_line 1) "u" minus_one 2 .USIZE .I32 (by decide) rfl rfl rfl (by decide) rfl
      (by decide)
    refine ⟨tc2, h, hn ?_⟩
    rintro ⟨_, _, _, _, h0, _⟩
    simp [minus_one] at h0
  · obtain ⟨tc2, h, _, hn, hleaf⟩ := check_var_decl_safe_literal type_names decl_state
      (check_expr_var decl_state 4 "some_i32_var") 1
      (at_line 1) "u" some_i32_var 4 .USIZE .I32 (by decide) rfl rfl rfl (by decide) rfl
      (by decide)
    refine ⟨tc2, h, records_trans (hleaf rfl) (hn ?_)⟩
    rintro ⟨_, _, _, _, h0, _⟩
    simp [some_i32_var] at h0

/-- C6, witness: `let p: *void = q_i32_ptr;` and `let p: *i32 = q_void_ptr;` both
record nothing. -/
theorem check_var_decl_void_pointer_witness :
    (∃ tc2, check_var_decl type_names decl_state 5 (at_line 2) "p" q_i32_ptr = some tc2 ∧
      records decl_state tc2 []) ∧
    (∃ tc2, check_var_decl type_names decl_state 7 (at_line 3) "p" q_void_ptr = some tc2 ∧
      records decl_state tc2 []) := by
  refine ⟨?_, ?_⟩
  · obtain ⟨tc2, h, _, hleaf⟩ := check_var_decl_void_pointer type_names decl_state
      (check_expr_var decl_state 6 "q_i32_ptr") 5 (at_line 2) "p" q_i32_ptr 6 (.POINTER .I32)
      (by decide) rfl rfl (Or.inl ⟨rfl, rfl⟩)
    exact ⟨tc2, h, hleaf rfl⟩
  · obtain ⟨tc2, h, _, hleaf⟩ := check_var_decl_void_pointer type_names decl_state
      (check_expr_var decl_state 8 "q_void_ptr") 7 (at_line 3) "p" q_void_ptr 8 (.POINTER .I32)
      (by decide) rfl rfl (Or.inr ⟨rfl, rfl⟩)
    exact ⟨tc2, h, hleaf rfl⟩

/-- C5, the code at the failing input: in `fn f(a: u32) -> i32 { return a; }` the
one offending return records one sign mismatch, but in
`fn f(a: u32) -> i32 { let b: u32 = a; return b; }`, where it is the second
statement of the body, the one offending return records two. -/
theorem return_checked_twice :
    ((check_node type_names (checker_with [] [(1, .I32)]) return_first).map fun tc =>
      (tc.error_count, tc.stderr)) =
      some (1, [⟨at_line 2,
        "Sign mismatch: cannot implicitly convert 'u32' to 'i32' (use cast or unsigned literal)"⟩]) ∧
    ((check_node type_names (checker_with [] [(1, .I32), (3, .U32)]) return_second).map fun tc =>
      (tc.error_count, tc.stderr)) =
      some (2, [⟨at_line 3,
        "Sign mismatch: cannot implicitly convert 'u32' to 'i32' (use cast or unsigned literal)"⟩,
        ⟨at_line 3,
        "Sign mismatch: cannot implicitly convert 'u32' to 'i32' (use cast or unsigned literal)"⟩]) := by
  decide

/-! ## The symbol table -/

theorem lookup_scopes_eq_find (name : String) (scopes : List Scope) :
    lookup_scopes name scopes =
      (all_symbols scopes).find? fun s => decide (s.name = name) := by
  have inner : ∀ l : List Symbol,
      lookup_symbols name l = l.find? fun s => decide (s.name = name) := by
    intro l
    induction l with
    | nil => rfl
    | cons s l ih =>
      simp only [lookup_symbols, List.find?_cons]
      by_cases h : s.name = name
      · simp [h]
      · simp [h, ih]
  induction scopes with
  | nil => rfl
  | cons s parent ih =>
    simp only [lookup_scopes, all_symbols, List.find?_append, inner]
    cases h : s.symbols.find? fun s => decide (s.name = name) with
    | none => simp [ih]
    | some sym => simp

theorem mem_all_symbols (scopes : List Scope) (s : Symbol) :
    s ∈ all_symbols scopes ↔ ∃ scope ∈ scopes, s ∈ scope.symbols := by
  induction scopes with
  | nil => simp [all_symbols]
  | cons sc parent ih => simp [all_symbols, ih]

/-- C7: `tc_lookup` returns the first symbol of the given name met when the scope
stack is walked innermost scope first and each scope most recent symbol first;
it returns null exactly when no scope on the stack holds a symbol of that name.
Right after `tc_add_symbol(name, t, tok)` on a non-empty stack, looking `name`
up yields the new symbol, of type `t`, and looking any other name up yields
what it yielded before. -/
theorem tc_lookup_first_match (tc : TypeChecker) (name : String) :
    tc_lookup tc name = (all_symbols tc.current_scope).find? (fun s => decide (s.name = name)) ∧
    (tc_lookup tc name = none ↔
      ∀ scope ∈ tc.current_scope, ∀ s ∈ scope.symbols, s.name ≠ name) ∧
    (∀ (t : Option Ty) (tok : Token), tc.current_scope ≠ [] →
      ∃ tc1, tc_add_symbol tc name t tok = some tc1 ∧
        tc_lookup tc1 name = some ⟨name, t, tok⟩ ∧
        ∀ other, other ≠ name → tc_lookup tc1 other = tc_lookup tc other) := by
  refine ⟨lookup_scopes_eq_find name tc.current_scope, ?_, ?_⟩
  · unfold tc_lookup
    rw [lookup_scopes_eq_find, List.find?_eq_none]
    simp only [decide_eq_true_eq, mem_all_symbols]
    constructor
    · intro h scope hs s hm
      exact h s ⟨scope, hs, hm⟩
    · rintro h s ⟨scope, hs, hm⟩
      exact h scope hs s hm
  · intro t tok hne
    cases hc : tc.current_scope with
    | nil => exact absurd hc hne
    | cons sc parent =>
      refine ⟨{ tc with current_scope := ⟨⟨name, t, tok⟩ :: sc.symbols⟩ :: parent },
        by simp only [tc_add_symbol, hc], ?_, ?_⟩
      · simp [tc_lookup, lookup_scopes, lookup_symbols]
      · intro other ho
        have : ¬ name = other := fun h => ho h.symm
        simp [tc_lookup, lookup_scopes, lookup_symbols, hc, this]

/-- C7, witness: in the state of the examples, declaring a second `q_i32_ptr`, of
type `u8`, makes the lookup of `q_i32_ptr` yield the new symbol and leaves the
lookup of `some_i32_var` as it was. -/
theorem tc_lookup_first_match_witness :
    ∃ tc1, tc_add_symbol decl_state "q_i32_ptr" (some .U8) (at_line 9) = some tc1 ∧
      tc_lookup tc1 "q_i32_ptr" = some ⟨"q_i32_ptr", some .U8, at_line 9⟩ ∧
      tc_lookup tc1 "some_i32_var" = some ⟨"some_i32_var", some .I32, at_line 0⟩ := by
  obtain ⟨tc1, h1, h2, h3⟩ := (tc_lookup_first_match decl_state "q_i32_ptr").2.2 (some .U8)
    (at_line 9) (by decide)
  exact ⟨tc1, h1, h2, by rw [h3 "some_i32_var" (by decide)]; decide⟩

/-! ## Scopes -/

theorem var_decl_compat_cases (type_to_string : Ty → String) (tc : TypeChecker) (addr : Nat)
    (token : Token) (init_expr : ASTNode) :
    var_decl_compat type_to_string tc addr token init_expr = tc ∨
      ∃ msg, var_decl_compat type_to_string tc addr token init_expr = tc_error tc token msg := by
  unfold var_decl_compat
  split_ifs
  · exact Or.inl rfl
  · split
    · exact Or.inl rfl
    · rename_i decl_type _
      rcases check_type_compatibility_cases type_to_string tc (some decl_type) init_expr token
        with h | ⟨msg, h⟩
      · rw [h]; exact Or.inl rfl
      · rw [h]; exact Or.inr ⟨msg, rfl⟩

theorem check_block_restores {type_to_string : Ty → String} {tc tc1 : TypeChecker}
    {statements : ASTNode} (h : check_block type_to_string tc statements = some tc1) :
    tc1.current_scope = tc.current_scope := by
  simp only [check_block, check_block_loop, Option.map_eq_some'] at h
  obtain ⟨t1, h1, rfl⟩ := h
  exact (Progress.bracket (check_node_aux_progress _ _ _ _ _ h1)).2

/-- Scope balance of the checks that return: whenever `check_node` returns,
whatever errors were recorded, the scope stack has the depth, the current scope
and the parent chain it was entered with (the current scope may hold more
symbols), and as many scopes were entered as exited; `check_node` returns unless it meets a null dereference or an
out-of-bounds read; and a pass that returns ends with `current_scope` null. -/
theorem scope_balance (type_to_string : Ty → String) (node : ASTNode) :
    (∀ tc tc1, check_node type_to_string tc node = some tc1 →
      scope_grows tc.current_scope tc1.current_scope ∧
      tc1.current_scope.length = tc.current_scope.length ∧
      tc1.current_scope.tail = tc.current_scope.tail ∧
      ∃ k, tc1.scope_enters = tc.scope_enters + k ∧ tc1.scope_exits = tc.scope_exits + k) ∧
    (∀ tc, (check_node type_to_string tc node).isSome =
      fault_free tc.current_scope.length node) ∧
    (∀ ctx types o, check_program type_to_string ctx types node = some o →
      o.tc.current_scope = [] ∧ o.tc.scope_enters = o.tc.scope_exits) := by
  refine ⟨?_, fun tc => check_node_aux_isSome _ _ _ _, ?_⟩
  · intro tc tc1 h
    have p := check_node_aux_progress _ _ _ _ _ h
    refine ⟨p.scope, scope_grows_length p.scope, scope_grows_tail p.scope,
      tc1.scope_enters - tc.scope_enters, ?_, ?_⟩
    · have := p.enters; omega
    · have := p.enters; have := p.ops; omega
  · intro ctx types o h
    simp only [check_program, Option.map_eq_some'] at h
    obtain ⟨tc, htc, ho⟩ := h
    have p := check_node_aux_progress _ _ _ _ _ htc
    have hs : tc.current_scope = [] := by
      have := p.scope
      simpa [initial_checker, scope_grows] using this
    have hn : tc.scope_enters = tc.scope_exits := by
      have := p.ops
      simp only [initial_checker] at this
      omega
    split_ifs at ho <;> subst ho <;> exact ⟨hs, hn⟩

/-- Scope balance, an example: the pass over `fn main(some_i32: i32) -> void {
let x: usize = some_i32; }` records an error, enters two scopes, exits two, and ends with no
scope on the stack. -/
theorem scope_balance_witness :
    ∃ o, check_program type_names ⟨0⟩ (memory [(3, .USIZE)]) usize_from_i32 = some o ∧
      o.tc.current_scope = [] ∧ o.tc.scope_enters = o.tc.scope_exits ∧
      o.tc.scope_enters = 2 ∧ o.tc.error_count = 1 := by
  have hs : (check_program type_names ⟨0⟩ (memory [(3, .USIZE)]) usize_from_i32).isSome = true :=
    by decide
  obtain ⟨o, ho⟩ := Option.isSome_iff_exists.mp hs
  have hc : ((check_program type_names ⟨0⟩ (memory [(3, .USIZE)]) usize_from_i32).map
      fun o => (o.tc.scope_enters, o.tc.error_count)) = some (2, 1) := by decide
  rw [ho] at hc
  simp only [Option.map_some', Option.some.injEq, Prod.mk.injEq] at hc
  obtain ⟨h1, h2⟩ := (scope_balance type_names usize_from_i32).2.2 ⟨0⟩ (memory [(3, .USIZE)]) o ho
  exact ⟨o, ho, h1, h2, hc.1, hc.2⟩

/-- C10, the code at the failing input: `check_program` starts the walk with no
scope on the stack, so for every program whose root has a declaration as its
first child publishing the symbol dereferences the null `current_scope`: the
call does not return.  `let x: i32 = 0;` is such a program; checked with one
scope pushed first, it is checked to the end. -/
theorem global_decl_faults :
    (∀ (type_to_string : Ty → String) (ctx : ParserContext) (types : Nat → Option Ty)
      (a a1 : Nat) (t t1 : Token) (name : String) (init next rest : ASTNode),
      (initial_checker ctx types).current_scope = [] ∧
      (check_program type_to_string ctx types
        (.NODE_ROOT a t (.NODE_VAR_DECL a1 t1 name init next) rest)).isSome = false) ∧
    (check_program type_names ⟨0⟩ (memory [(1, .I32), (2, .I32)]) global_decl).isSome = false ∧
    (tc_add_symbol (initial_checker ⟨0⟩ (memory [(1, .I32), (2, .I32)])) "x" (some .I32)
      (at_line 1)).isSome = false ∧
    (check_node type_names (tc_enter_scope (initial_checker ⟨0⟩ (memory [(1, .I32), (2, .I32)])))
      global_decl).isSome = true := by
  refine ⟨?_, by decide, by decide, by decide⟩
  intro type_to_string ctx types a a1 t t1 name init next rest
  refine ⟨rfl, ?_⟩
  simp only [check_program, Option.isSome_map', check_node]
  rw [check_node_aux_isSome]
  simp [fault_free, initial_checker]

/-! ## The entry point -/

/-- The counter and the diagnostics at the end of a walk started by
`check_program`: `error_count` is the number of diagnostics recorded, reduced
to the range of an `int`. -/
theorem pass_error_count {type_to_string : Ty → String} {ctx : ParserContext}
    {types : Nat → Option Ty} {root : ASTNode} {tc : TypeChecker}
    (h : check_node type_to_string (initial_checker ctx types) root = some tc) :
    tc.error_count = count_after tc.stderr.length 0 ∧
      (tc.stderr.length < 2147483648 → tc.error_count = tc.stderr.length) := by
  obtain ⟨emitted, hs, hn⟩ := (check_node_aux_progress _ _ _ _ _ h).errors
  have hs1 : tc.stderr = emitted := by simpa [initial_checker] using hs
  have hc : tc.error_count = count_after tc.stderr.length 0 := by rw [hn, hs1]; rfl
  refine ⟨hc, fun hl => ?_⟩
  rw [hc, count_after_exact _ _ (by decide) (by unfold INT_MAX; omega)]
  simp

/-- What `check_program` returns for the final state of the walk. -/
theorem check_program_eq {type_to_string : Ty → String} {ctx : ParserContext}
    {types : Nat → Option Ty} {root : ASTNode} {tc : TypeChecker}
    (h : check_node type_to_string (initial_checker ctx types) root = some tc) :
    ∃ o, check_program type_to_string ctx types root = some o ∧ o.tc = tc ∧
      (o.status = 1 ↔ 0 < tc.error_count) ∧ (o.status = 0 ↔ tc.error_count ≤ 0) ∧
      (o.status = 0 ∨ o.status = 1) := by
  by_cases hz : tc.error_count > 0
  · refine ⟨Outcome.mk 1 ["[TypeCheck] Starting semantic analysis...\n",
        "[TypeCheck] Found " ++ toString tc.error_count ++ " errors.\n"] tc,
      by simp only [check_program, h, Option.map_some', if_pos hz], rfl, ?_, ?_, Or.inr rfl⟩
    · simp only [true_iff]; exact hz
    · simp only [one_ne_zero, false_iff, not_le]; exact hz
  · refine ⟨Outcome.mk 0 ["[TypeCheck] Starting semantic analysis...\n",
        "[TypeCheck] Passed.\n"] tc,
      by simp only [check_program, h, Option.map_some', if_neg hz], rfl, ?_, ?_, Or.inl rfl⟩
    · simp only [zero_ne_one, false_iff]; exact hz
    · simp only [true_iff]; exact not_lt.mp hz

/-- C3 (as amended): for every root AST whose walk meets no fault (no
declaration published with an empty scope stack, no null operand or callee
dereferenced, no parameter array read past its end), `check_program` returns.
It returns 1 when the final `int` `error_count` is positive and 0 otherwise,
never another value; `error_count` is the number of diagnostics recorded reduced
to the range of an `int`, so as long as fewer than `2^31` diagnostics were
recorded it returns 0 exactly when none was recorded and 1 otherwise.
`check_program` returns exactly for the roots without a fault, and recorded
errors never stop the walk: whether a check returns does not depend on the
errors recorded. -/
theorem check_program_status (type_to_string : Ty → String) (ctx : ParserContext)
    (types : Nat → Option Ty) (root : ASTNode) (hroot : fault_free 0 root = true) :
    (∃ o, check_program type_to_string ctx types root = some o ∧
      check_node type_to_string (initial_checker ctx types) root = some o.tc ∧
      o.tc.error_count = count_after o.tc.stderr.length 0 ∧
      (o.status = 1 ↔ 0 < o.tc.error_count) ∧
      (o.status = 0 ↔ o.tc.error_count ≤ 0) ∧
      (o.status = 0 ∨ o.status = 1) ∧
      (o.tc.stderr.length < 2147483648 →
        o.tc.error_count = o.tc.stderr.length ∧
        (o.status = 0 ↔ o.tc.stderr = []) ∧ (o.status = 1 ↔ o.tc.stderr ≠ []))) ∧
    (∀ root1 : ASTNode,
      (check_program type_to_string ctx types root1).isSome = fault_free 0 root1) ∧
    (∀ (tc : TypeChecker) (node : ASTNode) (n : Int) (log : List Diagnostic),
      (check_node type_to_string { tc with error_count := n, stderr := log } node).isSome =
        (check_node type_to_string tc node).isSome) := by
  refine ⟨?_, ?_, ?_⟩
  · have hsome : (check_node type_to_string (initial_checker ctx types) root).isSome = true := by
      simp only [check_node]
      rw [check_node_aux_isSome]
      exact hroot
    obtain ⟨tc, htc⟩ := Option.isSome_iff_exists.mp hsome
    obtain ⟨o, ho, hotc, h1, h0, h01⟩ := check_program_eq htc
    obtain ⟨hc, hsmall⟩ := pass_error_count htc
    subst hotc
    refine ⟨o, ho, htc, hc, h1, h0, h01, fun hl => ?_⟩
    have he := hsmall hl
    refine ⟨he, ?_, ?_⟩
    · rw [h0, he, ← List.length_eq_zero]
      omega
    · rw [h1, he, Ne, ← List.length_eq_zero]
      omega
  · intro root1
    simp only [check_program, Option.isSome_map', check_node]
    exact check_node_aux_isSome _ _ _ _
  · intro tc node n log
    simp only [check_node]
    rw [check_node_aux_isSome, check_node_aux_isSome]

/-- C3, witness: the tree of `fn main(some_i32: i32) -> void { let x: usize =
some_i32; }` meets no fault; the pass over it returns, with one error recorded
and status 1. -/
theorem check_program_status_witness :
    fault_free 0 usize_from_i32 = true ∧
    ∃ o, check_program type_names ⟨0⟩ (memory [(3, .USIZE)]) usize_from_i32 = some o ∧
      o.tc.stderr.length = 1 ∧ o.tc.error_count = 1 ∧ o.status = 1 := by
  refine ⟨by decide, ?_⟩
  obtain ⟨o, ho, _, _, _, _, _, hsmall⟩ :=
    (check_program_status type_names ⟨0⟩ (memory [(3, .USIZE)]) usize_from_i32 (by decide)).1
  have hc : ((check_program type_names ⟨0⟩ (memory [(3, .USIZE)]) usize_from_i32).map
      fun o => o.tc.stderr.length) = some 1 := by decide
  rw [ho] at hc
  simp only [Option.map_some', Option.some.injEq] at hc
  obtain ⟨he, _, h1⟩ := hsmall (by rw [hc]; decide)
  refine ⟨o, ho, hc, by rw [he, hc]; rfl, h1.mpr ?_⟩
  intro hn
  rw [hn] at hc
  exact absurd hc (by decide)

/-! ## What a check writes -/

theorem check_type_compatibility_type_info (type_to_string : Ty → String) (tc : TypeChecker)
    (target : Option Ty) (value_expr : ASTNode) (t : Token) :
    (check_type_compatibility type_to_string tc target value_expr t).1.type_info =
        tc.type_info ∧
      (check_type_compatibility type_to_string tc target value_expr t).1.current_scope =
        tc.current_scope := by
  rcases check_type_compatibility_cases type_to_string tc target value_expr t with h | ⟨msg, h⟩ <;>
    rw [h] <;> exact ⟨rfl, rfl⟩

theorem var_decl_compat_type_info (type_to_string : Ty → String) (tc : TypeChecker) (addr : Nat)
    (token : Token) (init_expr : ASTNode) :
    (var_decl_compat type_to_string tc addr token init_expr).type_info = tc.type_info ∧
      (var_decl_compat type_to_string tc addr token init_expr).current_scope =
        tc.current_scope := by
  rcases var_decl_compat_cases type_to_string tc addr token init_expr with h | ⟨msg, h⟩ <;>
    rw [h] <;> exact ⟨rfl, rfl⟩

theorem return_compat_type_info (type_to_string : Ty → String) (tc : TypeChecker)
    (token : Token) (value : ASTNode) :
    (return_compat type_to_string tc token value).type_info = tc.type_info := by
  unfold return_compat
  split_ifs
  · rfl
  · split
    · rfl
    · split
      · rfl
      · exact (check_type_compatibility_type_info _ _ _ _ _).1

theorem tc_exit_scope_type_info (tc : TypeChecker) :
    (tc_exit_scope tc).type_info = tc.type_info := by
  unfold tc_exit_scope
  split <;> rfl

theorem tc_add_symbol_type_info {tc tc1 : TypeChecker} {name : String} {type : Option Ty}
    {t : Token} (h : tc_add_symbol tc name type t = some tc1) :
    tc1.type_info = tc.type_info := by
  unfold tc_add_symbol at h
  split at h
  · exact absurd h (by simp)
  · simp only [Option.some.injEq] at h
    subst h
    rfl

theorem function_param_type_info {param_names : Option (List (Option String))}
    {arg_types : Option (List (Option Ty))} {tc tc1 : TypeChecker} {i : Nat}
    (h : function_param param_names arg_types tc i = some tc1) :
    tc1.type_info = tc.type_info := by
  unfold function_param at h
  split at h
  · simp only [Option.some.injEq] at h; subst h; rfl
  · split at h
    · exact absurd h (by simp)
    · simp only [Option.some.injEq] at h; subst h; rfl
    · split at h
      · exact tc_add_symbol_type_info h
      · split at h
        · exact absurd h (by simp)
        · exact tc_add_symbol_type_info h

theorem function_params_type_info {param_names : Option (List (Option String))}
    {arg_types : Option (List (Option Ty))} {arg_count : Nat} {tc tc1 : TypeChecker}
    (h : function_params param_names arg_types arg_count tc = some tc1) :
    tc1.type_info = tc.type_info := by
  unfold function_params at h
  generalize List.range arg_count = l at h
  induction l generalizing tc with
  | nil =>
    simp only [List.foldlM_nil, Option.pure_def, Option.some.injEq] at h
    subst h
    rfl
  | cons i l ih =>
    simp only [List.foldlM_cons, Option.bind_eq_bind, Option.bind_eq_some] at h
    obtain ⟨tc2, h2, h3⟩ := h
    rw [ih h3, function_param_type_info h2]

theorem var_decl_publish_type_info {tc tc1 : TypeChecker} {addr : Nat} {token : Token}
    {name : String} {init_expr : ASTNode}
    (h : var_decl_publish tc addr token name init_expr = some tc1) (a : Nat) (ha : a ≠ addr) :
    tc1.type_info a = tc.type_info a := by
  simp only [var_decl_publish, Option.map_eq_some'] at h
  obtain ⟨tc2, h2, rfl⟩ := h
  simp only [TypeChecker.set_type_info, if_neg ha, tc_add_symbol_type_info h2]

theorem check_expr_var_type_info (tc : TypeChecker) (addr : Nat) (name : String) (a : Nat)
    (ha : a ≠ addr) : (check_expr_var tc addr name).type_info a = tc.type_info a := by
  unfold check_expr_var
  split
  · rfl
  · split
    · rfl
    · simp only [TypeChecker.set_type_info, if_neg ha]

theorem binary_infer_type_info {type_to_string : Ty → String} {tc tc1 : TypeChecker}
    {addr : Nat} {token : Token} {left right : ASTNode}
    (h : binary_infer type_to_string tc addr token left right = some tc1) (a : Nat)
    (ha : a ≠ addr) : tc1.type_info a = tc.type_info a := by
  unfold binary_infer at h
  split at h
  · exact absurd h (by simp)
  · simp only [Option.some.injEq] at h; subst h; rfl
  · simp only at h
    split at h
    · exact absurd h (by simp)
    · simp only [Option.some.injEq] at h
      subst h
      rw [(check_type_compatibility_type_info _ _ _ _ _).1]
      simp only [TypeChecker.set_type_info, if_neg ha]

theorem call_propagate_type_info {tc tc1 : TypeChecker} {addr : Nat} {callee : ASTNode}
    (h : call_propagate tc addr callee = some tc1) (a : Nat) (ha : a ≠ addr) :
    tc1.type_info a = tc.type_info a := by
  unfold call_propagate at h
  split at h
  · exact absurd h (by simp)
  · simp only [Option.some.injEq] at h; subst h; rfl
  · simp only [Option.some.injEq] at h
    subst h
    simp only [TypeChecker.set_type_info, if_neg ha]

theorem frame_tail {type_to_string : Ty → String} {next : ASTNode} {a : Nat}
    (ihn : ∀ (loop : Bool) (tc tc1 : TypeChecker),
      check_node_aux type_to_string loop tc next = some tc1 →
        a ∉ written_slots next → tc1.type_info a = tc.type_info a)
    (ha : a ∉ written_slots next) {loop : Bool} {t2 tc1 : TypeChecker}
    (h : (if loop then check_node_aux type_to_string true t2 next else some t2) = some tc1) :
    tc1.type_info a = t2.type_info a := by
  cases loop with
  | false => simp only [Bool.false_eq_true, if_false, Option.some.injEq] at h; subst h; rfl
  | true => exact ihn _ _ _ h ha

/-- A check assigns no `type_info` slot other than those of the declarations,
references, binary nodes and calls it reaches. -/
theorem check_node_aux_frame (type_to_string : Ty → String) (a : Nat) (node : ASTNode) :
    ∀ (loop : Bool) (tc tc1 : TypeChecker),
      check_node_aux type_to_string loop tc node = some tc1 →
        a ∉ written_slots node → tc1.type_info a = tc.type_info a := by
  induction node with
  | NULL =>
    intro loop tc tc1 h _
    simp only [check_node_aux, Option.some.injEq] at h
    subst h
    rfl
  | NODE_ROOT addr token children next ihc ihn =>
    intro loop tc tc1 h ha
    rw [check_node_aux_loop] at h
    simp only [check_node_aux, Option.bind_eq_bind, Option.bind_eq_some, Bool.false_eq_true,
      if_false, Option.pure_def, Option.some.injEq, ASTNode.next] at h
    obtain ⟨t3, ⟨t1, h1, t2, h2, rfl⟩, h3⟩ := h
    simp only [written_slots, List.mem_cons, List.mem_append, not_or] at ha
    rw [frame_tail ihn ha.2 h3, ihn _ _ _ h2 ha.2, ihc _ _ _ h1 ha.1]
  | NODE_BLOCK addr token statements next ihs ihn =>
    intro loop tc tc1 h ha
    rw [check_node_aux_loop] at h
    simp only [check_node_aux, Option.bind_eq_bind, Option.bind_eq_some, Bool.false_eq_true,
      if_false, Option.pure_def, Option.some.injEq, ASTNode.next] at h
    obtain ⟨t3, ⟨t1, h1, t2, h2, rfl⟩, h3⟩ := h
    simp only [written_slots, List.mem_cons, List.mem_append, not_or] at ha
    rw [frame_tail ihn ha.2 h3, ihn _ _ _ h2 ha.2, tc_exit_scope_type_info,
      ihs _ _ _ h1 ha.1]
    rfl
  | NODE_VAR_DECL addr token name init_expr next ihi ihn =>
    intro loop tc tc1 h ha
    rw [check_node_aux_loop] at h
    simp only [check_node_aux, Option.bind_eq_bind, Option.bind_eq_some, Bool.false_eq_true,
      if_false, Option.pure_def, Option.some.injEq, ASTNode.next] at h
    obtain ⟨t4, ⟨t1, h1, t2, h2, t3, h3, rfl⟩, h4⟩ := h
    simp only [written_slots, List.mem_cons, List.mem_append, not_or] at ha
    rw [frame_tail ihn ha.2.2 h4, ihn _ _ _ h3 ha.2.2, var_decl_publish_type_info h2 a ha.1,
      (var_decl_compat_type_info _ _ _ _ _).1, ihi _ _ _ h1 ha.2.1]
  | NODE_FUNCTION addr token param_names arg_types arg_count body next ihb ihn =>
    intro loop tc tc1 h ha
    rw [check_node_aux_loop] at h
    simp only [check_node_aux, Option.bind_eq_bind, Option.bind_eq_some, Bool.false_eq_true,
      if_false, Option.pure_def, Option.some.injEq, ASTNode.next] at h
    obtain ⟨t4, ⟨t1, h1, t2, h2, t3, h3, rfl⟩, h4⟩ := h
    simp only [written_slots, List.mem_cons, List.mem_append, not_or] at ha
    rw [frame_tail ihn ha.2 h4, ihn _ _ _ h3 ha.2]
    simp only
    rw [tc_exit_scope_type_info, ihb _ _ _ h2 ha.1, function_params_type_info h1]
    rfl
  | NODE_EXPR_VAR addr token name next ihn =>
    intro loop tc tc1 h ha
    rw [check_node_aux_loop] at h
    simp only [check_node_aux, Option.bind_eq_bind, Option.bind_eq_some, Bool.false_eq_true,
      if_false, Option.pure_def, Option.some.injEq, ASTNode.next] at h
    obtain ⟨t2, ⟨t1, h1, rfl⟩, h2⟩ := h
    simp only [written_slots, List.mem_cons, List.mem_append, not_or] at ha
    rw [frame_tail ihn ha.2 h2, ihn _ _ _ h1 ha.2, check_expr_var_type_info _ _ _ _ ha.1]
  | NODE_RETURN addr token value next ihv ihn =>
    intro loop tc tc1 h ha
    rw [check_node_aux_loop] at h
    simp only [check_node_aux, Option.bind_eq_bind, Option.bind_eq_some, Bool.false_eq_true,
      if_false, Option.pure_def, Option.some.injEq, ASTNode.next] at h
    obtain ⟨t3, ⟨t1, h1, t2, h2, rfl⟩, h3⟩ := h
    simp only [written_slots, List.mem_cons, List.mem_append, not_or] at ha
    rw [frame_tail ihn ha.2 h3, ihn _ _ _ h2 ha.2, return_compat_type_info,
      ihv _ _ _ h1 ha.1]
  | NODE_IF addr token condition then_body else_body next ihc iht ihe ihn =>
    intro loop tc tc1 h ha
    rw [check_node_aux_loop] at h
    simp only [check_node_aux, Option.bind_eq_bind, Option.bind_eq_some, Bool.false_eq_true,
      if_false, Option.pure_def, Option.some.injEq, ASTNode.next] at h
    obtain ⟨t5, ⟨t1, h1, t2, h2, t3, h3, t4, h4, rfl⟩, h5⟩ := h
    simp only [written_slots, List.mem_cons, List.mem_append, not_or] at ha
    rw [frame_tail ihn ha.2.2.2 h5, ihn _ _ _ h4 ha.2.2.2, ihe _ _ _ h3 ha.2.2.1,
      iht _ _ _ h2 ha.2.1, ihc _ _ _ h1 ha.1]
  | NODE_WHILE addr token condition body next ihc ihb ihn =>
    intro loop tc tc1 h ha
    rw [check_node_aux_loop] at h
    simp only [check_node_aux, Option.bind_eq_bind, Option.bind_eq_some, Bool.false_eq_true,
      if_false, Option.pure_def, Option.some.injEq, ASTNode.next] at h
    obtain ⟨t4, ⟨t1, h1, t2, h2, t3, h3, rfl⟩, h4⟩ := h
    simp only [written_slots, List.mem_cons, List.mem_append, not_or] at ha
    rw [frame_tail ihn ha.2.2 h4, ihn _ _ _ h3 ha.2.2, ihb _ _ _ h2 ha.2.1,
      ihc _ _ _ h1 ha.1]
  | NODE_FOR addr token init condition step body next ihi ihc ihs ihb ihn =>
    intro loop tc tc1 h ha
    rw [check_node_aux_loop] at h
    simp only [check_node_aux, Option.bind_eq_bind, Option.bind_eq_some, Bool.false_eq_true,
      if_false, Option.pure_def, Option.some.injEq, ASTNode.next] at h
    obtain ⟨t6, ⟨t1, h1, t2, h2, t3, h3, t4, h4, t5, h5, rfl⟩, h6⟩ := h
    simp only [written_slots, List.mem_cons, List.mem_append, not_or] at ha
    rw [frame_tail ihn ha.2.2.2.2 h6, ihn _ _ _ h5 ha.2.2.2.2, tc_exit_scope_type_info,
      ihb _ _ _ h4 ha.2.2.2.1, ihs _ _ _ h3 ha.2.2.1, ihc _ _ _ h2 ha.2.1,
      ihi _ _ _ h1 ha.1]
    rfl
  | NODE_EXPR_BINARY addr token left right next ihl ihr ihn =>
    intro loop tc tc1 h ha
    rw [check_node_aux_loop] at h
    simp only [check_node_aux, Option.bind_eq_bind, Option.bind_eq_some, Bool.false_eq_true,
      if_false, Option.pure_def, Option.some.injEq, ASTNode.next] at h
    obtain ⟨t5, ⟨t1, h1, t2, h2, t3, h3, t4, h4, rfl⟩, h5⟩ := h
    simp only [written_slots, List.mem_cons, List.mem_append, not_or] at ha
    rw [frame_tail ihn ha.2.2.2 h5, ihn _ _ _ h4 ha.2.2.2, binary_infer_type_info h3 a ha.1,
      ihr _ _ _ h2 ha.2.2.1, ihl _ _ _ h1 ha.2.1]
  | NODE_EXPR_CALL addr token callee args next ihc iha ihn =>
    intro loop tc tc1 h ha
    rw [check_node_aux_loop] at h
    simp only [check_node_aux, Option.bind_eq_bind, Option.bind_eq_some, Bool.false_eq_true,
      if_false, Option.pure_def, Option.some.injEq, ASTNode.next] at h
    obtain ⟨t5, ⟨t1, h1, t2, h2, t3, h3, t4, h4, rfl⟩, h5⟩ := h
    simp only [written_slots, List.mem_cons, List.mem_append, not_or] at ha
    rw [frame_tail ihn ha.2.2.2 h5, ihn _ _ _ h4 ha.2.2.2, call_propagate_type_info h3 a ha.1,
      iha _ _ _ h2 ha.2.2.1, ihc _ _ _ h1 ha.2.1]
  | NODE_EXPR_LITERAL addr token string_val type_kind next ihn =>
    intro loop tc tc1 h ha
    rw [check_node_aux_loop] at h
    simp only [check_node_aux, Option.bind_eq_bind, Option.bind_eq_some, Bool.false_eq_true,
      if_false, Option.pure_def, Option.some.injEq, ASTNode.next] at h
    obtain ⟨t2, ⟨t1, h1, rfl⟩, h2⟩ := h
    simp only [written_slots] at ha
    rw [frame_tail ihn ha h2, ihn _ _ _ h1 ha]
  | NODE_EXPR_UNARY addr token operand next _ ihn =>
    intro loop tc tc1 h ha
    rw [check_node_aux_loop] at h
    simp only [check_node_aux, Option.bind_eq_bind, Option.bind_eq_some, Bool.false_eq_true,
      if_false, Option.pure_def, Option.some.injEq, ASTNode.next] at h
    obtain ⟨t2, ⟨t1, h1, rfl⟩, h2⟩ := h
    simp only [written_slots] at ha
    rw [frame_tail ihn ha h2, ihn _ _ _ h1 ha]

/-! ## References -/

theorem check_expr_var_unresolved (tc : TypeChecker) (addr : Nat) (name : String)
    (h : tc_lookup tc name = none ∨
      ∃ sym, tc_lookup tc name = some sym ∧ sym.type_info = none) :
    check_expr_var tc addr name = tc := by
  unfold check_expr_var
  rcases h with h | ⟨sym, h, hn⟩
  · simp [h]
  · simp [h, hn]

theorem check_expr_var_resolved (tc : TypeChecker) (addr : Nat) (name : String) (sym : Symbol)
    (T : Ty) (h : tc_lookup tc name = some sym) (hT : sym.type_info = some T) :
    check_expr_var tc addr name = tc.set_type_info addr (some T) := by
  unfold check_expr_var
  simp [h, hT]

/-- C11: a reference whose name has no binding on the scope stack, or whose
binding has a null type, changes nothing: `check_node` on it records no
diagnostic, leaves `error_count` and the `type_info` slot of the node (and
everything else) as they were, and goes on to `node->next`.  A declaration
initialized from such a reference that carries no annotation records nothing,
and `fn main() -> void { { let x: i32 = 0; } let y: i32 = x; }` is accepted with
return code 0, no diagnostic, and the reference to `x` still unannotated. -/
theorem unknown_identifier_silent (type_to_string : Ty → String) (tc : TypeChecker)
    (addr : Nat) (token : Token) (name : String) (next : ASTNode)
    (h : tc_lookup tc name = none ∨
      ∃ sym, tc_lookup tc name = some sym ∧ sym.type_info = none) :
    check_expr_var tc addr name = tc ∧
    check_node type_to_string tc (.NODE_EXPR_VAR addr token name next) =
      check_node type_to_string tc next ∧
    check_node type_to_string tc (.NODE_EXPR_VAR addr token name .NULL) = some tc ∧
    (∀ (decl : Nat) (decl_token : Token) (decl_name : String),
      tc.current_scope ≠ [] → tc.type_info addr = none →
      ∃ tc2, check_var_decl type_to_string tc decl decl_token decl_name
          (.NODE_EXPR_VAR addr token name .NULL) = some tc2 ∧ records tc tc2 []) ∧
    (∀ ctx : ParserContext,
      (check_program type_to_string ctx out_of_scope_types out_of_scope_use).map
        (fun o => (o.status, o.tc.error_count, o.tc.stderr, o.tc.type_info 7)) =
        some (0, 0, [], none)) := by
  have h0 := check_expr_var_unresolved tc addr name h
  have h1 : check_node type_to_string tc (.NODE_EXPR_VAR addr token name .NULL) = some tc := by
    simp only [check_node, check_node_aux, h0, Option.bind_eq_bind, Option.some_bind,
      Bool.false_eq_true, if_false, Option.pure_def]
  refine ⟨h0, ?_, h1, ?_, fun ctx => rfl⟩
  · simp only [check_node, check_node_aux, h0, Option.bind_eq_bind, Bool.false_eq_true,
      if_false, Option.pure_def, Option.bind_some]
  · intro decl decl_token decl_name hs hn
    have hc : var_decl_compat type_to_string tc decl decl_token
        (.NODE_EXPR_VAR addr token name .NULL) = tc := by
      unfold var_decl_compat
      simp only [ASTNode.is_null, Bool.false_eq_true, if_false]
      split
      · rfl
      · simp [check_type_compatibility, ASTNode.addr, hn]
    obtain ⟨tc2, h2⟩ := var_decl_publish_exists tc decl decl_token decl_name
      (.NODE_EXPR_VAR addr token name .NULL) hs
    obtain ⟨hs2, hn2⟩ := var_decl_publish_records h2
    exact ⟨tc2, by simp only [check_var_decl, h1, Option.some_bind, hc, h2],
      by simp [hs2], by simp [hn2]⟩

/-- C11, witness: in the state of the examples `undeclared` has no binding, and
checking a reference to it returns the state it was given. -/
theorem unknown_identifier_silent_witness :
    tc_lookup decl_state "undeclared" = none ∧
    check_node type_names decl_state (.NODE_EXPR_VAR 9 (at_line 4) "undeclared" .NULL) =
      some decl_state :=
  ⟨by decide,
    (unknown_identifier_silent type_names decl_state 9 (at_line 4) "undeclared" .NULL
      (Or.inl (by decide))).2.2.1⟩

/-! ## Invariants of a pass -/

theorem check_node_null (type_to_string : Ty → String) (tc : TypeChecker) :
    check_node type_to_string tc .NULL = some tc := rfl

theorem check_function_progress {type_to_string : Ty → String} {tc tc1 : TypeChecker}
    {addr : Nat} {param_names : Option (List (Option String))}
    {arg_types : Option (List (Option Ty))} {arg_count : Nat} {body : ASTNode}
    (h : check_function type_to_string tc addr param_names arg_types arg_count body = some tc1) :
    Progress tc tc1 := by
  have e := check_node_function type_to_string tc addr Token.zero param_names arg_types
    arg_count body .NULL
  rw [h] at e
  exact check_node_aux_progress _ _ _ _ _ e

/-- What a completed check does to the counter. -/
theorem progress_error_count {tc tc1 : TypeChecker} (p : Progress tc tc1) :
    ∃ emitted : List Diagnostic, tc1.stderr = tc.stderr ++ emitted ∧
      tc1.error_count = count_after emitted.length tc.error_count ∧
      (0 < emitted.length →
        tc1.error_count = wrap_int (tc.error_count + (emitted.length : Nat))) ∧
      (INT_MIN ≤ tc.error_count → tc.error_count + (emitted.length : Nat) ≤ INT_MAX →
        tc1.error_count = tc.error_count + (emitted.length : Nat) ∧
        tc.error_count ≤ tc1.error_count) ∧
      (tc.error_count = count_after tc.stderr.length 0 →
        tc1.error_count = count_after tc1.stderr.length 0) := by
  obtain ⟨emitted, hs, hn⟩ := p.errors
  refine ⟨emitted, hs, hn, fun hpos => ?_, fun h0 h1 => ?_, fun hinv => ?_⟩
  · obtain ⟨k, hk⟩ := Nat.exists_eq_succ_of_ne_zero (Nat.pos_iff_ne_zero.mp hpos)
    rw [hn, hk, count_after_wrap]
  · rw [hn, count_after_exact _ _ h0 h1]
    exact ⟨rfl, by omega⟩
  · rw [hn, hinv, hs, List.length_append, count_after_add]

/-- C13 (as amended): error accounting with an `int` counter.  Whenever
`check_node` returns, the diagnostics it emitted were appended to those emitted
before and `error_count` was incremented once for each of them, so it is the
sum of its old value and their number reduced to the range of an `int`; while
that sum is at most `INT_MAX` it is the sum itself, and `error_count` has not
decreased.  If `error_count` was the number of diagnostics emitted so far
(reduced to the range of an `int`) before the check, it is so after it, and at
the end of a pass that emitted at most `INT_MAX` diagnostics it is their number.
`tc_error` is the one operation that writes the counter: entering and exiting a
scope, adding a symbol and resolving a reference (the one use of the lookup)
leave it alone, and `check_function` changes it only through the diagnostics of
its body. -/
theorem error_count_accounting (type_to_string : Ty → String) (node : ASTNode) :
    (∀ tc tc1, check_node type_to_string tc node = some tc1 →
      ∃ emitted : List Diagnostic, tc1.stderr = tc.stderr ++ emitted ∧
        tc1.error_count = count_after emitted.length tc.error_count ∧
        (0 < emitted.length →
          tc1.error_count = wrap_int (tc.error_count + (emitted.length : Nat))) ∧
        (INT_MIN ≤ tc.error_count → tc.error_count + (emitted.length : Nat) ≤ INT_MAX →
          tc1.error_count = tc.error_count + (emitted.length : Nat) ∧
          tc.error_count ≤ tc1.error_count) ∧
        (tc.error_count = count_after tc.stderr.length 0 →
          tc1.error_count = count_after tc1.stderr.length 0)) ∧
    (∀ ctx types o, check_program type_to_string ctx types node = some o →
      o.tc.error_count = count_after o.tc.stderr.length 0 ∧
      (o.tc.stderr.length < 2147483648 → o.tc.error_count = o.tc.stderr.length)) ∧
    (∀ (tc : TypeChecker) (t : Token) (msg : String),
      (tc_error tc t msg).error_count = wrap_int (tc.error_count + 1) ∧
      (INT_MIN ≤ tc.error_count → tc.error_count < INT_MAX →
        (tc_error tc t msg).error_count = tc.error_count + 1) ∧
      (tc_error tc t msg).stderr = tc.stderr ++ [⟨t, msg⟩]) ∧
    (∀ tc : TypeChecker, (tc_enter_scope tc).error_count = tc.error_count ∧
      (tc_exit_scope tc).error_count = tc.error_count ∧
      (tc_enter_scope tc).stderr = tc.stderr ∧ (tc_exit_scope tc).stderr = tc.stderr) ∧
    (∀ (tc tc1 : TypeChecker) (name : String) (type : Option Ty) (t : Token),
      tc_add_symbol tc name type t = some tc1 →
      tc1.error_count = tc.error_count ∧ tc1.stderr = tc.stderr) ∧
    (∀ (tc : TypeChecker) (addr : Nat) (name : String),
      (check_expr_var tc addr name).error_count = tc.error_count ∧
      (check_expr_var tc addr name).stderr = tc.stderr) ∧
    (∀ (tc tc1 : TypeChecker) (addr : Nat) (param_names : Option (List (Option String)))
      (arg_types : Option (List (Option Ty))) (arg_count : Nat) (body : ASTNode),
      check_function type_to_string tc addr param_names arg_types arg_count body = some tc1 →
      ∃ emitted : List Diagnostic, tc1.stderr = tc.stderr ++ emitted ∧
        tc1.error_count = count_after emitted.length tc.error_count ∧
        (INT_MIN ≤ tc.error_count → tc.error_count + (emitted.length : Nat) ≤ INT_MAX →
          tc.error_count ≤ tc1.error_count)) := by
  refine ⟨?_, ?_, ?_, ?_, ?_, ?_, ?_⟩
  · intro tc tc1 h
    exact progress_error_count (check_node_aux_progress _ _ _ _ _ h)
  · intro ctx types o h
    simp only [check_program, Option.map_eq_some'] at h
    obtain ⟨tc, htc, ho⟩ := h
    have hk := pass_error_count htc
    split_ifs at ho <;> subst ho <;> exact hk
  · intro tc t msg
    exact ⟨rfl, (tc_error_count tc t msg).2.1, rfl⟩
  · intro tc
    refine ⟨rfl, ?_, rfl, ?_⟩ <;> unfold tc_exit_scope <;> split <;> rfl
  · intro tc tc1 name type t h
    unfold tc_add_symbol at h
    split at h
    · exact absurd h (by simp)
    · simp only [Option.some.injEq] at h
      subst h
      exact ⟨rfl, rfl⟩
  · intro tc addr name
    unfold check_expr_var
    split
    · exact ⟨rfl, rfl⟩
    · split <;> exact ⟨rfl, rfl⟩
  · intro tc tc1 addr param_names arg_types arg_count body h
    obtain ⟨emitted, hs, hn, _, hex, _⟩ := progress_error_count (check_function_progress h)
    exact ⟨emitted, hs, hn, fun h0 h1 => (hex h0 h1).2⟩

/-- C13, witness: the pass over `fn main(some_i32: i32) -> void { let x: usize =
some_i32; }` ends with one diagnostic emitted and `error_count` 1. -/
theorem error_count_accounting_witness :
    ∃ o, check_program type_names ⟨0⟩ (memory [(3, .USIZE)]) usize_from_i32 = some o ∧
      o.tc.stderr.length = 1 ∧ o.tc.error_count = 1 := by
  have hs : (check_program type_names ⟨0⟩ (memory [(3, .USIZE)]) usize_from_i32).isSome = true :=
    by decide
  obtain ⟨o, ho⟩ := Option.isSome_iff_exists.mp hs
  have hc : ((check_program type_names ⟨0⟩ (memory [(3, .USIZE)]) usize_from_i32).map
      fun o => o.tc.stderr.length) = some 1 := by decide
  rw [ho] at hc
  simp only [Option.map_some', Option.some.injEq] at hc
  have he := ((error_count_accounting type_names usize_from_i32).2.1 ⟨0⟩ (memory [(3, .USIZE)])
    o ho).2 (by rw [hc]; decide)
  exact ⟨o, ho, hc, by rw [he, hc]; rfl⟩

/-! ## The order of the diagnostics -/

/-- What `check_type_compatibility` emits: nothing or one diagnostic at the token
it was given. -/
theorem check_type_compatibility_own (type_to_string : Ty → String) (tc : TypeChecker)
    (target : Option Ty) (value_expr : ASTNode) (t : Token) :
    ∃ own : List Diagnostic,
      (check_type_compatibility type_to_string tc target value_expr t).1.stderr =
        tc.stderr ++ own ∧ own.length ≤ 1 ∧ ∀ d ∈ own, d.tok = t := by
  rcases check_type_compatibility_cases type_to_string tc target value_expr t with h | ⟨msg, h⟩
  · exact ⟨[], by rw [h]; simp, by simp, by simp⟩
  · exact ⟨[⟨t, msg⟩], by rw [h]; rfl, by simp, by simp⟩

theorem no_own (tc : TypeChecker) (t : Token) :
    ∃ own : List Diagnostic, tc.stderr = tc.stderr ++ own ∧ own.length ≤ 1 ∧
      ∀ d ∈ own, d.tok = t :=
  ⟨[], by simp, by simp, by simp⟩

theorem var_decl_compat_own (type_to_string : Ty → String) (tc : TypeChecker) (addr : Nat)
    (token : Token) (init_expr : ASTNode) :
    ∃ own : List Diagnostic,
      (var_decl_compat type_to_string tc addr token init_expr).stderr = tc.stderr ++ own ∧
        own.length ≤ 1 ∧ ∀ d ∈ own, d.tok = token := by
  unfold var_decl_compat
  split_ifs
  · exact no_own tc token
  · split
    · exact no_own tc token
    · exact check_type_compatibility_own _ _ _ _ _

theorem return_compat_own (type_to_string : Ty → String) (tc : TypeChecker) (token : Token)
    (value : ASTNode) :
    ∃ own : List Diagnostic,
      (return_compat type_to_string tc token value).stderr = tc.stderr ++ own ∧
        own.length ≤ 1 ∧ ∀ d ∈ own, d.tok = token := by
  unfold return_compat
  split_ifs
  · exact no_own tc token
  · split
    · exact no_own tc token
    · split
      · exact no_own tc token
      · exact check_type_compatibility_own _ _ _ _ _

theorem binary_infer_own {type_to_string : Ty → String} {tc tc1 : TypeChecker} {addr : Nat}
    {token : Token} {left right : ASTNode}
    (h : binary_infer type_to_string tc addr token left right = some tc1) :
    ∃ own : List Diagnostic, tc1.stderr = tc.stderr ++ own ∧ own.length ≤ 1 ∧
      ∀ d ∈ own, d.tok = token := by
  unfold binary_infer at h
  split at h
  · exact absurd h (by simp)
  · simp only [Option.some.injEq] at h; subst h; exact no_own tc token
  · simp only at h
    split at h
    · exact absurd h (by simp)
    · simp only [Option.some.injEq] at h
      subst h
      exact check_type_compatibility_own _ _ _ _ _

/-- `check_node` on a node is `check_node` on the node alone followed by
`check_node` on `node->next`. -/
theorem check_node_alone (type_to_string : Ty → String) (tc : TypeChecker) (node : ASTNode) :
    check_node type_to_string tc node =
      (check_node type_to_string tc node.alone).bind fun t =>
        check_node type_to_string t node.next := by
  cases node <;>
    simp [check_node, check_node_aux, ASTNode.alone, ASTNode.next, Option.bind_assoc, bind]

/-- C14 (as amended): diagnostics come out in the order of the walk.  Within one
call of `check_node`, everything emitted for a node and what is below it
precedes everything emitted for its next siblings; and the diagnostic located at
a declaration, a return or a binary node (there is at most one per visit, at the
node's token) is emitted after the diagnostics emitted while checking its
initializer, its value or its operands: child before parent. -/
theorem diagnostics_follow_walk (type_to_string : Ty → String) (tc : TypeChecker) :
    (∀ node : ASTNode, check_node type_to_string tc node =
      (check_node type_to_string tc node.alone).bind fun t =>
        check_node type_to_string t node.next) ∧
    (∀ (addr : Nat) (token : Token) (name : String) (init next : ASTNode) (tc3 : TypeChecker),
      check_node type_to_string tc (.NODE_VAR_DECL addr token name init next) = some tc3 →
      ∃ (tc1 tc2 : TypeChecker) (below own after : List Diagnostic),
        check_node type_to_string tc init = some tc1 ∧
        check_var_decl type_to_string tc addr token name init = some tc2 ∧
        check_node type_to_string tc2 next = some tc3 ∧
        tc1.stderr = tc.stderr ++ below ∧ tc2.stderr = tc1.stderr ++ own ∧
        tc3.stderr = tc2.stderr ++ after ∧ own.length ≤ 1 ∧ ∀ d ∈ own, d.tok = token) ∧
    (∀ (addr : Nat) (token : Token) (value next : ASTNode) (tc3 : TypeChecker),
      check_node type_to_string tc (.NODE_RETURN addr token value next) = some tc3 →
      ∃ (tc1 : TypeChecker) (below own after : List Diagnostic),
        check_node type_to_string tc value = some tc1 ∧
        check_node type_to_string (return_compat type_to_string tc1 token value) next =
          some tc3 ∧
        tc1.stderr = tc.stderr ++ below ∧
        (return_compat type_to_string tc1 token value).stderr = tc1.stderr ++ own ∧
        tc3.stderr = (return_compat type_to_string tc1 token value).stderr ++ after ∧
        own.length ≤ 1 ∧ ∀ d ∈ own, d.tok = token) ∧
    (∀ (addr : Nat) (token : Token) (left right next : ASTNode) (tc3 : TypeChecker),
      check_node type_to_string tc (.NODE_EXPR_BINARY addr token left right next) = some tc3 →
      ∃ (tc1 tc2 : TypeChecker) (below own after : List Diagnostic),
        (check_node type_to_string tc left).bind (fun t =>
          check_node type_to_string t right) = some tc1 ∧
        binary_infer type_to_string tc1 addr token left right = some tc2 ∧
        check_node type_to_string tc2 next = some tc3 ∧
        tc1.stderr = tc.stderr ++ below ∧ tc2.stderr = tc1.stderr ++ own ∧
        tc3.stderr = tc2.stderr ++ after ∧ own.length ≤ 1 ∧ ∀ d ∈ own, d.tok = token) := by
  have app : ∀ {a b : TypeChecker}, Progress a b →
      ∃ l : List Diagnostic, b.stderr = a.stderr ++ l := fun p => by
    obtain ⟨l, hl, _⟩ := p.errors
    exact ⟨l, hl⟩
  refine ⟨check_node_alone type_to_string tc, ?_, ?_, ?_⟩
  · intro addr token name init next tc3 h
    simp only [check_node, check_node_aux, Option.bind_eq_bind, Option.bind_eq_some,
      Bool.false_eq_true, if_false, Option.pure_def, Option.some.injEq] at h
    obtain ⟨t1, h1, t2, h2, t3, h3, rfl⟩ := h
    obtain ⟨below, hb⟩ := app (check_node_aux_progress _ _ _ _ _ h1)
    obtain ⟨after, ha⟩ := app (check_node_aux_progress _ _ _ _ _ h3)
    obtain ⟨own, ho, hl, ht⟩ := var_decl_compat_own type_to_string t1 addr token init
    refine ⟨t1, t2, below, own, after, h1, ?_, h3, hb, ?_, ha, hl, ht⟩
    · simp only [check_var_decl, check_node, h1, Option.some_bind, h2]
    · rw [(var_decl_publish_records h2).1, ho]
  · intro addr token value next tc3 h
    simp only [check_node, check_node_aux, Option.bind_eq_bind, Option.bind_eq_some,
      Bool.false_eq_true, if_false, Option.pure_def, Option.some.injEq] at h
    obtain ⟨t1, h1, t2, h2, rfl⟩ := h
    obtain ⟨below, hb⟩ := app (check_node_aux_progress _ _ _ _ _ h1)
    obtain ⟨after, ha⟩ := app (check_node_aux_progress _ _ _ _ _ h2)
    obtain ⟨own, ho, hl, ht⟩ := return_compat_own type_to_string t1 token value
    exact ⟨t1, below, own, after, h1, h2, hb, ho, ha, hl, ht⟩
  · intro addr token left right next tc3 h
    simp only [check_node, check_node_aux, Option.bind_eq_bind, Option.bind_eq_some,
      Bool.false_eq_true, if_false, Option.pure_def, Option.some.injEq] at h
    obtain ⟨t1, h1, t2, h2, t3, h3, t4, h4, rfl⟩ := h
    obtain ⟨below, hb⟩ := app ((check_node_aux_progress _ _ _ _ _ h1).trans
      (check_node_aux_progress _ _ _ _ _ h2))
    obtain ⟨after, ha⟩ := app (check_node_aux_progress _ _ _ _ _ h4)
    obtain ⟨own, ho, hl, ht⟩ := binary_infer_own h3
    refine ⟨t2, t3, below, own, after, ?_, h3, h4, hb, ho, ha, hl, ht⟩
    simp only [check_node, h1, Option.some_bind, h2]

set_option maxRecDepth 100000 in
/-- C14, counterexample to the claim as stated: in `fn main(a: i32, b: u32) ->
void { let u: usize = a == b; }` the diagnostic located at the comparison (line
2, column 20), a descendant of the declaration, is emitted before the
diagnostic located at the declaration (line 2, column 3). -/
theorem descendant_diagnostic_first :
    (check_program type_names ⟨0⟩ (memory [(3, .USIZE)]) decl_over_comparison).map
      (fun o => o.tc.stderr) =
      some [⟨⟨2, 20⟩,
          "Sign mismatch: cannot implicitly convert 'u32' to 'i32' (use cast or unsigned literal)"⟩,
        ⟨⟨2, 3⟩,
          "Sign mismatch: cannot implicitly convert 'i32' to 'usize' (use cast or unsigned literal)"⟩] := by
  decide

set_option maxRecDepth 100000 in
/-- C16, the code at the failing input: on the block `{ let a: u32 = x; let b:
u32 = x; }`, checked where `x: i32` is bound, `check_node` emits three
diagnostics, the one of the second declaration twice, while checking each
statement once emits two; the pass over `fn main(x: i32) -> void { let a: u32 =
x; let b: u32 = x; }` ends with `error_count` 3. -/
theorem block_checks_second_statement_twice :
    ((check_node type_names two_mismatches_state
        (.NODE_BLOCK 2 (at_line 1) two_mismatches .NULL)).map
      fun tc => (tc.error_count, tc.stderr.map fun d => d.tok)) =
      some (3, [at_line 2, at_line 3, at_line 3]) ∧
    ((check_block_once type_names two_mismatches_state two_mismatches).map
      fun tc => (tc.error_count, tc.stderr.map fun d => d.tok)) =
      some (2, [at_line 2, at_line 3]) ∧
    ((check_program type_names ⟨0⟩ (memory [(3, .U32), (5, .U32)]) two_mismatches_program).map
      fun o => (o.status, o.tc.error_count)) = some (1, 3) := by
  decide

set_option maxRecDepth 100000 in
/-- C14, witness: checking `let u: usize = a == b;` where `a: i32` and `b: u32`
are bound emits the diagnostic of the comparison, then the one of the
declaration. -/
theorem diagnostics_follow_walk_witness :
    ∃ tc3, check_node type_names operand_state comparison_decl = some tc3 ∧
      (tc3.stderr.map fun d => d.tok) = [⟨2, 20⟩, ⟨2, 3⟩] ∧
      ∃ (tc1 tc2 : TypeChecker) (below own after : List Diagnostic),
        check_node type_names operand_state
          (.NODE_EXPR_BINARY 4 ⟨2, 20⟩ (.NODE_EXPR_VAR 5 ⟨2, 18⟩ "a" .NULL)
            (.NODE_EXPR_VAR 6 ⟨2, 23⟩ "b" .NULL) .NULL) = some tc1 ∧
        check_var_decl type_names operand_state 3 ⟨2, 3⟩ "u"
          (.NODE_EXPR_BINARY 4 ⟨2, 20⟩ (.NODE_EXPR_VAR 5 ⟨2, 18⟩ "a" .NULL)
            (.NODE_EXPR_VAR 6 ⟨2, 23⟩ "b" .NULL) .NULL) = some tc2 ∧
        check_node type_names tc2 .NULL = some tc3 ∧
        tc1.stderr = operand_state.stderr ++ below ∧ tc2.stderr = tc1.stderr ++ own ∧
        tc3.stderr = tc2.stderr ++ after ∧ own.length ≤ 1 ∧ ∀ d ∈ own, d.tok = ⟨2, 3⟩ := by
  have hs : (check_node type_names operand_state comparison_decl).isSome = true := by decide
  obtain ⟨tc3, h3⟩ := Option.isSome_iff_exists.mp hs
  have hc : ((check_node type_names operand_state comparison_decl).map
      fun tc => tc.stderr.map fun d => d.tok) = some [⟨2, 20⟩, ⟨2, 3⟩] := by decide
  rw [h3] at hc
  simp only [Option.map_some', Option.some.injEq] at hc
  exact ⟨tc3, h3, hc,
    (diagnostics_follow_walk type_names operand_state).2.1 3 ⟨2, 3⟩ "u" _ .NULL tc3 h3⟩

set_option maxRecDepth 100000 in
/-- C15, the code at the failing input: the first pass over `fn main() -> void {
0; x; let x = y; let y: i32 = 0; }` leaves the statement `x;` (address 4)
unannotated and the declaration of `x` (address 5) annotated `i32`; a second
pass over the tree as the first left it annotates the statement `x;` with
`i32`. -/
theorem second_pass_changes_annotation :
    ((check_program type_names ⟨0⟩ forward_use_types forward_use).map
      fun o => (o.tc.type_info 4, o.tc.type_info 5)) = some (none, some .I32) ∧
    (((check_program type_names ⟨0⟩ forward_use_types forward_use).bind
      fun o => check_program type_names ⟨0⟩ o.tc.type_info forward_use).map
      fun o => (o.tc.type_info 4, o.tc.type_info 5)) = some (some .I32, some .I32) := by
  decide

/-! ## Declarations, binary nodes and calls -/

theorem type_of_null (tc : TypeChecker) : tc.type_of .NULL = none := rfl

/-- C17: the effective type of a declaration.  For a declaration checked with a
scope on the stack (and that is not a node of its own initializer), the
initializer is checked first; then the compatibility check is run exactly when
the declaration has a declared type and an initializer; and afterwards the
`type_info` of the declaration and the type of the symbol a lookup of its name
returns are both the declared type if there was one, else the `type_info` of the
initializer after its check, else null. -/
theorem var_decl_effective_type (type_to_string : Ty → String) (tc tc1 : TypeChecker)
    (addr : Nat) (token : Token) (name : String) (init : ASTNode)
    (hscope : tc.current_scope ≠ [])
    (hinit : check_node type_to_string tc init = some tc1)
    (htree : addr ∉ written_slots init) :
    ∃ tc2, check_var_decl type_to_string tc addr token name init = some tc2 ∧
      tc2.type_info addr = effective_type (tc.type_info addr) (tc1.type_of init) ∧
      tc_lookup tc2 name =
        some ⟨name, effective_type (tc.type_info addr) (tc1.type_of init), token⟩ ∧
      (tc.type_info addr = none ∨ init = .NULL → records tc1 tc2 []) ∧
      (∀ T, tc.type_info addr = some T → init ≠ .NULL →
        tc2.stderr =
          (check_type_compatibility type_to_string tc1 (some T) init token).1.stderr ∧
        tc2.error_count =
          (check_type_compatibility type_to_string tc1 (some T) init token).1.error_count) := by
  have hdecl : tc1.type_info addr = tc.type_info addr :=
    check_node_aux_frame type_to_string addr init _ _ _ hinit htree
  have p1 := check_node_aux_progress _ _ _ _ _ hinit
  obtain ⟨hct, hcs⟩ := var_decl_compat_type_info type_to_string tc1 addr token init
  have hne : (var_decl_compat type_to_string tc1 addr token init).current_scope ≠ [] := by
    rw [hcs]; exact progress_scope_ne p1 hscope
  have heff : (match (var_decl_compat type_to_string tc1 addr token init).type_info addr,
      init.addr with
      | none, some i => (var_decl_compat type_to_string tc1 addr token init).type_info i
      | t, _ => t) = effective_type (tc.type_info addr) (tc1.type_of init) := by
    rw [hct, hdecl]
    unfold effective_type TypeChecker.type_of
    cases tc.type_info addr <;> cases init.addr <;> rfl
  have hpub : ∃ s parent,
      (var_decl_compat type_to_string tc1 addr token init).current_scope = s :: parent := by
    cases hc : (var_decl_compat type_to_string tc1 addr token init).current_scope with
    | nil => exact absurd hc hne
    | cons s parent => exact ⟨s, parent, rfl⟩
  obtain ⟨s, parent, hsp⟩ := hpub
  have h2 : var_decl_publish (var_decl_compat type_to_string tc1 addr token init) addr token
      name init =
      some (({ var_decl_compat type_to_string tc1 addr token init with
        current_scope :=
          ⟨⟨name, effective_type (tc.type_info addr) (tc1.type_of init), token⟩ ::
            s.symbols⟩ :: parent } : TypeChecker).set_type_info addr
        (effective_type (tc.type_info addr) (tc1.type_of init))) := by
    simp only [var_decl_publish, heff, tc_add_symbol, hsp, Option.map_some']
  refine ⟨_, by simp only [check_var_decl, hinit, Option.some_bind, h2]; rfl, ?_, ?_, ?_, ?_⟩
  · simp [TypeChecker.set_type_info]
  · simp [tc_lookup, lookup_scopes, lookup_symbols, TypeChecker.set_type_info]
  · intro h
    have hc : var_decl_compat type_to_string tc1 addr token init = tc1 := by
      unfold var_decl_compat
      rcases h with h | h
      · rw [hdecl, h]; simp
      · rw [h]; rfl
    simp only [records, TypeChecker.set_type_info, hc, List.append_nil, List.length_nil,
      count_after_zero, and_self]
  · intro T hT hn
    have hnn : init.is_null = false := by
      cases init with
      | NULL => exact absurd rfl hn
      | _ => rfl
    have hc : var_decl_compat type_to_string tc1 addr token init =
        (check_type_compatibility type_to_string tc1 (some T) init token).1 := by
      unfold var_decl_compat
      rw [hnn, hdecl, hT]
      rfl
    simp only [TypeChecker.set_type_info, hc, and_self]

/-- C17, witness: `let u: usize = some_i32_var;` leaves the declaration and the
symbol `u` with the declared type `usize`; `let v = some_i32_var;`, with no
declared type, leaves them with the type of the initializer, `i32`. -/
theorem var_decl_effective_type_witness :
    (∃ tc2, check_var_decl type_names decl_state 1 (at_line 1) "u" some_i32_var = some tc2 ∧
      tc2.type_info 1 = some .USIZE ∧
      tc_lookup tc2 "u" = some ⟨"u", some .USIZE, at_line 1⟩) ∧
    (∃ tc2, check_var_decl type_names decl_state 9 (at_line 1) "v" some_i32_var = some tc2 ∧
      tc2.type_info 9 = some .I32 ∧
      tc_lookup tc2 "v" = some ⟨"v", some .I32, at_line 1⟩) := by
  refine ⟨?_, ?_⟩
  · obtain ⟨tc2, h, h1, h2, _⟩ := var_decl_effective_type type_names decl_state
      (check_expr_var decl_state 4 "some_i32_var") 1 (at_line 1) "u" some_i32_var
      (by decide) rfl (by decide)
    exact ⟨tc2, h, h1, h2⟩
  · obtain ⟨tc2, h, h1, h2, _⟩ := var_decl_effective_type type_names decl_state
      (check_expr_var decl_state 4 "some_i32_var") 9 (at_line 1) "v" some_i32_var
      (by decide) rfl (by decide)
    exact ⟨tc2, h, h1, h2⟩

theorem check_node_binary (type_to_string : Ty → String) (tc : TypeChecker) (addr : Nat)
    (token : Token) (left right next : ASTNode) :
    check_node type_to_string tc (.NODE_EXPR_BINARY addr token left right next) =
      (check_node type_to_string tc left).bind fun t1 =>
        (check_node type_to_string t1 right).bind fun t2 =>
          (binary_infer type_to_string t2 addr token left right).bind fun t3 =>
            check_node type_to_string t3 next := by
  simp only [check_node, check_node_aux, Option.bind_eq_bind, Bool.false_eq_true, if_false,
    Option.pure_def, Option.bind_some]

theorem check_node_call (type_to_string : Ty → String) (tc : TypeChecker) (addr : Nat)
    (token : Token) (callee args next : ASTNode) :
    check_node type_to_string tc (.NODE_EXPR_CALL addr token callee args next) =
      (check_node type_to_string tc callee).bind fun t1 =>
        (check_node type_to_string t1 args).bind fun t2 =>
          (call_propagate t2 addr callee).bind fun t3 =>
            check_node type_to_string t3 next := by
  simp only [check_node, check_node_aux, Option.bind_eq_bind, Bool.false_eq_true, if_false,
    Option.pure_def, Option.bind_some]

theorem check_node_expr_var (type_to_string : Ty → String) (tc : TypeChecker) (addr : Nat)
    (token : Token) (name : String) (next : ASTNode) :
    check_node type_to_string tc (.NODE_EXPR_VAR addr token name next) =
      check_node type_to_string (check_expr_var tc addr name) next := by
  simp only [check_node, check_node_aux, Option.bind_eq_bind, Bool.false_eq_true, if_false,
    Option.pure_def, Option.bind_some]

theorem check_node_literal (type_to_string : Ty → String) (tc : TypeChecker) (addr : Nat)
    (token : Token) (string_val : Option String) (type_kind : Int) (next : ASTNode) :
    check_node type_to_string tc (.NODE_EXPR_LITERAL addr token string_val type_kind next) =
      check_node type_to_string tc next := by
  simp only [check_node, check_node_aux, Option.bind_eq_bind, Bool.false_eq_true, if_false,
    Option.pure_def, Option.bind_some]

/-- C18: a binary node is typed and checked left-wins.  After both operands are
checked, if the `type_info` of the left operand is a type `T`, the node's
`type_info` becomes `T` and `check_type_compatibility(T, right)` is run: nothing
is recorded when it accepts, one diagnostic at the node's token when it
rejects; if the left `type_info` is null the state is left as it is.  Hence
`len > 0` with `len: usize` records nothing, and `a == b` with `a: i32`, `b: u32`
records exactly one sign mismatch. -/
theorem binary_left_wins (type_to_string : Ty → String) (tc tc1 tc2 : TypeChecker)
    (addr : Nat) (token : Token) (left right : ASTNode) (la : Nat)
    (hl : check_node type_to_string tc left = some tc1)
    (hr : check_node type_to_string tc1 right = some tc2)
    (hla : left.addr = some la) :
    (∀ T, tc2.type_info la = some T →
      ∃ tc3 accepted,
        check_type_compatibility type_to_string (tc2.set_type_info addr (some T)) (some T)
          right token = (tc3, accepted) ∧
        check_node type_to_string tc (.NODE_EXPR_BINARY addr token left right .NULL) =
          some tc3 ∧
        tc3.type_info addr = some T ∧
        (accepted = true → records tc2 tc3 []) ∧
        (accepted = false → ∃ msg, records tc2 tc3 [⟨token, msg⟩])) ∧
    (tc2.type_info la = none →
      check_node type_to_string tc (.NODE_EXPR_BINARY addr token left right .NULL) =
        some tc2) ∧
    ((check_node type_to_string operand_state len_gt_zero).map
      fun tc => (tc.error_count, tc.stderr, tc.type_info 10)) = some (0, [], some .USIZE) ∧
    ((check_node type_to_string operand_state a_eq_b).map
      fun tc => (tc.error_count, tc.stderr, tc.type_info 20)) =
      some (1, [⟨at_line 2, snprintf 255 (sign_mismatch_text type_to_string .I32 .U32)⟩],
        some .I32) := by
  refine ⟨?_, ?_, rfl, rfl⟩
  · intro T hT
    have hd : (tc2.set_type_info addr (some T)).type_info la = some T := by
      simp only [TypeChecker.set_type_info]
      split_ifs
      · rfl
      · rw [hT]
    have hb : binary_infer type_to_string tc2 addr token left right =
        some (check_type_compatibility type_to_string (tc2.set_type_info addr (some T))
          (some T) right token).1 := by
      unfold binary_infer
      simp only [TypeChecker.deref_type_info, hla, hT, hd]
    refine ⟨(check_type_compatibility type_to_string (tc2.set_type_info addr (some T))
        (some T) right token).1,
      (check_type_compatibility type_to_string (tc2.set_type_info addr (some T))
        (some T) right token).2, rfl, ?_, ?_, ?_, ?_⟩
    · rw [check_node_binary, hl, Option.some_bind, hr, Option.some_bind, hb, Option.some_bind]
      rfl
    · rw [(check_type_compatibility_type_info _ _ _ _ _).1]
      simp [TypeChecker.set_type_info]
    · intro ha
      rcases check_type_compatibility_cases type_to_string (tc2.set_type_info addr (some T))
        (some T) right token with h | ⟨msg, h⟩
      · rw [h]; exact ⟨by simp [TypeChecker.set_type_info], by simp [TypeChecker.set_type_info]⟩
      · rw [h] at ha; simp at ha
    · intro ha
      rcases check_type_compatibility_cases type_to_string (tc2.set_type_info addr (some T))
        (some T) right token with h | ⟨msg, h⟩
      · rw [h] at ha; simp at ha
      · rw [h]; exact ⟨msg, rfl, rfl⟩
  · intro hn
    have hb : binary_infer type_to_string tc2 addr token left right = some tc2 := by
      unfold binary_infer
      simp only [TypeChecker.deref_type_info, hla, hn]
    rw [check_node_binary, hl, Option.some_bind, hr, Option.some_bind, hb, Option.some_bind]
    rfl

/-- C18, witness: checking `a == b` where `a: i32` and `b: u32` are bound types
the node `i32` and records the sign mismatch from `'u32'` to `'i32'`. -/
theorem binary_left_wins_witness :
    ∃ tc3 accepted,
      check_type_compatibility type_names
        ((check_expr_var (check_expr_var operand_state 21 "a") 22 "b").set_type_info 20
          (some .I32)) (some .I32) (.NODE_EXPR_VAR 22 (at_line 2) "b" .NULL) (at_line 2) =
        (tc3, accepted) ∧
      check_node type_names operand_state a_eq_b = some tc3 ∧
      tc3.type_info 20 = some .I32 ∧
      (accepted = true → records (check_expr_var (check_expr_var operand_state 21 "a") 22 "b")
        tc3 []) ∧
      (accepted = false → ∃ msg,
        records (check_expr_var (check_expr_var operand_state 21 "a") 22 "b") tc3
          [⟨at_line 2, msg⟩]) :=
  (binary_left_wins type_names operand_state (check_expr_var operand_state 21 "a")
    (check_expr_var (check_expr_var operand_state 21 "a") 22 "b") 20 (at_line 2)
    (.NODE_EXPR_VAR 21 (at_line 2) "a" .NULL) (.NODE_EXPR_VAR 22 (at_line 2) "b" .NULL) 21
    rfl rfl rfl).1 .I32 rfl

theorem signed_unsigned_pair {T V : Ty} (hT : T ∈ signed_kinds) (hV : V ∈ unsigned_kinds) :
    type_eq T V = false ∧ is_void_pointer T = false ∧ is_void_pointer V = false ∧
      is_integer_type (some T) = true ∧ is_integer_type (some V) = true ∧
      is_signed_integer (some T) = true ∧ is_signed_integer (some V) = false := by
  simp only [unsigned_kinds, signed_kinds, List.mem_cons, List.mem_singleton,
    List.not_mem_nil, or_false] at hT hV
  rcases hT with rfl | rfl | rfl | rfl | rfl | rfl | rfl <;>
    rcases hV with rfl | rfl | rfl | rfl | rfl | rfl | rfl <;> decide

/-- The compatibility check of two integer kinds of different signedness. -/
theorem check_type_compatibility_sign (type_to_string : Ty → String) (tc : TypeChecker)
    (T V : Ty) (value_expr : ASTNode) (t : Token) (a : Nat) (ha : value_expr.addr = some a)
    (hv : tc.type_info a = some V)
    (h : (T ∈ unsigned_kinds ∧ V ∈ signed_kinds) ∨ (T ∈ signed_kinds ∧ V ∈ unsigned_kinds)) :
    check_type_compatibility type_to_string tc (some T) value_expr t =
      if is_safe_integer_literal value_expr then (tc, true)
      else (tc_error tc t (snprintf 255 (sign_mismatch_text type_to_string T V)), false) := by
  have hp : type_eq T V = false ∧ is_void_pointer T = false ∧ is_void_pointer V = false ∧
      is_integer_type (some T) = true ∧ is_integer_type (some V) = true ∧
      (is_signed_integer (some T) == is_signed_integer (some V)) = false := by
    rcases h with ⟨hT, hV⟩ | ⟨hT, hV⟩
    · obtain ⟨h1, h2, h3, h4, h5, h6, h7⟩ := unsigned_signed_pair hT hV
      exact ⟨h1, h2, h3, h4, h5, by rw [h6, h7]; rfl⟩
    · obtain ⟨h1, h2, h3, h4, h5, h6, h7⟩ := signed_unsigned_pair hT hV
      exact ⟨h1, h2, h3, h4, h5, by rw [h6, h7]; rfl⟩
  obtain ⟨h1, h2, h3, h4, h5, h6⟩ := hp
  have hr : rejection_text type_to_string T V = sign_mismatch_text type_to_string T V := by
    simp [rejection_text, (is_integer_type_iff T).mp h4, (is_integer_type_iff V).mp h5]
  rw [check_type_compatibility_eq type_to_string tc T V value_expr t a ha hv, h1, h2, h3, h4,
    h5, h6, hr]
  cases is_safe_integer_literal value_expr <;> simp

/-- C20: the binary check depends on the order of the operands.  For a reference
`v` to a variable of an unsigned integer type `U` and a plain literal `c` of a
signed integer type `S` (distinct nodes of one tree), checking the binary node
with `v` on the left and `c` on the right records nothing, and checking it with
`c` on the left and `v` on the right records exactly one sign mismatch, from `U`
to `S`, at the node's token. -/
theorem binary_operand_order (type_to_string : Ty → String) (tc : TypeChecker)
    (name : String) (sym : Symbol) (U S : Ty) (addr va ca : Nat) (token vt ct : Token)
    (type_kind : Int)
    (hx : tc_lookup tc name = some sym) (hU : sym.type_info = some U)
    (hUu : U ∈ unsigned_kinds) (hS : tc.type_info ca = some S) (hSs : S ∈ signed_kinds)
    (hk : type_kind ≠ 1) (h1 : va ≠ ca) (h2 : addr ≠ ca) (h3 : addr ≠ va) :
    (∃ tc1, check_node type_to_string tc
        (.NODE_EXPR_BINARY addr token (.NODE_EXPR_VAR va vt name .NULL)
          (.NODE_EXPR_LITERAL ca ct none type_kind .NULL) .NULL) = some tc1 ∧
      records tc tc1 []) ∧
    (∃ tc2, check_node type_to_string tc
        (.NODE_EXPR_BINARY addr token (.NODE_EXPR_LITERAL ca ct none type_kind .NULL)
          (.NODE_EXPR_VAR va vt name .NULL) .NULL) = some tc2 ∧
      records tc tc2
        [⟨token, snprintf 255 (sign_mismatch_text type_to_string S U)⟩]) := by
  have hv := check_expr_var_resolved tc va name sym U hx hU
  have hlit : is_safe_integer_literal (.NODE_EXPR_LITERAL ca ct none type_kind .NULL) = true := by
    simp [is_safe_integer_literal, hk]
  have hvar : is_safe_integer_literal (.NODE_EXPR_VAR va vt name .NULL) = false := rfl
  have hca : ((tc.set_type_info va (some U)).set_type_info addr (some U)).type_info ca =
      some S := by
    simp only [TypeChecker.set_type_info, if_neg (Ne.symm h2), if_neg (Ne.symm h1), hS]
  have hca2 : (tc.set_type_info va (some U)).type_info ca = some S := by
    simp only [TypeChecker.set_type_info, if_neg (Ne.symm h1), hS]
  have hva : ((tc.set_type_info va (some U)).set_type_info addr (some S)).type_info va =
      some U := by
    simp only [TypeChecker.set_type_info, if_neg (Ne.symm h3), if_true]
  refine ⟨⟨(tc.set_type_info va (some U)).set_type_info addr (some U), ?_,
      by simp [TypeChecker.set_type_info], rfl⟩,
    ⟨tc_error ((tc.set_type_info va (some U)).set_type_info addr (some S)) token
      (snprintf 255 (sign_mismatch_text type_to_string S U)), ?_, rfl, rfl⟩⟩
  · have hb : binary_infer type_to_string (tc.set_type_info va (some U)) addr token
        (.NODE_EXPR_VAR va vt name .NULL) (.NODE_EXPR_LITERAL ca ct none type_kind .NULL) =
        some ((tc.set_type_info va (some U)).set_type_info addr (some U)) := by
      have hd : (tc.set_type_info va (some U)).type_info va = some U := by
        simp [TypeChecker.set_type_info]
      have hd2 : ((tc.set_type_info va (some U)).set_type_info addr (some U)).type_info va =
          some U := by
        simp only [TypeChecker.set_type_info, if_neg (Ne.symm h3), if_true]
      unfold binary_infer
      simp only [TypeChecker.deref_type_info, ASTNode.addr, hd, hd2]
      rw [check_type_compatibility_sign type_to_string _ U S
        (.NODE_EXPR_LITERAL ca ct none type_kind .NULL) token ca rfl hca
        (Or.inl ⟨hUu, hSs⟩), hlit]
      rfl
    rw [check_node_binary, check_node_expr_var, hv, check_node_null, Option.some_bind,
      check_node_literal, check_node_null, Option.some_bind, hb, Option.some_bind,
      check_node_null]
  · have hb : binary_infer type_to_string (tc.set_type_info va (some U)) addr token
        (.NODE_EXPR_LITERAL ca ct none type_kind .NULL) (.NODE_EXPR_VAR va vt name .NULL) =
        some (tc_error ((tc.set_type_info va (some U)).set_type_info addr (some S)) token
          (snprintf 255 (sign_mismatch_text type_to_string S U))) := by
      have hd2 : ((tc.set_type_info va (some U)).set_type_info addr (some S)).type_info ca =
          some S := by
        simp only [TypeChecker.set_type_info, if_neg (Ne.symm h2), if_neg (Ne.symm h1), hS]
      unfold binary_infer
      simp only [TypeChecker.deref_type_info, ASTNode.addr, hca2, hd2]
      rw [check_type_compatibility_sign type_to_string _ S U
        (.NODE_EXPR_VAR va vt name .NULL) token va rfl hva
        (Or.inr ⟨hSs, hUu⟩), hvar]
      rfl
    rw [check_node_binary, check_node_literal, check_node_null, Option.some_bind,
      check_node_expr_var, hv, check_node_null, Option.some_bind, hb, Option.some_bind,
      check_node_null]

/-- C20, witness: where `len: usize` is bound, `len > 0` records nothing and
`0 < len` records the sign mismatch from `'usize'` to `'i32'`. -/
theorem binary_operand_order_witness :
    (∃ tc1, check_node type_names operand_state len_gt_zero = some tc1 ∧
      records operand_state tc1 []) ∧
    (∃ tc2, check_node type_names operand_state zero_lt_len = some tc2 ∧
      records operand_state tc2 [⟨at_line 1,
        "Sign mismatch: cannot implicitly convert 'usize' to 'i32' (use cast or unsigned literal)"⟩]) :=
  binary_operand_order type_names operand_state "len" ⟨"len", some .USIZE, Token.zero⟩
    .USIZE .I32 10 12 11 (at_line 1) (at_line 1) (at_line 1) 0 (by decide) rfl (by decide)
    rfl (by decide) (by decide) (by decide) (by decide) (by decide)

/-- C19: a call takes the type of its callee.  When the callee's `type_info` is a
type `T` once callee and arguments are checked, checking the call assigns `T` to
the call node and records nothing of its own: no diagnostic about the number or
the types of the arguments (checking the arguments leaves the callee's slot
alone when the callee is not among them).  So the pass over
`fn f() -> i32 { return 0; } fn g() -> u32 { return f(); }`, whose callee
reference carries `i32`, returns 1 with exactly one diagnostic, the sign mismatch
from `i32` to `u32` at the return. -/
theorem call_takes_callee_type (type_to_string : Ty → String) (tc tc1 tc2 : TypeChecker)
    (addr : Nat) (token : Token) (callee args : ASTNode) (ca : Nat) (T : Ty)
    (hc : check_node type_to_string tc callee = some tc1)
    (ha : check_node type_to_string tc1 args = some tc2)
    (hca : callee.addr = some ca) (hT : tc2.type_info ca = some T) :
    check_node type_to_string tc (.NODE_EXPR_CALL addr token callee args .NULL) =
      some (tc2.set_type_info addr (some T)) ∧
    (tc2.set_type_info addr (some T)).type_info addr = some T ∧
    (tc2.set_type_info addr (some T)).type_info ca = some T ∧
    records tc2 (tc2.set_type_info addr (some T)) [] ∧
    (ca ∉ written_slots args → tc1.type_info ca = some T) ∧
    ((check_program type_to_string ⟨0⟩ call_result_types call_result_program).map
      fun o => (o.status, o.tc.error_count, o.tc.stderr, o.tc.type_info 8)) =
      some (1, 1, [⟨at_line 2, snprintf 255 (sign_mismatch_text type_to_string .U32 .I32)⟩],
        some .I32) := by
  have hp : call_propagate tc2 addr callee = some (tc2.set_type_info addr (some T)) := by
    unfold call_propagate
    simp only [TypeChecker.deref_type_info, hca, hT]
  refine ⟨?_, ?_, ?_, ⟨by simp [TypeChecker.set_type_info], rfl⟩, ?_, rfl⟩
  · rw [check_node_call, hc, Option.some_bind, ha, Option.some_bind, hp, Option.some_bind,
      check_node_null]
  · simp [TypeChecker.set_type_info]
  · simp only [TypeChecker.set_type_info]
    split_ifs
    · rfl
    · exact hT
  · intro hn
    rw [← check_node_aux_frame type_to_string ca args _ _ _ ha hn]
    exact hT

set_option maxRecDepth 100000 in
/-- C19, witness: the call `f()` whose callee reference carries `i32` is
annotated `i32`, and the pass over `fn f() -> i32 { return 0; } fn g() -> u32 {
return f(); }` returns 1 with the one diagnostic that converts `'i32'` to
`'u32'`. -/
theorem call_takes_callee_type_witness :
    check_node type_names (checker_with [] [(1, .I32), (4, .I32), (5, .U32), (9, .I32)])
      (.NODE_EXPR_CALL 8 (at_line 2) (.NODE_EXPR_VAR 9 (at_line 2) "f" .NULL) .NULL .NULL) =
      some ((checker_with [] [(1, .I32), (4, .I32), (5, .U32), (9, .I32)]).set_type_info 8
        (some .I32)) ∧
    ((check_program type_names ⟨0⟩ call_result_types call_result_program).map
      fun o => (o.status, o.tc.stderr)) =
      some (1, [⟨at_line 2,
        "Sign mismatch: cannot implicitly convert 'i32' to 'u32' (use cast or unsigned literal)"⟩]) :=
  ⟨(call_takes_callee_type type_names
      (checker_with [] [(1, .I32), (4, .I32), (5, .U32), (9, .I32)])
      (checker_with [] [(1, .I32), (4, .I32), (5, .U32), (9, .I32)])
      (checker_with [] [(1, .I32), (4, .I32), (5, .U32), (9, .I32)])
      8 (at_line 2) (.NODE_EXPR_VAR 9 (at_line 2) "f" .NULL) .NULL 9 .I32 rfl rfl rfl rfl).1,
    by decide⟩

/-! ## A pass that overflows the counter -/

theorem tc_lookup_enter (tc : TypeChecker) (name : String) :
    tc_lookup (tc_enter_scope tc) name = tc_lookup tc name := rfl

theorem tc_exit_scope_errors (tc : TypeChecker) :
    (tc_exit_scope tc).stderr = tc.stderr ∧ (tc_exit_scope tc).error_count = tc.error_count := by
  unfold tc_exit_scope
  split <;> exact ⟨rfl, rfl⟩

/-- Checking `a == b;` where `a: i32` and `b: u32` are bound records one
diagnostic and leaves the scope stack alone. -/
theorem mismatch_stmt_check (type_to_string : Ty → String) (tc : TypeChecker) (sa sb : Symbol)
    (ha : tc_lookup tc "a" = some sa) (hta : sa.type_info = some .I32)
    (hb : tc_lookup tc "b" = some sb) (htb : sb.type_info = some .U32) :
    ∃ tc1, check_node type_to_string tc mismatch_stmt = some tc1 ∧
      tc1.current_scope = tc.current_scope ∧
      tc1.stderr.length = tc.stderr.length + 1 ∧
      tc1.error_count = count_after 1 tc.error_count := by
  have h1 := check_expr_var_resolved tc 4 "a" sa .I32 ha hta
  have hb1 : tc_lookup (tc.set_type_info 4 (some .I32)) "b" = some sb := hb
  have h2 := check_expr_var_resolved (tc.set_type_info 4 (some .I32)) 5 "b" sb .U32 hb1 htb
  have hd1 : ((tc.set_type_info 4 (some .I32)).set_type_info 5 (some .U32)).type_info 4 =
      some .I32 := by
    simp [TypeChecker.set_type_info]
  have hd2 : (((tc.set_type_info 4 (some .I32)).set_type_info 5 (some .U32)).set_type_info 3
      (some .I32)).type_info 4 = some .I32 := by
    simp [TypeChecker.set_type_info]
  have hd3 : (((tc.set_type_info 4 (some .I32)).set_type_info 5 (some .U32)).set_type_info 3
      (some .I32)).type_info 5 = some .U32 := by
    simp [TypeChecker.set_type_info]
  have hbin : binary_infer type_to_string
      ((tc.set_type_info 4 (some .I32)).set_type_info 5 (some .U32)) 3 (at_line 2)
      (.NODE_EXPR_VAR 4 (at_line 2) "a" .NULL) (.NODE_EXPR_VAR 5 (at_line 2) "b" .NULL) =
      some (tc_error (((tc.set_type_info 4 (some .I32)).set_type_info 5
        (some .U32)).set_type_info 3 (some .I32)) (at_line 2)
        (snprintf 255 (sign_mismatch_text type_to_string .I32 .U32))) := by
    unfold binary_infer
    simp only [TypeChecker.deref_type_info, ASTNode.addr, hd1, hd2]
    rw [check_type_compatibility_sign type_to_string _ .I32 .U32
      (.NODE_EXPR_VAR 5 (at_line 2) "b" .NULL) (at_line 2) 5 rfl hd3
      (Or.inr ⟨by decide, by decide⟩)]
    rfl
  refine ⟨tc_error (((tc.set_type_info 4 (some .I32)).set_type_info 5
      (some .U32)).set_type_info 3 (some .I32)) (at_line 2)
      (snprintf 255 (sign_mismatch_text type_to_string .I32 .U32)), ?_, ?_, ?_, ?_⟩
  · unfold mismatch_stmt
    rw [check_node_binary, check_node_expr_var, h1, check_node_null, Option.some_bind,
      check_node_expr_var, h2, check_node_null, Option.some_bind, hbin, Option.some_bind,
      check_node_null]
  · rfl
  · simp [tc_error, TypeChecker.set_type_info]
  · rfl

/-- The loop of `check_block` over `nested_blocks n` checks the statement
`a == b;` `2^n` times: each block is the second statement of its chain and is
checked twice. -/
theorem nested_blocks_loop (type_to_string : Ty → String) (n : Nat) :
    ∀ (tc : TypeChecker) (sa sb : Symbol),
      tc_lookup tc "a" = some sa → sa.type_info = some .I32 →
      tc_lookup tc "b" = some sb → sb.type_info = some .U32 →
      ∃ tc1, check_block_loop type_to_string tc (nested_blocks n) = some tc1 ∧
        tc1.current_scope = tc.current_scope ∧
        tc1.stderr.length = tc.stderr.length + 2 ^ n ∧
        tc1.error_count = count_after (2 ^ n) tc.error_count := by
  induction n with
  | zero =>
    intro tc sa sb ha hta hb htb
    obtain ⟨tc1, h, hs, hl, he⟩ := mismatch_stmt_check type_to_string tc sa sb ha hta hb htb
    refine ⟨tc1, ?_, hs, hl, he⟩
    rw [check_block_loop_step]
    simp only [nested_blocks, mismatch_stmt, ASTNode.is_null, Bool.false_eq_true, if_false,
      ASTNode.next]
    have h0 : check_node type_to_string tc
        (.NODE_EXPR_BINARY 3 (at_line 2) (.NODE_EXPR_VAR 4 (at_line 2) "a" .NULL)
          (.NODE_EXPR_VAR 5 (at_line 2) "b" .NULL) .NULL) = some tc1 := h
    rw [h0]
    rfl
  | succ n ih =>
    intro tc sa sb ha hta hb htb
    have once : ∀ (t : TypeChecker), t.current_scope = tc.current_scope →
        ∃ t1, check_node type_to_string t
            (.NODE_BLOCK (2 * n + 11) (at_line 1) (nested_blocks n) .NULL) = some t1 ∧
          t1.current_scope = tc.current_scope ∧
          t1.stderr.length = t.stderr.length + 2 ^ n ∧
          t1.error_count = count_after (2 ^ n) t.error_count := by
      intro t ht
      have ha1 : tc_lookup (tc_enter_scope t) "a" = some sa := by
        rw [tc_lookup_enter]; unfold tc_lookup; rw [ht]; exact ha
      have hb1 : tc_lookup (tc_enter_scope t) "b" = some sb := by
        rw [tc_lookup_enter]; unfold tc_lookup; rw [ht]; exact hb
      obtain ⟨t1, h, hs, hl, he⟩ := ih (tc_enter_scope t) sa sb ha1 hta hb1 htb
      refine ⟨tc_exit_scope t1, ?_, ?_, ?_, ?_⟩
      · rw [check_node_block]
        simp only [check_block, h, Option.map_some', Option.some_bind]
        rfl
      · simp [tc_exit_scope, hs, tc_enter_scope, ht]
      · rw [(tc_exit_scope_errors t1).1, hl]
        rfl
      · rw [(tc_exit_scope_errors t1).2, he]
        rfl
    obtain ⟨t1, h1, hs1, hl1, he1⟩ := once tc rfl
    obtain ⟨t2, h2, hs2, hl2, he2⟩ := once t1 hs1
    refine ⟨t2, ?_, hs2, ?_, ?_⟩
    · rw [check_block_loop_step]
      simp only [nested_blocks, ASTNode.is_null, Bool.false_eq_true, if_false, ASTNode.next]
      rw [check_node_literal, h1, Option.some_bind, check_block_loop_step]
      simp only [ASTNode.is_null, Bool.false_eq_true, if_false, ASTNode.next]
      rw [h2]
      rfl
    · rw [hl2, hl1]
      ring
    · rw [he2, he1, ← count_after_add]
      congr 1
      ring

/-- The pass over `nested_program n` records `2^n` diagnostics. -/
theorem nested_program_pass (type_to_string : Ty → String) (n : Nat) :
    ∃ tc, check_node type_to_string (initial_checker ⟨0⟩ (memory [])) (nested_program n) =
        some tc ∧
      tc.stderr.length = 2 ^ n ∧ tc.error_count = count_after (2 ^ n) 0 := by
  obtain ⟨t1, h, hs, hl, he⟩ := nested_blocks_loop type_to_string n
    (tc_enter_scope
      { initial_checker ⟨0⟩ (memory []) with
        current_scope := [⟨[⟨"b", some .U32, Token.zero⟩, ⟨"a", some .I32, Token.zero⟩]⟩],
        current_func := some 1, scope_enters := 1 })
    ⟨"a", some .I32, Token.zero⟩ ⟨"b", some .U32, Token.zero⟩ (by decide) rfl (by decide) rfl
  refine ⟨{ tc_exit_scope (tc_exit_scope t1) with current_func := none }, ?_, ?_, ?_⟩
  · unfold nested_program
    have hp : function_params (some [some "a", some "b"]) (some [some .I32, some .U32]) 2
        (tc_enter_scope { initial_checker ⟨0⟩ (memory []) with current_func := some 1 }) =
        some { initial_checker ⟨0⟩ (memory []) with
          current_scope := [⟨[⟨"b", some .U32, Token.zero⟩, ⟨"a", some .I32, Token.zero⟩]⟩],
          current_func := some 1, scope_enters := 1 } := rfl
    simp only [check_node, check_node_aux, Option.bind_eq_bind, Bool.false_eq_true, if_false,
      Option.pure_def, Option.bind_some, hp, Option.some_bind]
    have h0 : check_node_aux type_to_string true
        (tc_enter_scope
          { initial_checker ⟨0⟩ (memory []) with
            current_scope := [⟨[⟨"b", some .U32, Token.zero⟩, ⟨"a", some .I32, Token.zero⟩]⟩],
            current_func := some 1, scope_enters := 1 })
        (nested_blocks n) = some t1 := h
    rw [h0]
    rfl
  · show (tc_exit_scope (tc_exit_scope t1)).stderr.length = 2 ^ n
    rw [(tc_exit_scope_errors _).1, (tc_exit_scope_errors _).1, hl]
    simp [initial_checker, tc_enter_scope]
  · show (tc_exit_scope (tc_exit_scope t1)).error_count = count_after (2 ^ n) 0
    rw [(tc_exit_scope_errors _).2, (tc_exit_scope_errors _).2, he]
    rfl

/-- C3, counterexample to the claim as stated: the pass over `fn main(a: i32, b:
u32) -> void { 0; { 0; { ... { a == b; } ... } } }` with 31 blocks inside one
another records `2^31` diagnostics, which leaves the `int` `error_count` at
`INT_MIN`, and `check_program` returns 0. -/
theorem overflowing_pass_returns_zero :
    ∃ o, check_program type_names ⟨0⟩ (memory []) (nested_program 31) = some o ∧
      o.status = 0 ∧ o.tc.stderr.length = 2147483648 ∧ o.tc.stderr ≠ [] ∧
      o.tc.error_count = -2147483648 := by
  obtain ⟨tc, h, hl, he⟩ := nested_program_pass type_names 31
  obtain ⟨o, ho, hotc, _, h0, _⟩ := check_program_eq h
  have hc : tc.error_count = -2147483648 := by
    rw [he, show (2 : Nat) ^ 31 = 2147483647 + 1 by norm_num, count_after_wrap]
    decide
  subst hotc
  have hlen : o.tc.stderr.length = 2147483648 := by rw [hl]; norm_num
  refine ⟨o, ho, h0.mpr (by rw [hc]; decide), hlen, ?_, hc⟩
  intro hn
  rw [hn] at hlen
  exact absurd hlen (by decide)

/-- C13, counterexample to the claim as stated: checked in a state whose
`error_count` is `INT_MAX`, the expression `a == b` emits one diagnostic and
leaves `error_count` at `INT_MIN`, less than before; and the pass over
`nested_program 31` ends with `2^31` diagnostics emitted and `error_count` at
`INT_MIN`. -/
theorem error_count_wraps :
    full_counter_state.error_count = 2147483647 ∧
    ((check_node type_names full_counter_state a_eq_b).map
      fun tc => (tc.stderr.length, tc.error_count)) = some (1, -2147483648) ∧
    (∃ tc, check_node type_names (initial_checker ⟨0⟩ (memory [])) (nested_program 31) =
        some tc ∧
      tc.stderr.length = 2147483648 ∧ tc.error_count = -2147483648) := by
  refine ⟨rfl, by decide, ?_⟩
  obtain ⟨tc, h, hl, he⟩ := nested_program_pass type_names 31
  refine ⟨tc, h, by rw [hl]; norm_num, ?_⟩
  rw [he, show (2 : Nat) ^ 31 = 2147483647 + 1 by norm_num, count_after_wrap]
  decide

/-- C9, the code at the failing input: the pass over `fn main() -> void { } let
g: i32 = 0;` does not return, so it does not end with `current_scope` null: the
function is checked with its two scopes entered and exited, and then the
declaration, a child of the root, is published with no scope on the stack.
Checked alone in the state a pass starts from, the declaration does not return
either. -/
theorem pass_stops_at_global_decl :
    (check_program type_names ⟨0⟩ (memory [(1, .VOID), (3, .I32), (4, .I32)])
      decl_after_function).isSome = false ∧
    ((check_node type_names (initial_checker ⟨0⟩ (memory [(1, .VOID), (3, .I32), (4, .I32)]))
        (.NODE_FUNCTION 1 (at_line 1) none none 0 (.NODE_BLOCK 2 (at_line 1) .NULL .NULL)
          .NULL)).map
      fun tc => (tc.current_scope, tc.scope_enters, tc.scope_exits)) = some ([], 2, 2) ∧
    (check_node type_names (initial_checker ⟨0⟩ (memory [(1, .VOID), (3, .I32), (4, .I32)]))
      (.NODE_VAR_DECL 3 (at_line 2) "g" (.NODE_EXPR_LITERAL 4 (at_line 2) none 0 .NULL)
        .NULL)).isSome = false ∧
    fault_free 0 decl_after_function = false := by
  decide

/-! ## Shadowing -/

/-- C8 (as amended): shadowing is bounded by the block.  Checked where `x` is
bound to a type `T`: for every block, whatever its statements, when `check_node`
returns from the block the scope stack, scopes and symbols, is the one it found,
every lookup yields what it yielded before the block, and a reference to `x`
checked right after the block ends annotated with `T`.  Inside a block,
publishing a declaration of `x` with declared type `U` makes the lookup of `x`
yield that declaration, whatever the outer binding, and a reference to `x`
visited then is annotated with `U`; in particular the block
`{ let x: U = <literal>; x }` followed by a reference to `x` leaves the
reference inside the block annotated with `U` and the one after it with `T`.
A node the walk over the block does not reach as a declaration, reference,
binary node or call, such as the operand of a negation, keeps the annotation it
had. -/
theorem block_shadowing (type_to_string : Ty → String) (tc : TypeChecker) (x : String)
    (sym : Symbol) (T : Ty)
    (hx : tc_lookup tc x = some sym) (hT : sym.type_info = some T) :
    (∀ (a : Nat) (t : Token) (statements : ASTNode) (tc2 : TypeChecker),
      check_node type_to_string tc (.NODE_BLOCK a t statements .NULL) = some tc2 →
        tc2.current_scope = tc.current_scope ∧
        ∀ name, tc_lookup tc2 name = tc_lookup tc name) ∧
    (∀ (a outer : Nat) (t t4 : Token) (statements : ASTNode) (tc1 : TypeChecker),
      check_node type_to_string tc
          (.NODE_BLOCK a t statements (.NODE_EXPR_VAR outer t4 x .NULL)) = some tc1 →
        tc1.type_info outer = some T ∧ tc1.current_scope = tc.current_scope) ∧
    (∀ (tc2 tc3 : TypeChecker) (decl : Nat) (t1 : Token) (init : ASTNode) (U : Ty),
      tc2.type_info decl = some U → var_decl_publish tc2 decl t1 x init = some tc3 →
        tc_lookup tc3 x = some ⟨x, some U, t1⟩ ∧
        ∀ (inner : Nat) (t3 : Token) (tc4 : TypeChecker),
          check_node type_to_string tc3 (.NODE_EXPR_VAR inner t3 x .NULL) = some tc4 →
            tc4.type_info inner = some U) ∧
    (∀ (U : Ty) (blk decl lit inner outer : Nat) (t0 t1 t2 t3 t4 : Token)
      (string_val : Option String) (type_kind : Int),
      tc.type_info decl = some U → inner ≠ outer →
      ∃ tc1, check_node type_to_string tc
          (.NODE_BLOCK blk t0
            (.NODE_VAR_DECL decl t1 x (.NODE_EXPR_LITERAL lit t2 string_val type_kind .NULL)
              (.NODE_EXPR_VAR inner t3 x .NULL))
            (.NODE_EXPR_VAR outer t4 x .NULL)) = some tc1 ∧
        tc1.type_info inner = some U ∧ tc1.type_info outer = some T ∧
        tc1.current_scope = tc.current_scope) ∧
    (∀ (a : Nat) (t : Token) (statements next : ASTNode),
      check_node type_to_string tc (.NODE_BLOCK a t statements next) =
        (check_block type_to_string tc statements).bind fun tc2 =>
          check_node type_to_string tc2 next) ∧
    (∀ (a r : Nat) (t : Token) (statements next : ASTNode) (tc1 : TypeChecker),
      check_node type_to_string tc (.NODE_BLOCK a t statements next) = some tc1 →
      r ∉ written_slots (.NODE_BLOCK a t statements next) →
        tc1.type_info r = tc.type_info r) := by
  refine ⟨?_, ?_, ?_, ?_, fun a t statements next => check_node_block _ _ _ _ _ _,
    fun a r t statements next tc1 h hr => check_node_aux_frame _ r _ _ _ _ h hr⟩
  · intro a t statements tc2 h
    rw [check_node_block] at h
    simp only [Option.bind_eq_some] at h
    obtain ⟨t1, h1, h2⟩ := h
    rw [check_node_null] at h2
    simp only [Option.some.injEq] at h2
    subst h2
    have hs := check_block_restores h1
    exact ⟨hs, fun name => by simp only [tc_lookup, hs]⟩
  · intro a outer t t4 statements tc1 h
    rw [check_node_block] at h
    simp only [Option.bind_eq_some] at h
    obtain ⟨t1, h1, h2⟩ := h
    have hs := check_block_restores h1
    have hl : tc_lookup t1 x = some sym := by
      unfold tc_lookup; rw [hs]; exact hx
    rw [check_node_expr_var, check_expr_var_resolved t1 outer x sym T hl hT, check_node_null]
      at h2
    simp only [Option.some.injEq] at h2
    subst h2
    exact ⟨by simp [TypeChecker.set_type_info], hs⟩
  · intro tc2 tc3 decl t1 init U hU h
    have hl : tc_lookup tc3 x = some ⟨x, some U, t1⟩ := by
      unfold var_decl_publish tc_add_symbol at h
      rw [hU] at h
      cases hc : tc2.current_scope with
      | nil => rw [hc] at h; simp at h
      | cons sc parent =>
        rw [hc] at h
        simp only [Option.map_some', Option.some.injEq] at h
        subst h
        simp [tc_lookup, lookup_scopes, lookup_symbols, TypeChecker.set_type_info]
    refine ⟨hl, ?_⟩
    intro inner t3 tc4 h4
    rw [check_node_expr_var, check_expr_var_resolved tc3 inner x _ U hl rfl, check_node_null]
      at h4
    simp only [Option.some.injEq] at h4
    subst h4
    simp [TypeChecker.set_type_info]
  · intro U blk decl lit inner outer t0 t1 t2 t3 t4 string_val type_kind hU hne
    unfold tc_lookup at hx
    have e0 : check_node type_to_string tc
        (.NODE_BLOCK blk t0
          (.NODE_VAR_DECL decl t1 x (.NODE_EXPR_LITERAL lit t2 string_val type_kind .NULL)
            (.NODE_EXPR_VAR inner t3 x .NULL))
          (.NODE_EXPR_VAR outer t4 x .NULL)) =
        (var_decl_publish (var_decl_compat type_to_string (tc_enter_scope tc) decl t1
          (.NODE_EXPR_LITERAL lit t2 string_val type_kind .NULL)) decl t1 x
          (.NODE_EXPR_LITERAL lit t2 string_val type_kind .NULL)).bind fun s2 =>
          some (check_expr_var (tc_exit_scope
            (check_expr_var (check_expr_var s2 inner x) inner x)) outer x) := by
      simp only [check_node, check_node_aux, Option.bind_eq_bind, Option.some_bind,
        Option.pure_def, if_true, Bool.false_eq_true, if_false, Option.bind_some]
      cases var_decl_publish (var_decl_compat type_to_string (tc_enter_scope tc) decl t1
          (.NODE_EXPR_LITERAL lit t2 string_val type_kind .NULL)) decl t1 x
          (.NODE_EXPR_LITERAL lit t2 string_val type_kind .NULL) <;> rfl
    have hc : (var_decl_compat type_to_string (tc_enter_scope tc) decl t1
          (.NODE_EXPR_LITERAL lit t2 string_val type_kind .NULL)).current_scope =
          ⟨[]⟩ :: tc.current_scope ∧
        (var_decl_compat type_to_string (tc_enter_scope tc) decl t1
          (.NODE_EXPR_LITERAL lit t2 string_val type_kind .NULL)).type_info = tc.type_info := by
      rcases var_decl_compat_cases type_to_string (tc_enter_scope tc) decl t1
        (.NODE_EXPR_LITERAL lit t2 string_val type_kind .NULL) with h | ⟨msg, h⟩ <;>
        rw [h] <;> exact ⟨rfl, rfl⟩
    generalize var_decl_compat type_to_string (tc_enter_scope tc) decl t1
      (.NODE_EXPR_LITERAL lit t2 string_val type_kind .NULL) = c at e0 hc
    obtain ⟨hcs, hct⟩ := hc
    have hUc : c.type_info decl = some U := by rw [hct]; exact hU
    rw [e0]
    simp only [var_decl_publish, tc_add_symbol, hcs, hUc, Option.map_some', Option.some_bind,
      Option.some.injEq, exists_eq_left']
    simp [check_expr_var, tc_lookup, lookup_scopes, lookup_symbols,
      TypeChecker.set_type_info, tc_exit_scope, hx, hT, hne]

/-- C8, witness: where `x: i32` is bound, after `{ let x: u32 = 0; x } x` the
reference inside the block is annotated `u32`, the one after it `i32`, and the
scope stack is the one before the block. -/
theorem block_shadowing_witness :
    tc_lookup shadowing_state "x" = some ⟨"x", some .I32, at_line 1⟩ ∧
    ∃ tc1, check_node type_names shadowing_state shadowing_block = some tc1 ∧
      tc1.type_info 4 = some .U32 ∧ tc1.type_info 5 = some .I32 ∧
      tc1.current_scope = shadowing_state.current_scope :=
  ⟨by decide,
    (block_shadowing type_names shadowing_state "x" ⟨"x", some .I32, at_line 1⟩ .I32
      (by decide) rfl).2.2.2.1 .U32 1 2 3 4 5 (at_line 2) (at_line 3) (at_line 3) (at_line 4)
      (at_line 6) none 0 (by decide) (by decide)⟩

/-- C8, counterexample to the claim as stated: where `x: i32` is bound, in the
block `{ let x: u32 = 0; -x }` the reference to `x` (address 4) comes after the
declaration of `x: u32` (address 2) inside the block, and it ends with no
annotation: it is the operand of a negation, a kind of node the checker does not
look into. -/
theorem unvisited_reference_unannotated :
    tc_lookup shadowing_state "x" = some ⟨"x", some .I32, at_line 1⟩ ∧
    ((check_node type_names shadowing_state negated_use_block).map
      fun tc => (tc.type_info 2, tc.type_info 4, tc.current_scope)) =
      some (some .U32, none, shadowing_state.current_scope) := by
  decide

/-! ## The AST in memory is only annotated -/

theorem heap_preserved_refl (m : Nat → Option Heap.Node) : Heap.preserved m m :=
  fun _ => ⟨rfl, fun n hn ht => ⟨n, hn, ht⟩⟩

theorem heap_preserved_trans {a b c : Nat → Option Heap.Node} (h1 : Heap.preserved a b)
    (h2 : Heap.preserved b c) : Heap.preserved a c := by
  intro x
  refine ⟨(h2 x).1.trans (h1 x).1, fun n hn ht => ?_⟩
  obtain ⟨n1, hn1, ht1⟩ := (h1 x).2 n hn ht
  exact (h2 x).2 n1 hn1 ht1

theorem heap_preserved_of_eq {a b : Nat → Option Heap.Node} (h : b = a) : Heap.preserved a b := by
  subst h
  exact heap_preserved_refl _

/-- The assignment `node->type_info = t` changes nothing but the annotation of
the node, and erases none when `t` is non-null or the slot was null. -/
theorem heap_set_type_info_preserved {st st1 : Heap.Checker} {a : Nat} {t : Option Ty}
    (h : st.set_type_info a t = some st1)
    (hne : ∀ n, st.ast a = some n → n.type_info ≠ none → t ≠ none) :
    Heap.preserved st.ast st1.ast := by
  unfold Heap.Checker.set_type_info at h
  split at h
  · exact absurd h (by simp)
  · rename_i n hn
    simp only [Option.some.injEq] at h
    subst h
    intro x
    by_cases hx : x = a
    · subst hx
      constructor
      · simp only [if_true, hn, Option.map_some', Heap.Node.shape]
      · intro n0 h0 ht
        rw [hn] at h0
        simp only [Option.some.injEq] at h0
        subst h0
        exact ⟨({ n with type_info := t } : Heap.Node), by simp only [if_true],
          hne _ hn ht⟩
    · constructor
      · simp only [if_neg hx]
      · intro n0 h0 ht
        exact ⟨n0, by simp only [if_neg hx]; exact h0, ht⟩

theorem heap_check_type_compatibility_ast {type_to_string : Ty → String} {st : Heap.Checker}
    {target : Option Ty} {value_expr : Option Nat} {t : Token} {r : Heap.Checker × Bool}
    (h : Heap.check_type_compatibility type_to_string st target value_expr t = some r) :
    r.1.ast = st.ast := by
  unfold Heap.check_type_compatibility at h
  split at h
  · simp only [Option.some.injEq] at h; subst h; rfl
  · simp only [Option.some.injEq] at h; subst h; rfl
  · split at h
    · exact absurd h (by simp)
    · split at h
      · simp only [Option.some.injEq] at h; subst h; rfl
      · split_ifs at h <;> simp only [Option.some.injEq] at h <;> subst h <;> rfl

theorem heap_tc_add_symbol_ast {st st1 : Heap.Checker} {name : String} {type : Option Ty}
    {t : Token} (h : Heap.tc_add_symbol st name type t = some st1) : st1.ast = st.ast := by
  unfold Heap.tc_add_symbol at h
  split at h
  · exact absurd h (by simp)
  · simp only [Option.some.injEq] at h; subst h; rfl

theorem heap_tc_exit_scope_ast (st : Heap.Checker) : (Heap.tc_exit_scope st).ast = st.ast := by
  unfold Heap.tc_exit_scope
  split <;> rfl

theorem heap_function_param_ast {param_names : Option (List (Option String))}
    {arg_types : Option (List (Option Ty))} {st st1 : Heap.Checker} {i : Nat}
    (h : Heap.function_param param_names arg_types st i = some st1) : st1.ast = st.ast := by
  unfold Heap.function_param at h
  split at h
  · simp only [Option.some.injEq] at h; subst h; rfl
  · split at h
    · exact absurd h (by simp)
    · simp only [Option.some.injEq] at h; subst h; rfl
    · split at h
      · exact heap_tc_add_symbol_ast h
      · split at h
        · exact absurd h (by simp)
        · exact heap_tc_add_symbol_ast h

theorem heap_function_params_ast {param_names : Option (List (Option String))}
    {arg_types : Option (List (Option Ty))} {arg_count : Nat} {st st1 : Heap.Checker}
    (h : Heap.function_params param_names arg_types arg_count st = some st1) :
    st1.ast = st.ast := by
  unfold Heap.function_params at h
  generalize List.range arg_count = l at h
  induction l generalizing st with
  | nil =>
    simp only [List.foldlM_nil, Option.pure_def, Option.some.injEq] at h
    subst h
    rfl
  | cons i l ih =>
    simp only [List.foldlM_cons, Option.bind_eq_bind, Option.bind_eq_some] at h
    obtain ⟨st2, h2, h3⟩ := h
    rw [ih h3, heap_function_param_ast h2]

theorem heap_var_decl_compat_ast {type_to_string : Ty → String} {st st1 : Heap.Checker}
    {a : Nat} (h : Heap.var_decl_compat type_to_string st a = some st1) : st1.ast = st.ast := by
  unfold Heap.var_decl_compat at h
  split at h
  · exact absurd h (by simp)
  · split at h
    · simp only [Option.some.injEq] at h; subst h; rfl
    · split at h
      · simp only [Option.map_eq_some'] at h
        obtain ⟨r, hr, rfl⟩ := h
        exact heap_check_type_compatibility_ast hr
      · exact absurd h (by simp)

theorem heap_return_compat_ast {type_to_string : Ty → String} {st st1 : Heap.Checker}
    {a : Nat} (h : Heap.return_compat type_to_string st a = some st1) : st1.ast = st.ast := by
  unfold Heap.return_compat at h
  split at h
  · simp only [Option.some.injEq] at h; subst h; rfl
  · split at h
    · exact absurd h (by simp)
    · split at h
      · simp only [Option.some.injEq] at h; subst h; rfl
      · split at h
        · simp only [Option.map_eq_some'] at h
          obtain ⟨r, hr, rfl⟩ := h
          exact heap_check_type_compatibility_ast hr
        · exact absurd h (by simp)

/-- Publishing a declaration assigns the annotation of the declaration and
nothing else; the annotation it assigns is the one the declaration had when that
was non-null. -/
theorem heap_var_decl_publish_preserved {st st1 : Heap.Checker} {a : Nat}
    (h : Heap.var_decl_publish st a = some st1) : Heap.preserved st.ast st1.ast := by
  unfold Heap.var_decl_publish at h
  split at h
  · exact absurd h (by simp)
  · rename_i node hnode
    split at h
    · rename_i name init_expr hp
      simp only [Option.bind_eq_some] at h
      obtain ⟨t, ht, st2, h2, h3⟩ := h
      have ha := heap_tc_add_symbol_ast h2
      rw [← ha]
      refine heap_set_type_info_preserved h3 ?_
      intro n hn hne
      rw [ha, hnode] at hn
      simp only [Option.some.injEq] at hn
      subst hn
      split at ht
      · rename_i hnone
        exact absurd hnone hne
      · simp only [Option.some.injEq] at ht
        subst ht
        exact hne
    · exact absurd h (by simp)

theorem heap_check_expr_var_preserved {st st1 : Heap.Checker} {a : Nat}
    (h : Heap.check_expr_var st a = some st1) : Heap.preserved st.ast st1.ast := by
  unfold Heap.check_expr_var at h
  split at h
  · split at h
    · simp only [Option.some.injEq] at h; subst h; exact heap_preserved_refl _
    · split at h
      · simp only [Option.some.injEq] at h; subst h; exact heap_preserved_refl _
      · exact heap_set_type_info_preserved h (fun _ _ _ => by simp)
  · exact absurd h (by simp)

theorem heap_binary_infer_preserved {type_to_string : Ty → String} {st st1 : Heap.Checker}
    {a : Nat} (h : Heap.binary_infer type_to_string st a = some st1) :
    Heap.preserved st.ast st1.ast := by
  unfold Heap.binary_infer at h
  split at h
  · split at h
    · exact absurd h (by simp)
    · split at h
      · simp only [Option.some.injEq] at h; subst h; exact heap_preserved_refl _
      · simp only [Option.bind_eq_some] at h
        obtain ⟨st2, h2, h3⟩ := h
        have p := heap_set_type_info_preserved h2 (fun _ _ _ => by simp)
        split at h3
        · simp only [Option.bind_eq_some, Option.map_eq_some'] at h3
          obtain ⟨l1, _, r, hr, rfl⟩ := h3
          rw [heap_check_type_compatibility_ast hr]
          exact p
        · exact absurd h3 (by simp)
  · exact absurd h (by simp)

theorem heap_call_propagate_preserved {st st1 : Heap.Checker} {a : Nat}
    (h : Heap.call_propagate st a = some st1) : Heap.preserved st.ast st1.ast := by
  unfold Heap.call_propagate at h
  split at h
  · split at h
    · exact absurd h (by simp)
    · split at h
      · simp only [Option.some.injEq] at h; subst h; exact heap_preserved_refl _
      · exact heap_set_type_info_preserved h (fun _ _ _ => by simp)
  · exact absurd h (by simp)

/-- Whatever the memory holds, a walk that returns has left every node with the
kind, payload, token and `next` link it had, and has erased no annotation. -/
theorem heap_check_node_aux_preserved (type_to_string : Ty → String) :
    ∀ (fuel : Nat) (loop : Bool) (st : Heap.Checker) (p : Option Nat) (st1 : Heap.Checker),
      Heap.check_node_aux type_to_string fuel loop st p = some st1 →
        Heap.preserved st.ast st1.ast := by
  intro fuel
  induction fuel with
  | zero =>
    intro loop st p st1 h
    cases p with
    | none =>
      simp only [Heap.check_node_aux, Option.some.injEq] at h
      subst h
      exact heap_preserved_refl _
    | some a => simp [Heap.check_node_aux] at h
  | succ fuel ih =>
    intro loop st p st1 h
    cases p with
    | none =>
      simp only [Heap.check_node_aux, Option.some.injEq] at h
      subst h
      exact heap_preserved_refl _
    | some a =>
      simp only [Heap.check_node_aux, Option.bind_eq_some] at h
      obtain ⟨kind, _, st2, hd, node1, _, st3, hnext, hl⟩ := h
      have p1 : Heap.preserved st.ast st2.ast := by
        cases kind with
        | root children =>
          simp only [Option.bind_eq_some] at hd
          obtain ⟨q, _, h1⟩ := hd
          exact ih _ _ _ _ h1
        | block statements =>
          simp only [Option.bind_eq_some, Option.map_eq_some'] at hd
          obtain ⟨q, _, s1, h1, rfl⟩ := hd
          have q1 : Heap.preserved st.ast s1.ast := ih _ (Heap.tc_enter_scope st) _ _ h1
          rw [heap_tc_exit_scope_ast]
          exact q1
        | var_decl name init_expr =>
          simp only [Option.bind_eq_some] at hd
          obtain ⟨q, _, h0⟩ := hd
          split at h0
          · exact heap_var_decl_publish_preserved h0
          · simp only [Option.bind_eq_some] at h0
            obtain ⟨s1, h1, s2, h2, h3⟩ := h0
            exact heap_preserved_trans (heap_preserved_trans (ih _ _ _ _ h1)
              (heap_preserved_of_eq (heap_var_decl_compat_ast h2)))
              (heap_var_decl_publish_preserved h3)
        | func param_names arg_types arg_count body =>
          simp only [Option.bind_eq_some, Option.map_eq_some'] at hd
          obtain ⟨s1, h1, q, _, s2, h2, rfl⟩ := hd
          have q1 : Heap.preserved st.ast s1.ast :=
            heap_preserved_of_eq (by rw [heap_function_params_ast h1]; rfl)
          have q3 : Heap.preserved s2.ast
              ({ Heap.tc_exit_scope s2 with current_func := none } : Heap.Checker).ast :=
            heap_preserved_of_eq (heap_tc_exit_scope_ast s2)
          exact heap_preserved_trans (heap_preserved_trans q1 (ih _ _ _ _ h2)) q3
        | var_ref name => exact heap_check_expr_var_preserved hd
        | ret value =>
          simp only [Option.bind_eq_some] at hd
          obtain ⟨q, _, h0⟩ := hd
          split at h0
          · simp only [Option.some.injEq] at h0
            subst h0
            exact heap_preserved_refl _
          · simp only [Option.bind_eq_some] at h0
            obtain ⟨s1, h1, h2⟩ := h0
            exact heap_preserved_trans (ih _ _ _ _ h1)
              (heap_preserved_of_eq (heap_return_compat_ast h2))
        | if_stmt condition then_body else_body =>
          simp only [Option.bind_eq_some] at hd
          obtain ⟨q1, _, s1, h1, q2, _, s2, h2, q3, _, h3⟩ := hd
          exact heap_preserved_trans (heap_preserved_trans (ih _ _ _ _ h1) (ih _ _ _ _ h2))
            (ih _ _ _ _ h3)
        | while_stmt condition body =>
          simp only [Option.bind_eq_some] at hd
          obtain ⟨q1, _, s1, h1, q2, _, h2⟩ := hd
          exact heap_preserved_trans (ih _ _ _ _ h1) (ih _ _ _ _ h2)
        | for_stmt init condition step body =>
          simp only [Option.bind_eq_some, Option.map_eq_some'] at hd
          obtain ⟨q1, _, s1, h1, q2, _, s2, h2, q3, _, s3, h3, q4, _, s4, h4, rfl⟩ := hd
          have q1 : Heap.preserved st.ast s1.ast := ih _ (Heap.tc_enter_scope st) _ _ h1
          rw [heap_tc_exit_scope_ast]
          exact heap_preserved_trans (heap_preserved_trans (heap_preserved_trans
            q1 (ih _ _ _ _ h2)) (ih _ _ _ _ h3)) (ih _ _ _ _ h4)
        | binary left right =>
          simp only [Option.bind_eq_some] at hd
          obtain ⟨q1, _, s1, h1, q2, _, s2, h2, h3⟩ := hd
          exact heap_preserved_trans (heap_preserved_trans (ih _ _ _ _ h1) (ih _ _ _ _ h2))
            (heap_binary_infer_preserved h3)
        | call callee args =>
          simp only [Option.bind_eq_some] at hd
          obtain ⟨q1, _, s1, h1, q2, _, s2, h2, h3⟩ := hd
          exact heap_preserved_trans (heap_preserved_trans (ih _ _ _ _ h1) (ih _ _ _ _ h2))
            (heap_call_propagate_preserved h3)
        | literal string_val type_kind =>
          simp only [Option.some.injEq] at hd
          subst hd
          exact heap_preserved_refl _
        | unary operand =>
          simp only [Option.some.injEq] at hd
          subst hd
          exact heap_preserved_refl _
      have p2 := ih _ _ _ _ hnext
      have p3 : Heap.preserved st3.ast st1.ast := by
        cases loop with
        | false =>
          simp only [Bool.false_eq_true, if_false, Option.some.injEq] at hl
          subst hl
          exact heap_preserved_refl _
        | true =>
          simp only [if_true, Option.bind_eq_some] at hl
          obtain ⟨node2, _, h4⟩ := hl
          exact ih _ _ _ _ h4
      exact heap_preserved_trans (heap_preserved_trans p1 p2) p3

/-- The assignment `node->type_info = t` leaves the shape of every node as it
is. -/
theorem heap_set_type_info_shape {st st1 : Heap.Checker} {a : Nat} {t : Option Ty}
    (h : st.set_type_info a t = some st1) (b : Nat) :
    (st1.ast b).map Heap.Node.shape = (st.ast b).map Heap.Node.shape := by
  unfold Heap.Checker.set_type_info at h
  split at h
  · exact absurd h (by simp)
  · rename_i n hn
    simp only [Option.some.injEq] at h
    subst h
    by_cases hb : b = a
    · subst hb
      simp only [if_true, hn, Option.map_some', Heap.Node.shape]
    · simp only [if_neg hb]

/-! ## The walk over the memory follows the walk over the tree -/

theorem record_type_info (t : Option Ty) (n : ASTNode) (r : Heap.Node)
    (h : Heap.record t n = some r) : r.type_info = t ∧ r.next = n.next.addr := by
  cases n <;> simp only [Heap.record, Option.some.injEq, reduceCtorEq] at h <;> subst h <;>
    exact ⟨rfl, rfl⟩

theorem record_isSome (t : Option Ty) (n : ASTNode) (a : Nat) (h : n.addr = some a) :
    ∃ r, Heap.record t n = some r := by
  cases n <;> simp only [ASTNode.addr, reduceCtorEq] at h <;> exact ⟨_, rfl⟩

theorem record_set (t t1 : Option Ty) (n : ASTNode) :
    (Heap.record t n).map (fun r => ({ r with type_info := t1 } : Heap.Node)) =
      Heap.record t1 n := by
  cases n <;> rfl

theorem nodes_self (n : ASTNode) (a : Nat) (h : n.addr = some a) : n ∈ n.nodes := by
  cases n <;> simp only [ASTNode.addr, reduceCtorEq] at h <;> simp [ASTNode.nodes]

theorem null_or_mem (n : ASTNode) : n = .NULL ∨ n ∈ n.nodes := by
  cases n <;> first | exact Or.inl rfl | (right; simp [ASTNode.nodes])

theorem heap_check_node_aux_null (type_to_string : Ty → String) (fuel : Nat) (loop : Bool)
    (st : Heap.Checker) : Heap.check_node_aux type_to_string fuel loop st none = some st := by
  cases fuel <;> simp [Heap.check_node_aux]

theorem stands_for_tc_error {root : ASTNode} {st : Heap.Checker} {tc : TypeChecker}
    (s : Heap.stands_for root st tc) (t : Token) (msg : String) :
    Heap.stands_for root (Heap.tc_error st t msg) (tc_error tc t msg) :=
  ⟨s.pctx, s.scope, s.func, by simp only [Heap.tc_error, tc_error, s.errors],
    by simp only [Heap.tc_error, tc_error, s.stderr], s.ast, s.func_node⟩

theorem stands_for_enter {root : ASTNode} {st : Heap.Checker} {tc : TypeChecker}
    (s : Heap.stands_for root st tc) :
    Heap.stands_for root (Heap.tc_enter_scope st) (tc_enter_scope tc) :=
  ⟨s.pctx, by simp only [Heap.tc_enter_scope, tc_enter_scope, s.scope], s.func, s.errors,
    s.stderr, s.ast, s.func_node⟩

theorem stands_for_exit {root : ASTNode} {st : Heap.Checker} {tc : TypeChecker}
    (s : Heap.stands_for root st tc) :
    Heap.stands_for root (Heap.tc_exit_scope st) (tc_exit_scope tc) := by
  have hs := s.scope
  unfold Heap.tc_exit_scope tc_exit_scope
  cases h : tc.current_scope with
  | nil =>
    rw [h] at hs
    simp only [hs]
    exact ⟨s.pctx, by simp only [hs, h], s.func, s.errors, s.stderr, s.ast, s.func_node⟩
  | cons sc parent =>
    rw [h] at hs
    simp only [hs]
    exact ⟨s.pctx, rfl, s.func, s.errors, s.stderr, s.ast, s.func_node⟩

theorem stands_for_add_symbol {root : ASTNode} {st : Heap.Checker} {tc tc1 : TypeChecker}
    (s : Heap.stands_for root st tc) {name : String} {type : Option Ty} {t : Token}
    (h : tc_add_symbol tc name type t = some tc1) :
    ∃ st1, Heap.tc_add_symbol st name type t = some st1 ∧ Heap.stands_for root st1 tc1 := by
  have hs := s.scope
  unfold tc_add_symbol at h
  unfold Heap.tc_add_symbol
  cases hc : tc.current_scope with
  | nil => rw [hc] at h; exact absurd h (by simp)
  | cons sc parent =>
    rw [hc] at h hs
    simp only [Option.some.injEq] at h
    subst h
    simp only [hs]
    exact ⟨_, rfl, s.pctx, rfl, s.func, s.errors, s.stderr, s.ast, s.func_node⟩

theorem stands_for_set_type_info {root : ASTNode} {st : Heap.Checker} {tc : TypeChecker}
    (s : Heap.stands_for root st tc) (n : ASTNode) (hn : n ∈ root.nodes) (a : Nat)
    (ha : n.addr = some a) (t : Option Ty) :
    ∃ st1, st.set_type_info a t = some st1 ∧
      Heap.stands_for root st1 (tc.set_type_info a t) := by
  obtain ⟨r, hr⟩ := record_isSome (tc.type_info a) n a ha
  have hm : st.ast a = some r := by rw [s.ast n hn a ha, hr]
  refine ⟨{ st with
      ast := fun b => if b = a then some { r with type_info := t } else st.ast b },
    by simp only [Heap.Checker.set_type_info, hm], ?_⟩
  refine ⟨s.pctx, s.scope, s.func, s.errors, s.stderr, ?_, s.func_node⟩
  intro n1 hn1 a1 ha1
  simp only [TypeChecker.set_type_info]
  by_cases e : a1 = a
  · subst e
    simp only [if_true]
    have h1 := s.ast n1 hn1 a1 ha1
    rw [hm] at h1
    rw [← record_set (tc.type_info a1) t n1, ← h1]
    rfl
  · simp only [if_neg e]
    exact s.ast n1 hn1 a1 ha1

theorem stands_for_is_safe_integer_literal {root : ASTNode} {st : Heap.Checker}
    {tc : TypeChecker} (s : Heap.stands_for root st tc) (value : ASTNode)
    (hv : value = .NULL ∨ value ∈ root.nodes) :
    Heap.is_safe_integer_literal st value.addr = is_safe_integer_literal value := by
  rcases hv with rfl | hv
  · rfl
  · cases value <;>
      first
      | rfl
      | (simp only [Heap.is_safe_integer_literal, Heap.Checker.deref, ASTNode.addr,
          s.ast _ hv _ rfl, Heap.record, is_safe_integer_literal])

theorem stands_for_check_type_compatibility {root : ASTNode} {st : Heap.Checker}
    {tc : TypeChecker} (s : Heap.stands_for root st tc) (type_to_string : Ty → String)
    (target : Option Ty) (value : ASTNode) (hv : value = .NULL ∨ value ∈ root.nodes)
    (t : Token) :
    ∃ st1, Heap.check_type_compatibility type_to_string st target value.addr t =
        some (st1, (check_type_compatibility type_to_string tc target value t).2) ∧
      Heap.stands_for root st1 (check_type_compatibility type_to_string tc target value t).1 := by
  have hlit := stands_for_is_safe_integer_literal s value hv
  unfold Heap.check_type_compatibility check_type_compatibility
  cases target with
  | none => exact ⟨st, by simp, s⟩
  | some T =>
    cases ha : value.addr with
    | none => exact ⟨st, by simp, s⟩
    | some a =>
      have hmem : value ∈ root.nodes := by
        rcases hv with rfl | hv
        · simp [ASTNode.addr] at ha
        · exact hv
      obtain ⟨r, hr⟩ := record_isSome (tc.type_info a) value a ha
      have hm : st.ast a = some r := by rw [s.ast value hmem a ha, hr]
      have hrt := (record_type_info _ _ _ hr).1
      simp only [hm, hrt]
      rw [ha] at hlit
      cases hV : tc.type_info a with
      | none => exact ⟨st, rfl, s⟩
      | some V =>
        simp only [hlit]
        split_ifs
        · exact ⟨st, rfl, s⟩
        · exact ⟨st, rfl, s⟩
        · exact ⟨st, rfl, s⟩
        · exact ⟨st, rfl, s⟩
        · exact ⟨_, rfl, stands_for_tc_error s _ _⟩
        · exact ⟨st, rfl, s⟩
        · exact ⟨_, rfl, stands_for_tc_error s _ _⟩

theorem stands_for_var_decl_compat {root : ASTNode} {st : Heap.Checker} {tc : TypeChecker}
    (s : Heap.stands_for root st tc) (type_to_string : Ty → String) (a : Nat) (token : Token)
    (name : String) (init next : ASTNode)
    (hn : ASTNode.NODE_VAR_DECL a token name init next ∈ root.nodes)
    (hi : init ∈ root.nodes) (hnull : init.is_null = false) :
    ∃ st1, Heap.var_decl_compat type_to_string st a = some st1 ∧
      Heap.stands_for root st1 (var_decl_compat type_to_string tc a token init) := by
  have hm := s.ast _ hn a rfl
  simp only [Heap.record] at hm
  unfold Heap.var_decl_compat var_decl_compat
  simp only [hm, hnull, Bool.false_eq_true, if_false]
  cases tc.type_info a with
  | none => exact ⟨st, rfl, s⟩
  | some T =>
    obtain ⟨st1, h1, s1⟩ := stands_for_check_type_compatibility s type_to_string (some T) init
      (Or.inr hi) token
    exact ⟨st1, by simp only [h1, Option.map_some'], s1⟩

theorem stands_for_var_decl_publish {root : ASTNode} {st : Heap.Checker} {tc tc1 : TypeChecker}
    (s : Heap.stands_for root st tc) (a : Nat) (token : Token) (name : String)
    (init next : ASTNode) (hn : ASTNode.NODE_VAR_DECL a token name init next ∈ root.nodes)
    (hi : init = .NULL ∨ init ∈ root.nodes)
    (h : var_decl_publish tc a token name init = some tc1) :
    ∃ st1, Heap.var_decl_publish st a = some st1 ∧ Heap.stands_for root st1 tc1 := by
  have hm := s.ast _ hn a rfl
  simp only [Heap.record] at hm
  have key : ∀ t : Option Ty, (tc_add_symbol tc name t token).map
      (fun tc2 => tc2.set_type_info a t) = some tc1 →
      ∃ st1, ((Heap.tc_add_symbol st name t token).bind fun st2 => st2.set_type_info a t) =
        some st1 ∧ Heap.stands_for root st1 tc1 := by
    intro t ht
    simp only [Option.map_eq_some'] at ht
    obtain ⟨tc2, h2, rfl⟩ := ht
    obtain ⟨st2, k2, s2⟩ := stands_for_add_symbol s h2
    obtain ⟨st3, k3, s3⟩ := stands_for_set_type_info s2 _ hn a rfl t
    exact ⟨st3, by simp only [k2, Option.some_bind, k3], s3⟩
  unfold var_decl_publish at h
  unfold Heap.var_decl_publish
  simp only [hm]
  cases hT : tc.type_info a with
  | some T =>
    simp only [hT] at h
    simp only [Option.some_bind]
    exact key _ h
  | none =>
    cases hia : init.addr with
    | none =>
      simp only [hT, hia] at h
      simp only [Option.some_bind]
      exact key _ h
    | some i =>
      simp only [hT, hia] at h
      have hmem : init ∈ root.nodes := by
        rcases hi with rfl | hi
        · simp [ASTNode.addr] at hia
        · exact hi
      obtain ⟨r, hr⟩ := record_isSome (tc.type_info i) init i hia
      simp only [s.ast init hmem i hia, hr, Option.map_some', (record_type_info _ _ _ hr).1,
        Option.some_bind]
      exact key _ h

theorem stands_for_return_compat {root : ASTNode} {st : Heap.Checker} {tc : TypeChecker}
    (s : Heap.stands_for root st tc) (type_to_string : Ty → String) (a : Nat) (token : Token)
    (value next : ASTNode) (hn : ASTNode.NODE_RETURN a token value next ∈ root.nodes)
    (hv : value ∈ root.nodes) (hnull : value.is_null = false) :
    ∃ st1, Heap.return_compat type_to_string st a = some st1 ∧
      Heap.stands_for root st1 (return_compat type_to_string tc token value) := by
  have hm := s.ast _ hn a rfl
  simp only [Heap.record] at hm
  unfold Heap.return_compat return_compat
  simp only [hnull, Bool.false_eq_true, if_false, s.func]
  cases hf : tc.current_func with
  | none => exact ⟨st, rfl, s⟩
  | some f =>
    obtain ⟨fn, hfn, hfa⟩ := s.func_node f hf
    obtain ⟨r, hr⟩ := record_isSome (tc.type_info f) fn f hfa
    simp only [s.ast fn hfn f hfa, hr, (record_type_info _ _ _ hr).1]
    cases tc.type_info f with
    | none => exact ⟨st, rfl, s⟩
    | some ret_type =>
      obtain ⟨st1, h1, s1⟩ := stands_for_check_type_compatibility s type_to_string
        (some ret_type) value (Or.inr hv) token
      exact ⟨st1, by simp only [hm, h1, Option.map_some'], s1⟩

theorem stands_for_binary_infer {root : ASTNode} {st : Heap.Checker} {tc tc1 : TypeChecker}
    (s : Heap.stands_for root st tc) (type_to_string : Ty → String) (a : Nat) (token : Token)
    (left right next : ASTNode)
    (hn : ASTNode.NODE_EXPR_BINARY a token left right next ∈ root.nodes)
    (hl : left = .NULL ∨ left ∈ root.nodes) (hr : right = .NULL ∨ right ∈ root.nodes)
    (h : binary_infer type_to_string tc a token left right = some tc1) :
    ∃ st1, Heap.binary_infer type_to_string st a = some st1 ∧
      Heap.stands_for root st1 tc1 := by
  have hm := s.ast _ hn a rfl
  simp only [Heap.record] at hm
  unfold binary_infer at h
  unfold Heap.binary_infer
  simp only [Heap.Checker.payload, hm, Option.map_some']
  cases hla : left.addr with
  | none => simp [TypeChecker.deref_type_info, hla] at h
  | some la =>
    have hlm : left ∈ root.nodes := by
      rcases hl with rfl | hl
      · simp [ASTNode.addr] at hla
      · exact hl
    obtain ⟨rl, hrl⟩ := record_isSome (tc.type_info la) left la hla
    have hlt := (record_type_info _ _ _ hrl).1
    simp only [TypeChecker.deref_type_info, hla] at h
    simp only [Heap.Checker.deref, s.ast left hlm la hla, hrl, hlt]
    cases hT : tc.type_info la with
    | none =>
      simp only [hT, Option.some.injEq] at h
      subst h
      exact ⟨st, rfl, s⟩
    | some T =>
      simp only [hT, Option.some.injEq] at h
      obtain ⟨st2, k2, s2⟩ := stands_for_set_type_info s _ hn a rfl (some T)
      have hm2 := s2.ast _ hn a rfl
      simp only [Heap.record] at hm2
      obtain ⟨rl2, hrl2⟩ := record_isSome ((tc.set_type_info a (some T)).type_info la) left la hla
      have hlt2 := (record_type_info _ _ _ hrl2).1
      obtain ⟨st3, k3, s3⟩ := stands_for_check_type_compatibility s2 type_to_string
        ((tc.set_type_info a (some T)).type_info la) right hr token
      rw [h] at s3
      refine ⟨st3, ?_, s3⟩
      simp only [k2, Option.some_bind, hm2, Heap.Checker.deref, hla, s2.ast left hlm la hla,
        hrl2, hlt2, k3, Option.map_some']

theorem stands_for_call_propagate {root : ASTNode} {st : Heap.Checker} {tc tc1 : TypeChecker}
    (s : Heap.stands_for root st tc) (a : Nat) (token : Token) (callee args next : ASTNode)
    (hn : ASTNode.NODE_EXPR_CALL a token callee args next ∈ root.nodes)
    (hc : callee = .NULL ∨ callee ∈ root.nodes)
    (h : call_propagate tc a callee = some tc1) :
    ∃ st1, Heap.call_propagate st a = some st1 ∧ Heap.stands_for root st1 tc1 := by
  have hm := s.ast _ hn a rfl
  simp only [Heap.record] at hm
  unfold call_propagate at h
  unfold Heap.call_propagate
  simp only [Heap.Checker.payload, hm, Option.map_some']
  cases hca : callee.addr with
  | none => simp [TypeChecker.deref_type_info, hca] at h
  | some ca =>
    have hcm : callee ∈ root.nodes := by
      rcases hc with rfl | hc
      · simp [ASTNode.addr] at hca
      · exact hc
    obtain ⟨rc, hrc⟩ := record_isSome (tc.type_info ca) callee ca hca
    have hct := (record_type_info _ _ _ hrc).1
    simp only [TypeChecker.deref_type_info, hca] at h
    simp only [Heap.Checker.deref, s.ast callee hcm ca hca, hrc, hct]
    cases hT : tc.type_info ca with
    | none =>
      simp only [hT, Option.some.injEq] at h
      subst h
      exact ⟨st, rfl, s⟩
    | some T =>
      simp only [hT, Option.some.injEq] at h
      subst h
      exact stands_for_set_type_info s _ hn a rfl (some T)

theorem stands_for_check_expr_var {root : ASTNode} {st : Heap.Checker} {tc : TypeChecker}
    (s : Heap.stands_for root st tc) (a : Nat) (token : Token) (name : String) (next : ASTNode)
    (hn : ASTNode.NODE_EXPR_VAR a token name next ∈ root.nodes) :
    ∃ st1, Heap.check_expr_var st a = some st1 ∧
      Heap.stands_for root st1 (check_expr_var tc a name) := by
  have hm := s.ast _ hn a rfl
  simp only [Heap.record] at hm
  unfold Heap.check_expr_var check_expr_var
  simp only [Heap.Checker.payload, hm, Option.map_some', Heap.tc_lookup, tc_lookup, s.scope]
  cases lookup_scopes name tc.current_scope with
  | none => exact ⟨st, rfl, s⟩
  | some sym =>
    simp only
    cases sym.type_info with
    | none => exact ⟨st, rfl, s⟩
    | some t => exact stands_for_set_type_info s _ hn a rfl (some t)

theorem stands_for_function_param {root : ASTNode} {st : Heap.Checker} {tc tc1 : TypeChecker}
    (s : Heap.stands_for root st tc) {param_names : Option (List (Option String))}
    {arg_types : Option (List (Option Ty))} {i : Nat}
    (h : function_param param_names arg_types tc i = some tc1) :
    ∃ st1, Heap.function_param param_names arg_types st i = some st1 ∧
      Heap.stands_for root st1 tc1 := by
  unfold function_param at h
  unfold Heap.function_param
  cases param_names with
  | none =>
    simp only [Option.some.injEq] at h
    subst h
    exact ⟨st, rfl, s⟩
  | some names =>
    simp only at h ⊢
    cases hg : names.get? i with
    | none => rw [hg] at h; exact absurd h (by simp)
    | some oname =>
      rw [hg] at h
      cases oname with
      | none =>
        simp only [Option.some.injEq] at h
        subst h
        exact ⟨st, rfl, s⟩
      | some name =>
        simp only at h ⊢
        cases arg_types with
        | none => exact stands_for_add_symbol s h
        | some types =>
          simp only at h ⊢
          cases hg2 : types.get? i with
          | none => rw [hg2] at h; exact absurd h (by simp)
          | some t => rw [hg2] at h; exact stands_for_add_symbol s h

theorem stands_for_function_params {root : ASTNode}
    {param_names : Option (List (Option String))} {arg_types : Option (List (Option Ty))}
    {arg_count : Nat} {st : Heap.Checker} {tc tc1 : TypeChecker}
    (s : Heap.stands_for root st tc)
    (h : function_params param_names arg_types arg_count tc = some tc1) :
    ∃ st1, Heap.function_params param_names arg_types arg_count st = some st1 ∧
      Heap.stands_for root st1 tc1 := by
  unfold function_params at h
  unfold Heap.function_params
  generalize List.range arg_count = l at h
  induction l generalizing st tc with
  | nil =>
    simp only [List.foldlM_nil, Option.pure_def, Option.some.injEq] at h
    subst h
    exact ⟨st, rfl, s⟩
  | cons i l ih =>
    simp only [List.foldlM_cons, Option.bind_eq_bind, Option.bind_eq_some] at h
    obtain ⟨tc2, h2, h3⟩ := h
    obtain ⟨st2, k2, s2⟩ := stands_for_function_param s h2
    obtain ⟨st3, k3, s3⟩ := ih s2 h3
    exact ⟨st3, by simp only [List.foldlM_cons, Option.bind_eq_bind, k2, Option.some_bind, k3],
      s3⟩

theorem stands_for_current_func {root : ASTNode} {st : Heap.Checker} {tc : TypeChecker}
    (s : Heap.stands_for root st tc) (f : Option Nat)
    (hf : ∀ a, f = some a → ∃ n ∈ root.nodes, n.addr = some a) :
    Heap.stands_for root { st with current_func := f } { tc with current_func := f } :=
  ⟨s.pctx, s.scope, rfl, s.errors, s.stderr, s.ast, hf⟩

/-- What follows the `switch` of `check_node`, and the step of the loop of
`check_block`: the walk over the memory reads `node->next` and goes on as the
walk over the tree does. -/
theorem heap_follows_tail {type_to_string : Ty → String} {root n next : ASTNode} {a : Nat}
    (hn : n ∈ root.nodes) (ha : n.addr = some a) (hnx : n.next = next)
    (ihn : ∀ (loop : Bool) (fuel : Nat) (st : Heap.Checker) (tc tc1 : TypeChecker),
      Heap.stands_for root st tc → next.height ≤ fuel →
      check_node_aux type_to_string loop tc next = some tc1 →
      ∃ st1, Heap.check_node_aux type_to_string fuel loop st next.addr = some st1 ∧
        Heap.stands_for root st1 tc1)
    {loop : Bool} {fuel : Nat} (hf : next.height ≤ fuel) {s1 : Heap.Checker}
    {t1 t2 tc1 : TypeChecker} (S1 : Heap.stands_for root s1 t1)
    (h2 : check_node_aux type_to_string false t1 next = some t2)
    (h3 : (if loop then check_node_aux type_to_string true t2 next else some t2) = some tc1) :
    ∃ st1, ((s1.ast a).bind fun node =>
        (Heap.check_node_aux type_to_string fuel false s1 node.next).bind fun st2 =>
          if loop = true then
            (st2.ast a).bind fun node => Heap.check_node_aux type_to_string fuel true st2 node.next
          else some st2) = some st1 ∧ Heap.stands_for root st1 tc1 := by
  obtain ⟨r1, hr1⟩ := record_isSome (t1.type_info a) n a ha
  have hx1 := (record_type_info _ _ _ hr1).2
  rw [hnx] at hx1
  obtain ⟨s2, k2, S2⟩ := ihn false fuel s1 t1 t2 S1 hf h2
  obtain ⟨r2, hr2⟩ := record_isSome (t2.type_info a) n a ha
  have hx2 := (record_type_info _ _ _ hr2).2
  rw [hnx] at hx2
  cases loop with
  | false =>
    simp only [Bool.false_eq_true, if_false, Option.some.injEq] at h3
    subst h3
    refine ⟨s2, ?_, S2⟩
    simp only [S1.ast n hn a ha, hr1, Option.some_bind, hx1, k2, Bool.false_eq_true, if_false]
  | true =>
    simp only [if_true] at h3
    obtain ⟨s3, k3, S3⟩ := ihn true fuel s2 t2 tc1 S2 hf h3
    refine ⟨s3, ?_, S3⟩
    simp only [S1.ast n hn a ha, hr1, Option.some_bind, hx1, k2, if_true, S2.ast n hn a ha, hr2,
      hx2, k3]

theorem is_null_iff_addr (n : ASTNode) : n.is_null = true ↔ n.addr = none := by
  cases n <;> simp [ASTNode.is_null, ASTNode.addr]

/-- Enough fuel gives the result: when the tree `root` lies in the memory, the
walk over the memory from the address of one of its nodes, with at least as
much fuel as the node is high, returns whenever the walk over the tree does,
and the state it leaves stands for the state the walk over the tree leaves. -/
theorem heap_follows_tree (type_to_string : Ty → String) (root node : ASTNode) :
    ∀ (loop : Bool) (fuel : Nat) (st : Heap.Checker) (tc tc1 : TypeChecker),
      (∀ x ∈ node.nodes, x ∈ root.nodes) → Heap.stands_for root st tc → node.height ≤ fuel →
      check_node_aux type_to_string loop tc node = some tc1 →
      ∃ st1, Heap.check_node_aux type_to_string fuel loop st node.addr = some st1 ∧
        Heap.stands_for root st1 tc1 := by
  induction node with
  | NULL =>
    intro loop fuel st tc tc1 _ s _ h
    simp only [check_node_aux, Option.some.injEq] at h
    subst h
    exact ⟨st, heap_check_node_aux_null _ _ _ _, s⟩
  | NODE_ROOT a tok children next ihc ihn =>
    intro loop fuel st tc tc1 hsub s hf h
    rw [show (ASTNode.NODE_ROOT a tok children next).addr = some a from rfl]
    simp only [ASTNode.height] at hf
    obtain ⟨f, rfl⟩ : ∃ f, fuel = f + 1 := ⟨fuel - 1, by omega⟩
    have hself : ASTNode.NODE_ROOT a tok children next ∈ root.nodes :=
      hsub _ (by simp [ASTNode.nodes])
    have hsc : ∀ x ∈ children.nodes, x ∈ root.nodes :=
      fun x hx => hsub x (by simp [ASTNode.nodes, hx])
    have hsn : ∀ x ∈ next.nodes, x ∈ root.nodes :=
      fun x hx => hsub x (by simp [ASTNode.nodes, hx])
    rw [check_node_aux_loop] at h
    simp only [check_node_aux, Option.bind_eq_bind, Option.bind_eq_some, Bool.false_eq_true,
      if_false, Option.pure_def, Option.some.injEq, ASTNode.next] at h
    obtain ⟨t3, ⟨t1, h1, t2, h2, rfl⟩, h3⟩ := h
    have hm := s.ast _ hself a rfl
    obtain ⟨s1, k1, S1⟩ := ihc false f st tc t1 hsc s (by omega) h1
    obtain ⟨s3, k3, S3⟩ := heap_follows_tail hself rfl rfl
      (fun loop fuel st tc tc1 S hf h => ihn loop fuel st tc tc1 hsn S hf h)
      (show next.height ≤ f by omega) S1 h2 h3
    refine ⟨s3, ?_, S3⟩
    simp only [Heap.check_node_aux, Heap.Checker.payload, Heap.Checker.read, hm,
      Heap.record, Option.map_some', Option.some_bind, Heap.Payload.root_children, k1]
    exact k3
  | NODE_BLOCK a tok statements next ihs ihn =>
    intro loop fuel st tc tc1 hsub s hf h
    rw [show (ASTNode.NODE_BLOCK a tok statements next).addr = some a from rfl]
    simp only [ASTNode.height] at hf
    obtain ⟨f, rfl⟩ : ∃ f, fuel = f + 1 := ⟨fuel - 1, by omega⟩
    have hself : ASTNode.NODE_BLOCK a tok statements next ∈ root.nodes :=
      hsub _ (by simp [ASTNode.nodes])
    have hsc : ∀ x ∈ statements.nodes, x ∈ root.nodes :=
      fun x hx => hsub x (by simp [ASTNode.nodes, hx])
    have hsn : ∀ x ∈ next.nodes, x ∈ root.nodes :=
      fun x hx => hsub x (by simp [ASTNode.nodes, hx])
    rw [check_node_aux_loop] at h
    simp only [check_node_aux, Option.bind_eq_bind, Option.bind_eq_some, Bool.false_eq_true,
      if_false, Option.pure_def, Option.some.injEq, ASTNode.next] at h
    obtain ⟨t3, ⟨t1, h1, t2, h2, rfl⟩, h3⟩ := h
    have hm := s.ast _ hself a rfl
    obtain ⟨s1, k1, S1⟩ := ihs true f _ _ t1 hsc (stands_for_enter s) (by omega) h1
    obtain ⟨s3, k3, S3⟩ := heap_follows_tail hself rfl rfl
      (fun loop fuel st tc tc1 S hf h => ihn loop fuel st tc tc1 hsn S hf h)
      (show next.height ≤ f by omega) (stands_for_exit S1) h2 h3
    refine ⟨s3, ?_, S3⟩
    simp only [Heap.check_node_aux, Heap.Checker.payload, Heap.Checker.read, hm,
      Heap.record, Option.map_some', Option.some_bind, Heap.Payload.block_statements, k1]
    exact k3
  | NODE_VAR_DECL a tok name init next ihi ihn =>
    intro loop fuel st tc tc1 hsub s hf h
    rw [show (ASTNode.NODE_VAR_DECL a tok name init next).addr = some a from rfl]
    simp only [ASTNode.height] at hf
    obtain ⟨f, rfl⟩ : ∃ f, fuel = f + 1 := ⟨fuel - 1, by omega⟩
    have hself : ASTNode.NODE_VAR_DECL a tok name init next ∈ root.nodes :=
      hsub _ (by simp [ASTNode.nodes])
    have hsc : ∀ x ∈ init.nodes, x ∈ root.nodes :=
      fun x hx => hsub x (by simp [ASTNode.nodes, hx])
    have hsn : ∀ x ∈ next.nodes, x ∈ root.nodes :=
      fun x hx => hsub x (by simp [ASTNode.nodes, hx])
    have hinit : init = .NULL ∨ init ∈ root.nodes :=
      (null_or_mem init).imp id (hsc init)
    rw [check_node_aux_loop] at h
    simp only [check_node_aux, Option.bind_eq_bind, Option.bind_eq_some, Bool.false_eq_true,
      if_false, Option.pure_def, Option.some.injEq, ASTNode.next] at h
    obtain ⟨t4, ⟨t1, h1, t2, h2, t3, h3, rfl⟩, h4⟩ := h
    have hm := s.ast _ hself a rfl
    cases hia : init.addr with
    | none =>
      have hnull : init = .NULL := (addr_eq_none_iff init).mp hia
      subst hnull
      simp only [check_node_aux, Option.some.injEq] at h1
      subst h1
      have hc : var_decl_compat type_to_string tc a tok .NULL = tc := by
        simp [var_decl_compat, ASTNode.is_null]
      rw [hc] at h2
      obtain ⟨s2, k2, S2⟩ := stands_for_var_decl_publish s a tok name .NULL next hself
        (Or.inl rfl) h2
      obtain ⟨s3, k3, S3⟩ := heap_follows_tail hself rfl rfl
        (fun loop fuel st tc tc1 S hf h => ihn loop fuel st tc tc1 hsn S hf h)
        (show next.height ≤ f by omega) S2 h3 h4
      refine ⟨s3, ?_, S3⟩
      simp only [Heap.check_node_aux, Heap.Checker.payload, Heap.Checker.read, hm,
        Heap.record, Option.map_some', Option.some_bind, Heap.Payload.var_decl_init_expr, k2]
      exact k3
    | some ia =>
      have hmem : init ∈ root.nodes := by
        rcases hinit with rfl | hi
        · simp [ASTNode.addr] at hia
        · exact hi
      have hnn : init.is_null = false := is_null_of_addr hia
      obtain ⟨s1, k1, S1⟩ := ihi false f st tc t1 hsc s (by omega) h1
      obtain ⟨s1c, k1c, S1c⟩ := stands_for_var_decl_compat S1 type_to_string a tok name init
        next hself hmem hnn
      obtain ⟨s2, k2, S2⟩ := stands_for_var_decl_publish S1c a tok name init next hself
        hinit h2
      obtain ⟨s3, k3, S3⟩ := heap_follows_tail hself rfl rfl
        (fun loop fuel st tc tc1 S hf h => ihn loop fuel st tc tc1 hsn S hf h)
        (show next.height ≤ f by omega) S2 h3 h4
      refine ⟨s3, ?_, S3⟩
      rw [hia] at k1
      simp only [Heap.check_node_aux, Heap.Checker.payload, Heap.Checker.read, hm,
        Heap.record, Option.map_some', Option.some_bind, Heap.Payload.var_decl_init_expr, hia,
        k1, k1c, k2]
      exact k3
  | NODE_FUNCTION a tok param_names arg_types arg_count body next ihb ihn =>
    intro loop fuel st tc tc1 hsub s hf h
    rw [show (ASTNode.NODE_FUNCTION a tok param_names arg_types arg_count body next).addr = some a from rfl]
    simp only [ASTNode.height] at hf
    obtain ⟨f, rfl⟩ : ∃ f, fuel = f + 1 := ⟨fuel - 1, by omega⟩
    have hself : ASTNode.NODE_FUNCTION a tok param_names arg_types arg_count body next ∈ root.nodes :=
      hsub _ (by simp [ASTNode.nodes])
    have hsc : ∀ x ∈ body.nodes, x ∈ root.nodes :=
      fun x hx => hsub x (by simp [ASTNode.nodes, hx])
    have hsn : ∀ x ∈ next.nodes, x ∈ root.nodes :=
      fun x hx => hsub x (by simp [ASTNode.nodes, hx])
    rw [check_node_aux_loop] at h
    simp only [check_node_aux, Option.bind_eq_bind, Option.bind_eq_some, Bool.false_eq_true,
      if_false, Option.pure_def, Option.some.injEq, ASTNode.next] at h
    obtain ⟨t4, ⟨t1, h1, t2, h2, t3, h3, rfl⟩, h4⟩ := h
    have hm := s.ast _ hself a rfl
    have S0 : Heap.stands_for root
        (Heap.tc_enter_scope { st with current_func := some a })
        (tc_enter_scope { tc with current_func := some a }) :=
      stands_for_enter (stands_for_current_func s (some a) (fun b hb => by
        simp only [Option.some.injEq] at hb
        subst hb
        exact ⟨_, hself, rfl⟩))
    obtain ⟨s1, k1, S1⟩ := stands_for_function_params S0 h1
    have hm1 := S1.ast _ hself a rfl
    obtain ⟨s2, k2, S2⟩ := ihb false f s1 t1 t2 hsc S1 (by omega) h2
    have S2x : Heap.stands_for root { Heap.tc_exit_scope s2 with current_func := none }
        { tc_exit_scope t2 with current_func := none } :=
      stands_for_current_func (stands_for_exit S2) none (fun b hb => by simp at hb)
    obtain ⟨s3, k3, S3⟩ := heap_follows_tail hself rfl rfl
      (fun loop fuel st tc tc1 S hf h => ihn loop fuel st tc tc1 hsn S hf h)
      (show next.height ≤ f by omega) S2x h3 h4
    refine ⟨s3, ?_, S3⟩
    simp only [Heap.check_node_aux, Heap.Checker.payload, Heap.Checker.read, hm,
      hm1, Heap.record, Option.map_some', Option.some_bind, Heap.Payload.func_body, k1, k2]
    exact k3
  | NODE_EXPR_VAR a tok name next ihn =>
    intro loop fuel st tc tc1 hsub s hf h
    rw [show (ASTNode.NODE_EXPR_VAR a tok name next).addr = some a from rfl]
    simp only [ASTNode.height] at hf
    obtain ⟨f, rfl⟩ : ∃ f, fuel = f + 1 := ⟨fuel - 1, by omega⟩
    have hself : ASTNode.NODE_EXPR_VAR a tok name next ∈ root.nodes :=
      hsub _ (by simp [ASTNode.nodes])
    have hsn : ∀ x ∈ next.nodes, x ∈ root.nodes :=
      fun x hx => hsub x (by simp [ASTNode.nodes, hx])
    rw [check_node_aux_loop] at h
    simp only [check_node_aux, Option.bind_eq_bind, Option.bind_eq_some, Bool.false_eq_true,
      if_false, Option.pure_def, Option.some.injEq, ASTNode.next] at h
    obtain ⟨t2, ⟨t1, h1, rfl⟩, h2⟩ := h
    have hm := s.ast _ hself a rfl
    obtain ⟨s1, k1, S1⟩ := stands_for_check_expr_var s a tok name next hself
    obtain ⟨s3, k3, S3⟩ := heap_follows_tail hself rfl rfl
      (fun loop fuel st tc tc1 S hf h => ihn loop fuel st tc tc1 hsn S hf h)
      (show next.height ≤ f by omega) S1 h1 h2
    refine ⟨s3, ?_, S3⟩
    simp only [Heap.check_node_aux, Heap.Checker.payload, Heap.Checker.read, hm,
      Heap.record, Option.map_some', Option.some_bind, k1]
    exact k3
  | NODE_RETURN a tok value next ihv ihn =>
    intro loop fuel st tc tc1 hsub s hf h
    rw [show (ASTNode.NODE_RETURN a tok value next).addr = some a from rfl]
    simp only [ASTNode.height] at hf
    obtain ⟨f, rfl⟩ : ∃ f, fuel = f + 1 := ⟨fuel - 1, by omega⟩
    have hself : ASTNode.NODE_RETURN a tok value next ∈ root.nodes :=
      hsub _ (by simp [ASTNode.nodes])
    have hsc : ∀ x ∈ value.nodes, x ∈ root.nodes :=
      fun x hx => hsub x (by simp [ASTNode.nodes, hx])
    have hsn : ∀ x ∈ next.nodes, x ∈ root.nodes :=
      fun x hx => hsub x (by simp [ASTNode.nodes, hx])
    rw [check_node_aux_loop] at h
    simp only [check_node_aux, Option.bind_eq_bind, Option.bind_eq_some, Bool.false_eq_true,
      if_false, Option.pure_def, Option.some.injEq, ASTNode.next] at h
    obtain ⟨t3, ⟨t1, h1, t2, h2, rfl⟩, h3⟩ := h
    have hm := s.ast _ hself a rfl
    cases hva : value.addr with
    | none =>
      have hnull : value = .NULL := (addr_eq_none_iff value).mp hva
      subst hnull
      simp only [check_node_aux, Option.some.injEq] at h1
      subst h1
      have hc : return_compat type_to_string tc tok .NULL = tc := by
        simp [return_compat, ASTNode.is_null]
      rw [hc] at h2
      obtain ⟨s3, k3, S3⟩ := heap_follows_tail hself rfl rfl
        (fun loop fuel st tc tc1 S hf h => ihn loop fuel st tc tc1 hsn S hf h)
        (show next.height ≤ f by omega) s h2 h3
      refine ⟨s3, ?_, S3⟩
      simp only [hm, Heap.record, Option.some_bind] at k3
      have hz : ASTNode.NULL.addr = none := rfl
      simp only [Heap.check_node_aux, Heap.Checker.payload, Heap.Checker.read, hm,
        Heap.record, Option.map_some', Option.some_bind, Heap.Payload.ret_value, hz]
      exact k3
    | some va =>
      have hmem : value ∈ root.nodes := hsc value (nodes_self value va hva)
      have hnn : value.is_null = false := is_null_of_addr hva
      obtain ⟨s1, k1, S1⟩ := ihv false f st tc t1 hsc s (by omega) h1
      obtain ⟨s2, k2, S2⟩ := stands_for_return_compat S1 type_to_string a tok value next hself
        hmem hnn
      obtain ⟨s3, k3, S3⟩ := heap_follows_tail hself rfl rfl
        (fun loop fuel st tc tc1 S hf h => ihn loop fuel st tc tc1 hsn S hf h)
        (show next.height ≤ f by omega) S2 h2 h3
      refine ⟨s3, ?_, S3⟩
      rw [hva] at k1
      simp only [Heap.check_node_aux, Heap.Checker.payload, Heap.Checker.read, hm,
        Heap.record, Option.map_some', Option.some_bind, Heap.Payload.ret_value, hva, k1, k2]
      exact k3
  | NODE_IF a tok condition then_body else_body next ihc iht ihe ihn =>
    intro loop fuel st tc tc1 hsub s hf h
    rw [show (ASTNode.NODE_IF a tok condition then_body else_body next).addr = some a from rfl]
    simp only [ASTNode.height] at hf
    obtain ⟨f, rfl⟩ : ∃ f, fuel = f + 1 := ⟨fuel - 1, by omega⟩
    have hself : ASTNode.NODE_IF a tok condition then_body else_body next ∈ root.nodes :=
      hsub _ (by simp [ASTNode.nodes])
    have hs1 : ∀ x ∈ condition.nodes, x ∈ root.nodes :=
      fun x hx => hsub x (by simp [ASTNode.nodes, hx])
    have hs2 : ∀ x ∈ then_body.nodes, x ∈ root.nodes :=
      fun x hx => hsub x (by simp [ASTNode.nodes, hx])
    have hs3 : ∀ x ∈ else_body.nodes, x ∈ root.nodes :=
      fun x hx => hsub x (by simp [ASTNode.nodes, hx])
    have hsn : ∀ x ∈ next.nodes, x ∈ root.nodes :=
      fun x hx => hsub x (by simp [ASTNode.nodes, hx])
    rw [check_node_aux_loop] at h
    simp only [check_node_aux, Option.bind_eq_bind, Option.bind_eq_some, Bool.false_eq_true,
      if_false, Option.pure_def, Option.some.injEq, ASTNode.next] at h
    obtain ⟨t5, ⟨t1, h1, t2, h2, t3, h3, t4, h4, rfl⟩, h5⟩ := h
    have hm := s.ast _ hself a rfl
    obtain ⟨s1, k1, S1⟩ := ihc false f st tc t1 hs1 s (by omega) h1
    have hm1 := S1.ast _ hself a rfl
    obtain ⟨s2, k2, S2⟩ := iht false f s1 t1 t2 hs2 S1 (by omega) h2
    have hm2 := S2.ast _ hself a rfl
    obtain ⟨s3, k3, S3⟩ := ihe false f s2 t2 t3 hs3 S2 (by omega) h3
    obtain ⟨s4, k4, S4⟩ := heap_follows_tail hself rfl rfl
      (fun loop fuel st tc tc1 S hf h => ihn loop fuel st tc tc1 hsn S hf h)
      (show next.height ≤ f by omega) S3 h4 h5
    refine ⟨s4, ?_, S4⟩
    simp only [Heap.check_node_aux, Heap.Checker.payload, Heap.Checker.read, hm,
      hm1, hm2, Heap.record, Option.map_some', Option.some_bind,
      Heap.Payload.if_stmt_condition, Heap.Payload.if_stmt_then_body,
      Heap.Payload.if_stmt_else_body, k1, k2, k3]
    exact k4
  | NODE_WHILE a tok condition body next ihc ihb ihn =>
    intro loop fuel st tc tc1 hsub s hf h
    rw [show (ASTNode.NODE_WHILE a tok condition body next).addr = some a from rfl]
    simp only [ASTNode.height] at hf
    obtain ⟨f, rfl⟩ : ∃ f, fuel = f + 1 := ⟨fuel - 1, by omega⟩
    have hself : ASTNode.NODE_WHILE a tok condition body next ∈ root.nodes :=
      hsub _ (by simp [ASTNode.nodes])
    have hs1 : ∀ x ∈ condition.nodes, x ∈ root.nodes :=
      fun x hx => hsub x (by simp [ASTNode.nodes, hx])
    have hs2 : ∀ x ∈ body.nodes, x ∈ root.nodes :=
      fun x hx => hsub x (by simp [ASTNode.nodes, hx])
    have hsn : ∀ x ∈ next.nodes, x ∈ root.nodes :=
      fun x hx => hsub x (by simp [ASTNode.nodes, hx])
    rw [check_node_aux_loop] at h
    simp only [check_node_aux, Option.bind_eq_bind, Option.bind_eq_some, Bool.false_eq_true,
      if_false, Option.pure_def, Option.some.injEq, ASTNode.next] at h
    obtain ⟨t4, ⟨t1, h1, t2, h2, t3, h3, rfl⟩, h4⟩ := h
    have hm := s.ast _ hself a rfl
    obtain ⟨s1, k1, S1⟩ := ihc false f st tc t1 hs1 s (by omega) h1
    have hm1 := S1.ast _ hself a rfl
    obtain ⟨s2, k2, S2⟩ := ihb false f s1 t1 t2 hs2 S1 (by omega) h2
    obtain ⟨s4, k4, S4⟩ := heap_follows_tail hself rfl rfl
      (fun loop fuel st tc tc1 S hf h => ihn loop fuel st tc tc1 hsn S hf h)
      (show next.height ≤ f by omega) S2 h3 h4
    refine ⟨s4, ?_, S4⟩
    simp only [Heap.check_node_aux, Heap.Checker.payload, Heap.Checker.read, hm,
      hm1, Heap.record, Option.map_some', Option.some_bind,
      Heap.Payload.while_stmt_condition, Heap.Payload.while_stmt_body, k1, k2]
    exact k4
  | NODE_FOR a tok init condition step body next ihi ihc ihs ihb ihn =>
    intro loop fuel st tc tc1 hsub s hf h
    rw [show (ASTNode.NODE_FOR a tok init condition step body next).addr = some a from rfl]
    simp only [ASTNode.height] at hf
    obtain ⟨f, rfl⟩ : ∃ f, fuel = f + 1 := ⟨fuel - 1, by omega⟩
    have hself : ASTNode.NODE_FOR a tok init condition step body next ∈ root.nodes :=
      hsub _ (by simp [ASTNode.nodes])
    have hs1 : ∀ x ∈ init.nodes, x ∈ root.nodes :=
      fun x hx => hsub x (by simp [ASTNode.nodes, hx])
    have hs2 : ∀ x ∈ condition.nodes, x ∈ root.nodes :=
      fun x hx => hsub x (by simp [ASTNode.nodes, hx])
    have hs3 : ∀ x ∈ step.nodes, x ∈ root.nodes :=
      fun x hx => hsub x (by simp [ASTNode.nodes, hx])
    have hs4 : ∀ x ∈ body.nodes, x ∈ root.nodes :=
      fun x hx => hsub x (by simp [ASTNode.nodes, hx])
    have hsn : ∀ x ∈ next.nodes, x ∈ root.nodes :=
      fun x hx => hsub x (by simp [ASTNode.nodes, hx])
    rw [check_node_aux_loop] at h
    simp only [check_node_aux, Option.bind_eq_bind, Option.bind_eq_some, Bool.false_eq_true,
      if_false, Option.pure_def, Option.some.injEq, ASTNode.next] at h
    obtain ⟨t6, ⟨t1, h1, t2, h2, t3, h3, t4, h4, t5, h5, rfl⟩, h6⟩ := h
    have hm := s.ast _ hself a rfl
    obtain ⟨s1, k1, S1⟩ := ihi false f _ _ t1 hs1 (stands_for_enter s) (by omega) h1
    have hm1 := S1.ast _ hself a rfl
    obtain ⟨s2, k2, S2⟩ := ihc false f s1 t1 t2 hs2 S1 (by omega) h2
    have hm2 := S2.ast _ hself a rfl
    obtain ⟨s3, k3, S3⟩ := ihs false f s2 t2 t3 hs3 S2 (by omega) h3
    have hm3 := S3.ast _ hself a rfl
    obtain ⟨s4, k4, S4⟩ := ihb false f s3 t3 t4 hs4 S3 (by omega) h4
    obtain ⟨s5, k5, S5⟩ := heap_follows_tail hself rfl rfl
      (fun loop fuel st tc tc1 S hf h => ihn loop fuel st tc tc1 hsn S hf h)
      (show next.height ≤ f by omega) (stands_for_exit S4) h5 h6
    refine ⟨s5, ?_, S5⟩
    simp only [Heap.check_node_aux, Heap.Checker.payload, Heap.Checker.read, hm,
      hm1, hm2, hm3, Heap.record, Option.map_some', Option.some_bind,
      Heap.Payload.for_stmt_init, Heap.Payload.for_stmt_condition, Heap.Payload.for_stmt_step,
      Heap.Payload.for_stmt_body, k1, k2, k3, k4]
    exact k5
  | NODE_EXPR_BINARY a tok left right next ihl ihr ihn =>
    intro loop fuel st tc tc1 hsub s hf h
    rw [show (ASTNode.NODE_EXPR_BINARY a tok left right next).addr = some a from rfl]
    simp only [ASTNode.height] at hf
    obtain ⟨f, rfl⟩ : ∃ f, fuel = f + 1 := ⟨fuel - 1, by omega⟩
    have hself : ASTNode.NODE_EXPR_BINARY a tok left right next ∈ root.nodes :=
      hsub _ (by simp [ASTNode.nodes])
    have hs1 : ∀ x ∈ left.nodes, x ∈ root.nodes :=
      fun x hx => hsub x (by simp [ASTNode.nodes, hx])
    have hs2 : ∀ x ∈ right.nodes, x ∈ root.nodes :=
      fun x hx => hsub x (by simp [ASTNode.nodes, hx])
    have hsn : ∀ x ∈ next.nodes, x ∈ root.nodes :=
      fun x hx => hsub x (by simp [ASTNode.nodes, hx])
    rw [check_node_aux_loop] at h
    simp only [check_node_aux, Option.bind_eq_bind, Option.bind_eq_some, Bool.false_eq_true,
      if_false, Option.pure_def, Option.some.injEq, ASTNode.next] at h
    obtain ⟨t5, ⟨t1, h1, t2, h2, t3, h3, t4, h4, rfl⟩, h5⟩ := h
    have hm := s.ast _ hself a rfl
    obtain ⟨s1, k1, S1⟩ := ihl false f st tc t1 hs1 s (by omega) h1
    have hm1 := S1.ast _ hself a rfl
    obtain ⟨s2, k2, S2⟩ := ihr false f s1 t1 t2 hs2 S1 (by omega) h2
    obtain ⟨s3, k3, S3⟩ := stands_for_binary_infer S2 type_to_string a tok left right next
      hself ((null_or_mem left).imp id (hs1 left)) ((null_or_mem right).imp id (hs2 right)) h3
    obtain ⟨s4, k4, S4⟩ := heap_follows_tail hself rfl rfl
      (fun loop fuel st tc tc1 S hf h => ihn loop fuel st tc tc1 hsn S hf h)
      (show next.height ≤ f by omega) S3 h4 h5
    refine ⟨s4, ?_, S4⟩
    simp only [Heap.check_node_aux, Heap.Checker.payload, Heap.Checker.read, hm,
      hm1, Heap.record, Option.map_some', Option.some_bind, Heap.Payload.binary_left,
      Heap.Payload.binary_right, k1, k2, k3]
    exact k4
  | NODE_EXPR_CALL a tok callee args next ihc iha ihn =>
    intro loop fuel st tc tc1 hsub s hf h
    rw [show (ASTNode.NODE_EXPR_CALL a tok callee args next).addr = some a from rfl]
    simp only [ASTNode.height] at hf
    obtain ⟨f, rfl⟩ : ∃ f, fuel = f + 1 := ⟨fuel - 1, by omega⟩
    have hself : ASTNode.NODE_EXPR_CALL a tok callee args next ∈ root.nodes :=
      hsub _ (by simp [ASTNode.nodes])
    have hs1 : ∀ x ∈ callee.nodes, x ∈ root.nodes :=
      fun x hx => hsub x (by simp [ASTNode.nodes, hx])
    have hs2 : ∀ x ∈ args.nodes, x ∈ root.nodes :=
      fun x hx => hsub x (by simp [ASTNode.nodes, hx])
    have hsn : ∀ x ∈ next.nodes, x ∈ root.nodes :=
      fun x hx => hsub x (by simp [ASTNode.nodes, hx])
    rw [check_node_aux_loop] at h
    simp only [check_node_aux, Option.bind_eq_bind, Option.bind_eq_some, Bool.false_eq_true,
      if_false, Option.pure_def, Option.some.injEq, ASTNode.next] at h
    obtain ⟨t5, ⟨t1, h1, t2, h2, t3, h3, t4, h4, rfl⟩, h5⟩ := h
    have hm := s.ast _ hself a rfl
    obtain ⟨s1, k1, S1⟩ := ihc false f st tc t1 hs1 s (by omega) h1
    have hm1 := S1.ast _ hself a rfl
    obtain ⟨s2, k2, S2⟩ := iha false f s1 t1 t2 hs2 S1 (by omega) h2
    obtain ⟨s3, k3, S3⟩ := stands_for_call_propagate S2 a tok callee args next hself
      ((null_or_mem callee).imp id (hs1 callee)) h3
    obtain ⟨s4, k4, S4⟩ := heap_follows_tail hself rfl rfl
      (fun loop fuel st tc tc1 S hf h => ihn loop fuel st tc tc1 hsn S hf h)
      (show next.height ≤ f by omega) S3 h4 h5
    refine ⟨s4, ?_, S4⟩
    simp only [Heap.check_node_aux, Heap.Checker.payload, Heap.Checker.read, hm,
      hm1, Heap.record, Option.map_some', Option.some_bind, Heap.Payload.call_callee,
      Heap.Payload.call_args, k1, k2, k3]
    exact k4
  | NODE_EXPR_LITERAL a tok string_val type_kind next ihn =>
    intro loop fuel st tc tc1 hsub s hf h
    rw [show (ASTNode.NODE_EXPR_LITERAL a tok string_val type_kind next).addr = some a from rfl]
    simp only [ASTNode.height] at hf
    obtain ⟨f, rfl⟩ : ∃ f, fuel = f + 1 := ⟨fuel - 1, by omega⟩
    have hself : ASTNode.NODE_EXPR_LITERAL a tok string_val type_kind next ∈ root.nodes :=
      hsub _ (by simp [ASTNode.nodes])
    have hsn : ∀ x ∈ next.nodes, x ∈ root.nodes :=
      fun x hx => hsub x (by simp [ASTNode.nodes, hx])
    rw [check_node_aux_loop] at h
    simp only [check_node_aux, Option.bind_eq_bind, Option.bind_eq_some, Bool.false_eq_true,
      if_false, Option.pure_def, Option.some.injEq, ASTNode.next] at h
    obtain ⟨t2, ⟨t1, h1, rfl⟩, h2⟩ := h
    have hm := s.ast _ hself a rfl
    obtain ⟨s3, k3, S3⟩ := heap_follows_tail hself rfl rfl
      (fun loop fuel st tc tc1 S hf h => ihn loop fuel st tc tc1 hsn S hf h)
      (show next.height ≤ f by omega) s h1 h2
    refine ⟨s3, ?_, S3⟩
    simp only [hm, Heap.record, Option.some_bind] at k3
    simp only [Heap.check_node_aux, Heap.Checker.payload, Heap.Checker.read, hm,
      Heap.record, Option.map_some', Option.some_bind]
    exact k3
  | NODE_EXPR_UNARY a tok operand next _ ihn =>
    intro loop fuel st tc tc1 hsub s hf h
    rw [show (ASTNode.NODE_EXPR_UNARY a tok operand next).addr = some a from rfl]
    simp only [ASTNode.height] at hf
    obtain ⟨f, rfl⟩ : ∃ f, fuel = f + 1 := ⟨fuel - 1, by omega⟩
    have hself : ASTNode.NODE_EXPR_UNARY a tok operand next ∈ root.nodes :=
      hsub _ (by simp [ASTNode.nodes])
    have hsn : ∀ x ∈ next.nodes, x ∈ root.nodes :=
      fun x hx => hsub x (by simp [ASTNode.nodes, hx])
    rw [check_node_aux_loop] at h
    simp only [check_node_aux, Option.bind_eq_bind, Option.bind_eq_some, Bool.false_eq_true,
      if_false, Option.pure_def, Option.some.injEq, ASTNode.next] at h
    obtain ⟨t2, ⟨t1, h1, rfl⟩, h2⟩ := h
    have hm := s.ast _ hself a rfl
    obtain ⟨s3, k3, S3⟩ := heap_follows_tail hself rfl rfl
      (fun loop fuel st tc tc1 S hf h => ihn loop fuel st tc tc1 hsn S hf h)
      (show next.height ≤ f by omega) s h1 h2
    refine ⟨s3, ?_, S3⟩
    simp only [hm, Heap.record, Option.some_bind] at k3
    simp only [Heap.check_node_aux, Heap.Checker.payload, Heap.Checker.read, hm,
      Heap.record, Option.map_some', Option.some_bind]
    exact k3

theorem laid_out_node {m : Nat → Option Heap.Node} {types : Nat → Option Ty} {root : ASTNode}
    (h : Heap.laid_out m types root = true) (n : ASTNode) (hn : n ∈ root.nodes) (a : Nat)
    (ha : n.addr = some a) : m a = Heap.record (types a) n := by
  simp only [Heap.laid_out, List.all_eq_true, decide_eq_true_eq] at h
  have := h n hn
  simpa only [ha, Option.some_bind] using this

theorem stands_for_laid_out {root : ASTNode} {st : Heap.Checker} {tc : TypeChecker}
    (s : Heap.stands_for root st tc) : Heap.laid_out st.ast tc.type_info root = true := by
  simp only [Heap.laid_out, List.all_eq_true, decide_eq_true_eq]
  intro n hn
  cases ha : n.addr with
  | none => rfl
  | some a => simp only [Option.some_bind, s.ast n hn a ha]

/-- The pass over a tree that lies in memory: with as much fuel as the tree is
high, `check_program` over the memory returns whenever `check_program` over the
tree does, with the same status, the same diagnostics and counter, and a memory
in which the tree lies as it did, annotated as the pass over the tree says. -/
theorem heap_check_program_follows (type_to_string : Ty → String) (ctx : ParserContext)
    (types : Nat → Option Ty) (m : Nat → Option Heap.Node) (root : ASTNode) (o : Outcome)
    (hm : Heap.laid_out m types root = true)
    (h : check_program type_to_string ctx types root = some o) :
    ∃ st1, Heap.check_program type_to_string root.height ctx m root.addr =
        some (o.status, st1) ∧
      Heap.stands_for root st1 o.tc := by
  simp only [check_program, Option.map_eq_some'] at h
  obtain ⟨tc, htc, ho⟩ := h
  have s0 : Heap.stands_for root (Heap.initial_checker ctx m) (initial_checker ctx types) :=
    ⟨rfl, rfl, rfl, rfl, rfl, fun n hn a ha => laid_out_node hm n hn a ha,
      fun f hf => by simp [initial_checker] at hf⟩
  obtain ⟨st1, k1, s1⟩ := heap_follows_tree type_to_string root root false root.height _ _ tc
    (fun x hx => hx) s0 (le_refl _) htc
  refine ⟨st1, ?_, ?_⟩
  · simp only [Heap.check_program, Heap.check_node, k1, Option.map_some', s1.errors]
    split_ifs at ho <;> subst ho <;> simp_all
  · split_ifs at ho <;> subst ho <;> exact s1

/-! ## Annotations are never erased, the tree is never changed -/

/-- C12: the checker never erases an annotation and writes nothing but
annotations.  With the AST in memory, whatever the memory holds and wherever the
walk starts: when `check_node` returns, and at the end of a pass, every address
holds a node exactly when it did before, every node has the kind, the payload
(name, children, literal payload), the token and the `next` link it had, and
every `type_info` that was non-null is non-null.  The same holds across each
step that assigns a `type_info` (the reference, publishing, binary and call
steps); the assignment is the one write to the memory, and it changes the
`type_info` of one node and nothing else; the other steps leave the memory as
it is.  So an annotation that is non-null at some point of a pass is non-null at
every later point and at its end.  Over the tree passed as an argument the same
is true of the `type_info` slots: a non-null slot stays non-null, at every
check and every step, and a slot other than those of the declarations,
references, binary nodes and calls the walk reaches holds what it held.  The
pass over the memory does return: when `node` is a tree without a fault that
lies in the memory, the pass from its address, with as much fuel as the tree is
high, returns the status of the pass over the tree, with the same diagnostics
and the same counter, and leaves the tree in the memory as it lay, annotated as
the pass over the tree says. -/
theorem annotations_never_erased (type_to_string : Ty → String) (node : ASTNode) :
    (∀ tc tc1, check_node type_to_string tc node = some tc1 →
      (∀ a, tc.type_info a ≠ none → tc1.type_info a ≠ none) ∧
      (∀ a, a ∉ written_slots node → tc1.type_info a = tc.type_info a) ∧
      tc1.pctx = tc.pctx) ∧
    (∀ ctx types o, check_program type_to_string ctx types node = some o →
      (∀ a, types a ≠ none → o.tc.type_info a ≠ none) ∧
      (∀ a, a ∉ written_slots node → o.tc.type_info a = types a)) ∧
    (∀ (tc : TypeChecker) (addr : Nat) (name : String) (a : Nat),
      tc.type_info a ≠ none → (check_expr_var tc addr name).type_info a ≠ none) ∧
    (∀ (tc tc1 : TypeChecker) (addr : Nat) (token : Token) (name : String) (init : ASTNode)
      (a : Nat), var_decl_publish tc addr token name init = some tc1 →
      tc.type_info a ≠ none → tc1.type_info a ≠ none) ∧
    (∀ (tc tc1 : TypeChecker) (addr : Nat) (token : Token) (left right : ASTNode) (a : Nat),
      binary_infer type_to_string tc addr token left right = some tc1 →
      tc.type_info a ≠ none → tc1.type_info a ≠ none) ∧
    (∀ (tc tc1 : TypeChecker) (addr : Nat) (callee : ASTNode) (a : Nat),
      call_propagate tc addr callee = some tc1 →
      tc.type_info a ≠ none → tc1.type_info a ≠ none) ∧
    (∀ (tc : TypeChecker) (target : Option Ty) (value_expr : ASTNode) (t : Token),
      (check_type_compatibility type_to_string tc target value_expr t).1.type_info =
        tc.type_info) ∧
    (∀ tc : TypeChecker, (tc_enter_scope tc).type_info = tc.type_info ∧
      (tc_exit_scope tc).type_info = tc.type_info) ∧
    (∀ (tc tc1 : TypeChecker) (name : String) (type : Option Ty) (t : Token),
      tc_add_symbol tc name type t = some tc1 → tc1.type_info = tc.type_info) ∧
    (∀ (fuel : Nat) (st st1 : Heap.Checker) (p : Option Nat),
      Heap.check_node type_to_string fuel st p = some st1 →
      ∀ a, (st1.ast a).map Heap.Node.shape = (st.ast a).map Heap.Node.shape ∧
        (∀ n, st.ast a = some n → n.type_info ≠ none →
          ∃ n1, st1.ast a = some n1 ∧ n1.type_info ≠ none)) ∧
    (∀ (fuel : Nat) (ctx : ParserContext) (ast : Nat → Option Heap.Node) (root : Option Nat)
      (status : Int) (st1 : Heap.Checker),
      Heap.check_program type_to_string fuel ctx ast root = some (status, st1) →
      ∀ a, (st1.ast a).map Heap.Node.shape = (ast a).map Heap.Node.shape ∧
        (∀ n, ast a = some n → n.type_info ≠ none →
          ∃ n1, st1.ast a = some n1 ∧ n1.type_info ≠ none)) ∧
    (∀ (st st1 : Heap.Checker) (a : Nat) (t : Option Ty),
      st.set_type_info a t = some st1 →
      (∀ b, (st1.ast b).map Heap.Node.shape = (st.ast b).map Heap.Node.shape) ∧
      (∀ b, b ≠ a → st1.ast b = st.ast b) ∧
      st1.current_scope = st.current_scope ∧ st1.current_func = st.current_func ∧
      st1.error_count = st.error_count ∧ st1.stderr = st.stderr ∧ st1.pctx = st.pctx) ∧
    (∀ (st st1 : Heap.Checker) (a : Nat),
      (Heap.check_expr_var st a = some st1 → Heap.preserved st.ast st1.ast) ∧
      (Heap.var_decl_publish st a = some st1 → Heap.preserved st.ast st1.ast) ∧
      (Heap.binary_infer type_to_string st a = some st1 → Heap.preserved st.ast st1.ast) ∧
      (Heap.call_propagate st a = some st1 → Heap.preserved st.ast st1.ast) ∧
      (Heap.var_decl_compat type_to_string st a = some st1 → st1.ast = st.ast) ∧
      (Heap.return_compat type_to_string st a = some st1 → st1.ast = st.ast)) ∧
    (∀ (st : Heap.Checker) (t : Token) (msg : String),
      (Heap.tc_error st t msg).ast = st.ast ∧ (Heap.tc_enter_scope st).ast = st.ast ∧
      (Heap.tc_exit_scope st).ast = st.ast) ∧
    (∀ (st st1 : Heap.Checker) (name : String) (type : Option Ty) (t : Token),
      Heap.tc_add_symbol st name type t = some st1 → st1.ast = st.ast) ∧
    (∀ (ctx : ParserContext) (types : Nat → Option Ty) (m : Nat → Option Heap.Node),
      fault_free 0 node = true → Heap.laid_out m types node = true →
      ∃ o st1, check_program type_to_string ctx types node = some o ∧
        Heap.check_program type_to_string node.height ctx m node.addr =
          some (o.status, st1) ∧
        st1.error_count = o.tc.error_count ∧ st1.stderr = o.tc.stderr ∧
        Heap.laid_out st1.ast o.tc.type_info node = true ∧
        Heap.preserved m st1.ast) := by
  refine ⟨?_, ?_, ?_, ?_, ?_, ?_, ?_, ?_, ?_, ?_, ?_, ?_, ?_, ?_, ?_, ?_⟩
  · intro tc tc1 h
    have p := check_node_aux_progress _ _ _ _ _ h
    exact ⟨p.types, fun a ha => check_node_aux_frame _ a _ _ _ _ h ha, p.pctx⟩
  · intro ctx types o h
    simp only [check_program, Option.map_eq_some'] at h
    obtain ⟨tc, htc, ho⟩ := h
    have p := check_node_aux_progress _ _ _ _ _ htc
    have hf := fun a ha => check_node_aux_frame type_to_string a _ _ _ _ htc ha
    split_ifs at ho <;> subst ho <;> exact ⟨p.types, hf⟩
  · intro tc addr name a
    exact (check_expr_var_progress tc addr name).types a
  · intro tc tc1 addr token name init a h
    exact (var_decl_publish_progress h).types a
  · intro tc tc1 addr token left right a h
    exact (binary_infer_progress h).types a
  · intro tc tc1 addr callee a h
    exact (call_propagate_progress h).types a
  · intro tc target value_expr t
    exact (check_type_compatibility_type_info _ _ _ _ _).1
  · intro tc
    exact ⟨rfl, tc_exit_scope_type_info tc⟩
  · intro tc tc1 name type t h
    exact tc_add_symbol_type_info h
  · intro fuel st st1 p h
    exact heap_check_node_aux_preserved type_to_string fuel false st p st1 h
  · intro fuel ctx ast root status st1 h
    simp only [Heap.check_program, Option.map_eq_some'] at h
    obtain ⟨st2, h2, ho⟩ := h
    have hp := heap_check_node_aux_preserved type_to_string fuel false _ root st2 h2
    have he : st2 = st1 := by
      split_ifs at ho <;> simp only [Prod.mk.injEq] at ho <;> exact ho.2
    subst he
    exact hp
  · intro st st1 a t h
    have hp := heap_set_type_info_shape h
    unfold Heap.Checker.set_type_info at h
    split at h
    · exact absurd h (by simp)
    · simp only [Option.some.injEq] at h
      subst h
      exact ⟨hp, fun b hb => by simp only [if_neg hb], rfl, rfl, rfl, rfl, rfl⟩
  · intro st st1 a
    exact ⟨heap_check_expr_var_preserved, heap_var_decl_publish_preserved,
      heap_binary_infer_preserved, heap_call_propagate_preserved, heap_var_decl_compat_ast,
      heap_return_compat_ast⟩
  · intro st t msg
    exact ⟨rfl, rfl, heap_tc_exit_scope_ast st⟩
  · intro st st1 name type t h
    exact heap_tc_add_symbol_ast h
  · intro ctx types m hf hm
    have hs : (check_program type_to_string ctx types node).isSome = true := by
      simp only [check_program, check_node, Option.isSome_map']
      rw [check_node_aux_isSome]
      exact hf
    obtain ⟨o, ho⟩ := Option.isSome_iff_exists.mp hs
    obtain ⟨st1, k1, s1⟩ := heap_check_program_follows type_to_string ctx types m node o hm ho
    refine ⟨o, st1, ho, k1, s1.errors, s1.stderr, stands_for_laid_out s1, ?_⟩
    simp only [Heap.check_program, Option.map_eq_some'] at k1
    obtain ⟨st2, h2, hst⟩ := k1
    have hp := heap_check_node_aux_preserved type_to_string node.height false _ node.addr st2 h2
    have he : st2 = st1 := by
      split_ifs at hst <;> simp only [Prod.mk.injEq] at hst <;> exact hst.2
    subst he
    exact hp

set_option maxRecDepth 100000 in
/-- C12, witness: the pass over `fn main() -> void { { let x: i32 = 0; } let y:
i32 = x; }` returns; the declaration of `x`, at address 4, annotated `i32`
before the pass, is still annotated after it, and the slot of the literal, at
address 5, which the checker never assigns, holds what it held.  With the same
tree laid out in memory the pass returns as well, and the node at address 4 is
the declaration of `x` it was, with its literal at 5 and no `next`, and still
annotated.  The tree has no fault and lies in that memory, so the pass over the
memory, with as much fuel as the tree is high, returns what the pass over the
tree returns. -/
theorem annotations_never_erased_witness :
    (∃ o, check_program type_names ⟨0⟩ out_of_scope_types out_of_scope_use = some o ∧
      o.tc.type_info 4 ≠ none ∧ o.tc.type_info 5 = out_of_scope_types 5) ∧
    (∃ status st1,
      Heap.check_program type_names 6 ⟨0⟩
        (Heap.store out_of_scope_types out_of_scope_use fun _ => none) (some 0) =
        some (status, st1) ∧
      (st1.ast 4).map Heap.Node.shape =
        some (Heap.Payload.var_decl "x" (some 5), at_line 2, none) ∧
      ∃ n1, st1.ast 4 = some n1 ∧ n1.type_info ≠ none) ∧
    (fault_free 0 out_of_scope_use = true ∧
      Heap.laid_out (Heap.store out_of_scope_types out_of_scope_use fun _ => none)
        out_of_scope_types out_of_scope_use = true ∧
      ∃ o st1, check_program type_names ⟨0⟩ out_of_scope_types out_of_scope_use = some o ∧
        Heap.check_program type_names out_of_scope_use.height ⟨0⟩
          (Heap.store out_of_scope_types out_of_scope_use fun _ => none)
          out_of_scope_use.addr = some (o.status, st1) ∧
        st1.error_count = o.tc.error_count ∧ st1.stderr = o.tc.stderr ∧
        Heap.laid_out st1.ast o.tc.type_info out_of_scope_use = true ∧
        Heap.preserved (Heap.store out_of_scope_types out_of_scope_use fun _ => none)
          st1.ast) := by
  refine ⟨?_, ?_, by decide, by decide,
    (annotations_never_erased type_names out_of_scope_use).2.2.2.2.2.2.2.2.2.2.2.2.2.2.2 ⟨0⟩
      out_of_scope_types (Heap.store out_of_scope_types out_of_scope_use fun _ => none)
      (by decide) (by decide)⟩
  · have hs : (check_program type_names ⟨0⟩ out_of_scope_types out_of_scope_use).isSome = true :=
      by decide
    obtain ⟨o, ho⟩ := Option.isSome_iff_exists.mp hs
    obtain ⟨h1, h2⟩ := (annotations_never_erased type_names out_of_scope_use).2.1 ⟨0⟩
      out_of_scope_types o ho
    exact ⟨o, ho, h1 4 (by decide), h2 5 (by decide)⟩
  · have hs : (Heap.check_program type_names 6 ⟨0⟩
        (Heap.store out_of_scope_types out_of_scope_use fun _ => none) (some 0)).isSome =
        true := by decide
    obtain ⟨r, hr⟩ := Option.isSome_iff_exists.mp hs
    obtain ⟨h1, h2⟩ := (annotations_never_erased type_names out_of_scope_use).2.2.2.2.2.2.2.2.2.2.1
      6 ⟨0⟩ (Heap.store out_of_scope_types out_of_scope_use fun _ => none) (some 0) r.1 r.2 hr 4
    refine ⟨r.1, r.2, hr, ?_, ?_⟩
    · rw [h1]
      decide
    · exact h2 ⟨.var_decl "x" (some 5), at_line 2, none, some .I32⟩ (by decide) (by decide)

end Typecheck
